import Mathlib

/-!
# Shield browser: proxy lifecycle manager, credential-line parser, fingerprint engine

A shallow embedding of `src/proxy-manager.js` (the sql.js backed proxy pool), of the
part of `src/main.js` that drives it (`ipcMain.handle('iniciar-sesion')`) and of
`src/fingerprint-engine.js` (the geo-localised and the local fingerprint).

Modelling conventions

* A JavaScript string is a `List Char` (`Str`).  Every string primitive used by the source
  (`trim`, `split(':')`, `indexOf('@')`, `startsWith`, `includes`, `join(':')`) looks only at
  characters of the Basic Multilingual Plane, so working on code points instead of UTF-16
  code units does not change any result.
* A JavaScript number that the source only compares and increments is an `Int`; `NaN` and
  `undefined` are `none`.
* The `proxies` table is a list of rows together with the `sqlite_sequence` counter of the
  `AUTOINCREMENT` primary key.  Every function of the module is modelled as a function from
  the table to the new table and the returned value; `await initDB()` and `saveDB()` do not
  change the table.
* The clock (`new Date().toISOString()`) and the file system (`fs.readFileSync`) are inputs.

The definitions come first, the theorems after them.
-/

namespace ShieldBrowser

/-- A JavaScript string, as the list of its characters. -/
abbrev Str := List Char

/-! ## JavaScript string primitives -/

/-- The characters removed by `String.prototype.trim` and skipped by `parseInt`
(ECMAScript `WhiteSpace` and `LineTerminator`). -/
def isJsSpace (c : Char) : Bool :=
  c.toNat = 0x09 || c.toNat = 0x0A || c.toNat = 0x0B || c.toNat = 0x0C || c.toNat = 0x0D ||
  c.toNat = 0x20 || c.toNat = 0xA0 || c.toNat = 0x1680 ||
  (0x2000 ≤ c.toNat && c.toNat ≤ 0x200A) ||
  c.toNat = 0x2028 || c.toNat = 0x2029 || c.toNat = 0x202F || c.toNat = 0x205F ||
  c.toNat = 0x3000 || c.toNat = 0xFEFF

/-- The JavaScript `s.trimStart()`. -/
def trimStart (s : Str) : Str := s.dropWhile isJsSpace

/-- The JavaScript `s.trimEnd()`. -/
def trimEnd (s : Str) : Str := (s.reverse.dropWhile isJsSpace).reverse

/-- The JavaScript `s.trim()`. -/
def trim (s : Str) : Str := trimEnd (trimStart s)

/-- The JavaScript `s.split(sep)` for a one-character separator: never the empty array. -/
def split (sep : Char) : Str → List Str
  | [] => [[]]
  | c :: cs =>
    if c = sep then [] :: split sep cs
    else
      match split sep cs with
      | [] => [[c]]
      | p :: ps => (c :: p) :: ps

/-- The JavaScript `parts.join(sep)` for a one-character separator. -/
def join (sep : Char) : List Str → Str
  | [] => []
  | [x] => x
  | x :: y :: rest => x ++ sep :: join sep (y :: rest)

/-- The JavaScript `s.startsWith(c)` for a one-character argument. -/
def startsWith (c : Char) (s : Str) : Bool :=
  match s with
  | [] => false
  | d :: _ => d == c

/-- The JavaScript `s.includes(c)` for a one-character argument. -/
def includes (c : Char) (s : Str) : Bool := s.contains c

/-- The JavaScript `s.indexOf(c)` when `c` occurs in `s` (the length of `s` otherwise; the
source only calls it after `includes`). -/
def indexOf (c : Char) : Str → Nat
  | [] => 0
  | d :: ds => if d = c then 0 else indexOf c ds + 1

/-- The JavaScript `parts.slice(a, b)`, for `0 ≤ a` and `0 ≤ b`. -/
def slice (a b : Nat) (parts : List Str) : List Str := (parts.take b).drop a

/-! ## `parseInt(s, 10)` -/

/-- A decimal digit. -/
def isDigit (c : Char) : Bool := 48 ≤ c.toNat && c.toNat ≤ 57

/-- The value of a decimal digit. -/
def digitVal (c : Char) : Nat := c.toNat - 48

/-- The value of a string of decimal digits, most significant first. -/
def digitsValue (ds : Str) : Nat := ds.foldl (fun acc c => 10 * acc + digitVal c) 0

/-- The JavaScript `parseInt(s, 10)`: skip leading white space, read an optional sign, then
the longest run of decimal digits; `none` is `NaN`.  The source only tests the result with
`isNaN`, compares it with `1` and `65535`, or adds a small integer to it, so the exact
integer stands for the double that JavaScript computes. -/
def parseInt (s : Str) : Option Int :=
  let t := trimStart s
  let neg := startsWith '-' t
  let body := if startsWith '-' t || startsWith '+' t then t.drop 1 else t
  let ds := body.takeWhile isDigit
  if ds.isEmpty then none
  else some (if neg then - (digitsValue ds : Int) else (digitsValue ds : Int))

/-- The test `x >= 1 && x <= 65535` on a `parseInt` result (false on `NaN`). -/
def esPuerto (x : Option Int) : Bool :=
  match x with
  | none => false
  | some v => decide (1 ≤ v) && decide (v ≤ 65535)

/-- The JavaScript `isNaN(x)` on a `parseInt` result. -/
def esNaN (x : Option Int) : Bool := x.isNone

/-! ## `parsearLineaProxy` -/

/-- The object `{ ip, puerto, usuario, password }` returned by `parsearLineaProxy`. -/
structure ProxyParsed where
  ip : Str
  puerto : Int
  usuario : Str
  password : Str
deriving DecidableEq, Repr

/-- The four local variables `let ip, puerto, usuario, password;` of `parsearLineaProxy`;
`none` is `undefined`. -/
structure Vars where
  ip : Option Str
  puerto : Option Int
  usuario : Option Str
  password : Option Str
deriving DecidableEq, Repr

/-- All four variables `undefined`. -/
def Vars.vacio : Vars := ⟨none, none, none, none⟩

/-- The JavaScript `!x` for a variable holding a string or `undefined`. -/
def noStr (x : Option Str) : Bool :=
  match x with
  | none => true
  | some s => s.isEmpty

/-- The JavaScript `!x` for a variable holding a number or `undefined`. -/
def noNum (x : Option Int) : Bool :=
  match x with
  | none => true
  | some v => decide (v = 0)

/-- The block `// Formato 1` of `parsearLineaProxy` (lines 210-240): the line holds an `@`
that is not its first character. -/
def formato1 (trimmed : Str) : Vars :=
  if includes '@' trimmed && !startsWith '@' trimmed then
    let atIndex := indexOf '@' trimmed
    let hostPort := trimmed.take atIndex
    let userPass := trimmed.drop (atIndex + 1)
    let hostPortParts := split ':' hostPort
    let userPassParts := split ':' userPass
    if 2 ≤ hostPortParts.length ∧ 2 ≤ userPassParts.length then
      let possiblePort1 := parseInt (hostPortParts.getD 1 [])
      let possiblePort2 := parseInt (userPassParts.getD 1 [])
      if esPuerto possiblePort1 && esNaN possiblePort2 then
        ⟨hostPortParts.head?, possiblePort1, userPassParts.head?,
          some (join ':' (userPassParts.drop 1))⟩
      else if esPuerto possiblePort2 then
        ⟨userPassParts.head?, possiblePort2, hostPortParts.head?,
          some (join ':' (hostPortParts.drop 1))⟩
      else Vars.vacio
    else Vars.vacio
  else Vars.vacio

/-- The block `// Formato 2` of `parsearLineaProxy` (lines 242-269), entered with the
variables left by the first block. -/
def formato2 (trimmed : Str) (v : Vars) : Vars :=
  if noStr v.ip || noNum v.puerto then
    let parts := split ':' trimmed
    if 4 ≤ parts.length then
      let possiblePort := parseInt (parts.getD 1 [])
      if esPuerto possiblePort then
        ⟨parts.head?, possiblePort, parts.get? 2, some (join ':' (parts.drop 3))⟩
      else
        let lastPort := parseInt (parts.getD (parts.length - 1) [])
        if esPuerto lastPort then
          ⟨parts.get? (parts.length - 2), lastPort, parts.head?,
            some (join ':' (slice 1 (parts.length - 2) parts))⟩
        else v
    else v
  else v

/-- The final validation of `parsearLineaProxy` (lines 271-281). -/
def validar (v : Vars) : Option ProxyParsed :=
  match v.ip, v.puerto, v.usuario, v.password with
  | some ip, some puerto, some usuario, some password =>
    if ip.isEmpty || decide (puerto = 0) || usuario.isEmpty || password.isEmpty then none
    else if decide (ip.length < 1) || includes ' ' ip then none
    else some ⟨ip, puerto, usuario, password⟩
  | _, _, _, _ => none

/-- The function `parsearLineaProxy(linea)` of `src/proxy-manager.js`, for a string argument
(the empty string is the falsy case of `!linea`). -/
def parsearLineaProxy (linea : Str) : Option ProxyParsed :=
  if linea.isEmpty then none
  else
    let trimmed := trim linea
    if trimmed.isEmpty || startsWith '#' trimmed then none
    else validar (formato2 trimmed (formato1 trimmed))

/-! ## The `proxies` table -/

/-- The text `'disponible'` (lifecycle state Available). -/
def disponible : Str := "disponible".toList

/-- The text `'BURNED'` (lifecycle state Burned). -/
def BURNED : Str := "BURNED".toList

/-- One row of the table `proxies` created by `initDB` (lines 54-70).  The nullable text
columns `poliza` and `poliza_updated_at` hold `''` for `NULL`: every reader of the source
applies `|| ''`, `parseInt(_, 10) || 0` or a truthiness test, which do not tell them apart. -/
structure Row where
  id : Nat
  ip : Str
  puerto : Int
  usuario : Str
  password : Str
  ubicacion : Str
  state_code : Str
  estado : Str
  sesionesCompletadas : Int
  poliza : Str
  poliza_updated_at : Str
  disabled : Int
deriving DecidableEq, Repr

/-- The database: the rows of `proxies` and the `sqlite_sequence` counter that
`AUTOINCREMENT` keeps for the table. -/
structure DB where
  rows : List Row
  seq : Nat
deriving DecidableEq, Repr

/-- The database created by `initDB` when no file exists: an empty table. -/
def DB.vacia : DB := ⟨[], 0⟩

/-- The largest `id` in a list of rows (`0` for none). -/
def maxId (rows : List Row) : Nat := rows.foldr (fun r m => max r.id m) 0

/-- The row id that `AUTOINCREMENT` gives to the next inserted row: one more than the largest
id that ever existed in the table. -/
def nextId (db : DB) : Nat := max db.seq (maxId db.rows) + 1

/-- The credential tuple of the constraint `UNIQUE(ip, puerto, usuario, password)`. -/
def Row.tupla (r : Row) : Str × Int × Str × Str := (r.ip, r.puerto, r.usuario, r.password)

/-- The credential tuple of a parsed line. -/
def ProxyParsed.tupla (p : ProxyParsed) : Str × Int × Str × Str :=
  (p.ip, p.puerto, p.usuario, p.password)

/-- The first row with the given id (`SELECT ... WHERE id = ?`, first result row). -/
def buscarPorId (db : DB) (id : Nat) : Option Row := db.rows.find? (fun r => r.id = id)

/-- The statement `UPDATE proxies SET ... WHERE id = ?`, with the assignment as a function. -/
def actualizarDonde (db : DB) (id : Nat) (f : Row → Row) : DB :=
  ⟨db.rows.map (fun r => if r.id = id then f r else r), db.seq⟩

/-! ## Region codes -/

/-- The JavaScript `c.toUpperCase()` on the letters `a`-`z`; every other character is left
as it is (exact on ASCII text). -/
def upperChar (c : Char) : Char :=
  if 97 ≤ c.toNat ∧ c.toNat ≤ 122 then Char.ofNat (c.toNat - 32) else c

/-- The JavaScript `s.toUpperCase()`, exact on ASCII text. -/
def toUpperCase (s : Str) : Str := s.map upperChar

/-- The JavaScript `s.length`: the number of UTF-16 code units. -/
def jsLength (s : Str) : Nat := (s.map (fun c => if c.toNat < 0x10000 then 1 else 2)).sum

/-- The function `normalizarEstado(stateCode)` (lines 150-156); `none` as argument is any
value that is not a string, `none` as result is `null`. -/
def normalizarEstado (stateCode : Option Str) : Option Str :=
  match stateCode with
  | none => none
  | some s =>
    if s.isEmpty then none
    else
      let trimmed := toUpperCase (trim s)
      if jsLength trimmed = 2 then some trimmed else none

/-- The class `\w` of a JavaScript regular expression without the `u` flag. -/
def isWord (c : Char) : Bool :=
  (97 ≤ c.toNat && c.toNat ≤ 122) || (65 ≤ c.toNat && c.toNat ≤ 90) || isDigit c || c = '_'

/-- The function `extraerEstadoDesdeUbicacion(ubicacion)` (lines 158-164): the two `\w`
characters that follow a hyphen and end the string, upper-cased; `none` as argument is any
value that is not a string. -/
def extraerEstadoDesdeUbicacion (ubicacion : Option Str) : Option Str :=
  match ubicacion with
  | none => none
  | some s =>
    if s.isEmpty then none
    else
      match s.reverse with
      | c2 :: c1 :: g :: _ =>
        if g = '-' ∧ isWord c1 ∧ isWord c2 then some (toUpperCase [c1, c2]) else none
      | _ => none

/-! ## Import -/

/-- The loop of `importarProxiesDesdeArchivo` over the lines of the file (lines 302-324):
the parsed records in file order and the number of invalid lines. -/
def leerLineas : List Str → List ProxyParsed × Nat
  | [] => ([], 0)
  | l :: ls =>
    let linea := trim l
    let resto := leerLineas ls
    if linea.isEmpty || startsWith '#' linea then resto
    else
      match parsearLineaProxy linea with
      | none => (resto.1, resto.2 + 1)
      | some p => (p :: resto.1, resto.2)

/-- One `INSERT OR REPLACE INTO proxies (ip, puerto, usuario, password, ubicacion,
state_code, estado, sesionesCompletadas) VALUES (?, ?, ?, ?, ?, ?, 'disponible', 0)`
(lines 336-340): the row in conflict on the `UNIQUE` tuple is deleted and a new row is
inserted under a fresh id, the other columns taking their defaults. -/
def insertOrReplace (db : DB) (estado : Str) (reg : ProxyParsed) : DB :=
  let id := nextId db
  ⟨db.rows.filter (fun r => r.tupla ≠ reg.tupla) ++
      [⟨id, reg.ip, reg.puerto, reg.usuario, reg.password, estado, estado, disponible, 0,
        [], [], 0⟩],
    id⟩

/-- The object returned by `importarProxiesDesdeArchivo`; `lineasInvalidas` is absent from
the failure results. -/
structure ResultadoImport where
  exito : Bool
  nodosCargados : Nat
  lineasInvalidas : Option Nat
deriving DecidableEq, Repr

/-- The function `importarProxiesDesdeArchivo(rutaArchivo, stateCode)` (lines 284-361).
`contenido` is what `fs.readFileSync(rutaArchivo, 'utf-8')` yields, `none` when it throws. -/
def importarProxiesDesdeArchivo (db : DB) (contenido : Option Str) (stateCode : Option Str) :
    DB × ResultadoImport :=
  match normalizarEstado stateCode with
  | none => (db, ⟨false, 0, none⟩)
  | some estadoNormalizado =>
    match contenido with
    | none => (db, ⟨false, 0, none⟩)
    | some texto =>
      let leido := leerLineas (split '\n' texto)
      let registros := leido.1
      if registros.isEmpty then (db, ⟨false, 0, none⟩)
      else
        (registros.foldl (fun d reg => insertOrReplace d estadoNormalizado reg) db,
          ⟨true, registros.length, some leido.2⟩)

/-! ## Allocation and credits -/

/-- The condition `state_code = '<estado>' AND estado = 'disponible' AND disabled = 0`. -/
def elegible (estado : Str) (r : Row) : Bool :=
  decide (r.state_code = estado) && decide (r.estado = disponible) && decide (r.disabled = 0)

/-- The clause `ORDER BY id DESC LIMIT 1`: a row of largest id, `none` for no rows. -/
def ultimoPorId : List Row → Option Row
  | [] => none
  | r :: rs =>
    match ultimoPorId rs with
    | none => some r
    | some m => if m.id ≤ r.id then some r else some m

/-- The function `obtenerSiguienteNodo(ubicacion)` (lines 363-395).  The returned object is
the selected row (`mapearNodo` renames `state_code` to `stateCode` and keeps the values). -/
def obtenerSiguienteNodo (db : DB) (ubicacion : Option Str) : Option Row :=
  match extraerEstadoDesdeUbicacion ubicacion with
  | none => none
  | some estado => ultimoPorId (db.rows.filter (elegible estado))

/-- The function `incrementarSesiones(proxyId)` (lines 540-556): the new database and the
returned `{ sesionesCompletadas, estado }`, `none` for `'Proxy no encontrado'`.  The values
are read from the first row of the `SELECT` and written to every row of that id; the
`|| 0` on the counter read leaves an integer as it is. -/
def incrementarSesiones (db : DB) (proxyId : Nat) : DB × Option (Int × Str) :=
  match buscarPorId db proxyId with
  | none => (db, none)
  | some row =>
    let sesionesActuales := row.sesionesCompletadas
    let estadoActual := row.estado
    let nuevasSesiones := sesionesActuales + 1
    let nuevoEstado := if 3 ≤ nuevasSesiones then BURNED else estadoActual
    (actualizarDonde db proxyId
        (fun r => { r with sesionesCompletadas := nuevasSesiones, estado := nuevoEstado }),
      some (nuevasSesiones, nuevoEstado))

/-- The function `marcarSesionCompletada(nodoId)` (lines 409-443): the new database and the
returned `{ estado, sesionesCompletadas }`, `none` for `'Nodo no encontrado'`. -/
def marcarSesionCompletada (db : DB) (nodoId : Nat) : DB × Option (Str × Int) :=
  match buscarPorId db nodoId with
  | none => (db, none)
  | some row =>
    let sesionesActuales := row.sesionesCompletadas
    let estadoActual := row.estado
    let nuevasSesiones := sesionesActuales + 1
    let nuevoEstado := if 3 ≤ nuevasSesiones then BURNED else estadoActual
    (actualizarDonde db nodoId
        (fun r => { r with sesionesCompletadas := nuevasSesiones, estado := nuevoEstado }),
      some (nuevoEstado, nuevasSesiones))

/-- The JavaScript `n.toString()` of an integer. -/
def intToStr (n : Int) : Str :=
  if n < 0 then '-' :: Nat.toDigits 10 n.natAbs else Nat.toDigits 10 n.toNat

/-- The function `actualizarPoliza(proxyId, poliza)` (lines 517-523); `ahora` is
`new Date().toISOString()`. -/
def actualizarPoliza (db : DB) (proxyId : Nat) (poliza : Str) (ahora : Str) : DB :=
  actualizarDonde db proxyId (fun r => { r with poliza := poliza, poliza_updated_at := ahora })

/-- The function `sumarPoliza(proxyId, cantidad)` (lines 525-538): the new database and the
returned `{ poliza, poliza_updated_at }`, `none` for `'Proxy no encontrado'`. -/
def sumarPoliza (db : DB) (proxyId : Nat) (cantidad : Int) (ahora : Str) :
    DB × Option (Int × Str) :=
  match buscarPorId db proxyId with
  | none => (db, none)
  | some row =>
    let polizaActual := (parseInt row.poliza).getD 0
    let nuevaPoliza := polizaActual + cantidad
    (actualizarDonde db proxyId
        (fun r => { r with poliza := intToStr nuevaPoliza, poliza_updated_at := ahora }),
      some (nuevaPoliza, ahora))

/-- The function `toggleDisabled(proxyId)` (lines 558-570): the new database and the
returned flag, `none` for `'Proxy no encontrado'`; `currentDisabled ? 0 : 1` is 0 on every
number other than 0. -/
def toggleDisabled (db : DB) (proxyId : Nat) : DB × Option Int :=
  match buscarPorId db proxyId with
  | none => (db, none)
  | some row =>
    let currentDisabled := row.disabled
    let newDisabled : Int := if currentDisabled ≠ 0 then 0 else 1
    (actualizarDonde db proxyId (fun r => { r with disabled := newDisabled }),
      some newDisabled)

/-! ## Sequences of operations -/

/-- One call of a mutating function of the module. -/
inductive Op where
  | importar (contenido : Option Str) (stateCode : Option Str)
  | incrementar (proxyId : Nat)
  | marcar (nodoId : Nat)
  | sumar (proxyId : Nat) (cantidad : Int) (ahora : Str)
  | actualizar (proxyId : Nat) (poliza : Str) (ahora : Str)
  | toggle (proxyId : Nat)
deriving DecidableEq, Repr

/-- The database after one call. -/
def aplicar (db : DB) : Op → DB
  | Op.importar contenido stateCode => (importarProxiesDesdeArchivo db contenido stateCode).1
  | Op.incrementar proxyId => (incrementarSesiones db proxyId).1
  | Op.marcar nodoId => (marcarSesionCompletada db nodoId).1
  | Op.sumar proxyId cantidad ahora => (sumarPoliza db proxyId cantidad ahora).1
  | Op.actualizar proxyId poliza ahora => actualizarPoliza db proxyId poliza ahora
  | Op.toggle proxyId => (toggleDisabled db proxyId).1

/-- The database after a sequence of calls, in order. -/
def ejecutar (db : DB) (ops : List Op) : DB := ops.foldl aplicar db

/-! ## Example data -/

/-- An example table: two Florida nodes (one Available, one Burned), a disabled Florida node
and a New York node. -/
def dbEjemplo : DB :=
  ⟨[⟨1, "1.2.3.4".toList, 8080, "user".toList, "pass".toList, "FL".toList, "FL".toList,
      disponible, 0, [], [], 0⟩,
    ⟨2, "1.2.3.5".toList, 8080, "user".toList, "pass".toList, "FL".toList, "FL".toList,
      BURNED, 3, [], [], 0⟩,
    ⟨3, "1.2.3.6".toList, 8080, "user".toList, "pass".toList, "FL".toList, "FL".toList,
      disponible, 0, [], [], 1⟩,
    ⟨4, "1.2.3.7".toList, 8080, "user".toList, "pass".toList, "NY".toList, "NY".toList,
      disponible, 2, [], [], 0⟩], 4⟩

/-! ## Session credits -/

/-- The row left by one session credit, in the words of the specification: the counter is
incremented and the state becomes `'BURNED'` when the new counter is at least 3. -/
def Row.acreditada (row : Row) : Row :=
  { row with
    sesionesCompletadas := row.sesionesCompletadas + 1
    estado := if 3 ≤ row.sesionesCompletadas + 1 then BURNED else row.estado }

/-! ## The lifecycle invariant -/

/-- The state of a row agrees with its session counter. -/
def Row.coherente (r : Row) : Prop :=
  r.estado = if 3 ≤ r.sesionesCompletadas then BURNED else disponible

/-- The invariant of the table: distinct ids and coherent rows. -/
def Inv (db : DB) : Prop :=
  (db.rows.map Row.id).Nodup ∧ ∀ r ∈ db.rows, r.coherente

/-! ## Burned is terminal, up to re-import -/

/-- The records that an import of the given file content would upsert. -/
def registrosDe (contenido : Option Str) : List ProxyParsed :=
  match contenido with
  | none => []
  | some texto => (leerLineas (split '\n' texto)).1

/-- The operation is an import whose file holds a valid line for the credential tuple. -/
def Op.importaTupla (t : Str × Int × Str × Str) : Op → Bool
  | Op.importar contenido _ => (registrosDe contenido).any (fun p => decide (p.tupla = t))
  | _ => false

/-- The rows of credential tuple `t` are the same nodes in both tables, none of them with
fewer sessions than before and none of them moved out of `'BURNED'`. -/
def Evol (t : Str × Int × Str × Str) (db db2 : DB) : Prop :=
  (∀ r2 ∈ db2.rows, r2.tupla = t → ∃ r ∈ db.rows, r.id = r2.id ∧ r.tupla = t ∧
    r.sesionesCompletadas ≤ r2.sesionesCompletadas ∧
    (r.estado = BURNED → r2.estado = BURNED)) ∧
  (∀ r ∈ db.rows, r.tupla = t → ∃ r2 ∈ db2.rows, r2.id = r.id ∧ r2.tupla = t ∧
    r.sesionesCompletadas ≤ r2.sesionesCompletadas ∧ (r.estado = BURNED → r2.estado = BURNED))

/-! ## Successive sessions: a node is handed out until it is Burned -/

/-- The allocation part of the handler `ipcMain.handle('iniciar-sesion')` in mode `'geo'`
(`src/main.js`, lines 174-200): `obtenerSiguienteNodo(ubicacion)` and, when a node comes
back, `incrementarSesiones(nodo.id)` at once.  The result is the new table and the node. -/
def iniciarSesionGeo (db : DB) (ubicacion : Option Str) : DB × Option Row :=
  match obtenerSiguienteNodo db ubicacion with
  | none => (db, none)
  | some nodo => ((incrementarSesiones db nodo.id).1, some nodo)

/-- The given number of sessions started one after the other for the same location: the
final table and the node (or `none`) each one received, in order. -/
def sesionesSucesivas (db : DB) (ubicacion : Option Str) : Nat → DB × List (Option Row)
  | 0 => (db, [])
  | n + 1 =>
    let primera := iniciarSesionGeo db ubicacion
    let resto := sesionesSucesivas primera.1 ubicacion n
    (resto.1, primera.2 :: resto.2)

/-- The ids of the nodes handed out, in order. -/
def idsEntregados (res : List (Option Row)) : List Nat := res.filterMap (Option.map Row.id)

/-- The number of sessions a row can still receive for the region: none when it is not
eligible, otherwise the number of credits that take it to the threshold of 3 (one when it
is already at 2 or more). -/
def cupo (estado : Str) (r : Row) : Nat :=
  if elegible estado r then (max 1 (3 - r.sesionesCompletadas)).toNat else 0

/-- The total number of sessions the region can still receive. -/
def cupoTotal (estado : Str) (db : DB) : Nat := (db.rows.map (cupo estado)).sum

/-- The number of sessions the rows of the given id can still receive. -/
def cupoDeId (estado : Str) (db : DB) (id : Nat) : Nat :=
  (db.rows.map (fun r => if r.id = id then cupo estado r else 0)).sum

/-! ## Two requests in flight -/

/-- A request of the handler `'iniciar-sesion'` in flight, past the test
`browserInstance !== null` (the variable is only set once the browser has been launched,
after both calls): the number of its steps already done (0: nothing, 1:
`obtenerSiguienteNodo` has returned, 2: `incrementarSesiones` has returned) and its local
variable `nodo`. -/
structure Peticion where
  paso : Nat
  nodo : Option Row
deriving DecidableEq, Repr

/-- A request that has not started. -/
def Peticion.inicial : Peticion := ⟨0, none⟩

/-- The step `await proxyManager.incrementarSesiones(nodo.id)` of a request, skipped when
`nodo` is `null`. -/
def acreditarNodo (db : DB) (nodo : Option Row) : DB :=
  match nodo with
  | none => db
  | some n => (incrementarSesiones db n.id).1

/-- The next step of a request.  Each of the two calls runs without interruption once its
`await initDB()` has returned (JavaScript runs a function to its next `await`), so another
request can only run before, between or after them. -/
def avanzar (db : DB) (ubicacion : Option Str) (p : Peticion) : DB × Peticion :=
  if p.paso = 0 then (db, ⟨1, obtenerSiguienteNodo db ubicacion⟩)
  else if p.paso = 1 then (acreditarNodo db p.nodo, ⟨2, p.nodo⟩)
  else (db, p)

/-- The table and two requests `a` and `b` in flight. -/
structure Carrera where
  db : DB
  a : Peticion
  b : Peticion
deriving DecidableEq, Repr

/-- Run a plan: `true` lets request `a` take its next step, `false` request `b`. -/
def correr (ubicacion : Option Str) : Carrera → List Bool → Carrera
  | c, [] => c
  | c, true :: plan =>
    correr ubicacion ⟨(avanzar c.db ubicacion c.a).1, (avanzar c.db ubicacion c.a).2, c.b⟩ plan
  | c, false :: plan =>
    correr ubicacion ⟨(avanzar c.db ubicacion c.b).1, c.a, (avanzar c.db ubicacion c.b).2⟩ plan

/-- A plan is an interleaving of the two requests when each takes its two steps. -/
def esEntrelazado (plan : List Bool) : Prop := plan.count true = 2 ∧ plan.count false = 2

instance (plan : List Bool) : Decidable (esEntrelazado plan) := by
  unfold esEntrelazado
  infer_instance

/-- The credit a request gives to the node of the given id: 1 when it received that node. -/
def creditoDe (nodo : Option Row) (id : Nat) : Int :=
  if nodo.map Row.id = some id then 1 else 0

/-- Two requests started on the table and run along the plan. -/
def carrera (db : DB) (ubicacion : Option Str) (plan : List Bool) : Carrera :=
  correr ubicacion ⟨db, Peticion.inicial, Peticion.inicial⟩ plan

/-! ## Strings without white space at their ends -/

/-- The last character, if any, is not white space. -/
def finLimpio (s : Str) : Prop := ∀ c, s.getLast? = some c → isJsSpace c = false

/-- The first character, if any, is not white space. -/
def inicioLimpio (s : Str) : Prop := ∀ c, s.head? = some c → isJsSpace c = false

/-! ## Counting the lines of an import file -/

/-- A line that the import loop does not skip: once trimmed it is neither empty nor a
comment starting with `#`. -/
def esLineaUtil (l : Str) : Bool := !((trim l).isEmpty || startsWith '#' (trim l))

/-- The number of non-blank, non-comment lines of the text that `parsearLineaProxy`
accepts. -/
def lineasValidas (texto : Str) : Nat :=
  ((split '\n' texto).filter
    (fun l => esLineaUtil l && (parsearLineaProxy l).isSome)).length

/-- The number of non-blank, non-comment lines of the text that `parsearLineaProxy`
rejects. -/
def lineasMalformadas (texto : Str) : Nat :=
  ((split '\n' texto).filter
    (fun l => esLineaUtil l && (parsearLineaProxy l).isNone)).length

/-! ## Region codes made of ASCII characters -/

/-- Every character of the string is an ASCII character; on such strings the model of
`toUpperCase` is exact. -/
def esAscii (s : Str) : Prop := ∀ c ∈ s, c.toNat < 128

instance (s : Str) : Decidable (esAscii s) := by
  unfold esAscii
  infer_instance

/-! ## Rows as an import leaves them -/

/-- The row is as `INSERT OR REPLACE` writes it for the region `e`: tagged with `e`,
Available, with no session, enabled, and with the default (empty) policy columns. -/
def Row.recienImportada (e : Str) (row : Row) : Prop :=
  row.state_code = e ∧ row.ubicacion = e ∧ row.estado = disponible ∧
  row.sesionesCompletadas = 0 ∧ row.disabled = 0 ∧ row.poliza = [] ∧
  row.poliza_updated_at = []

/-- The table has no two rows with the same id and no two rows with the same credential
tuple. -/
def SinRepetidos (db : DB) : Prop :=
  (db.rows.map Row.id).Nodup ∧ (db.rows.map Row.tupla).Nodup

/-! ## Policy credits -/

/-- The policy-credit total of a row, as every reader of the source computes it:
`parseInt(poliza, 10) || 0`. -/
def Row.polizas (r : Row) : Int := (parseInt r.poliza).getD 0

/-- The largest integer that a JavaScript number holds exactly together with all smaller
ones (`Number.MAX_SAFE_INTEGER`, 2^53 - 1). -/
def maxEnteroSeguro : Int := 9007199254740991

/-- The policy step of the handler `ipcMain.handle('finalizar-sesion')` (`src/main.js`,
lines 616-627): `sumarPoliza` is called only under the test
`nodoActual && polizasCreadas && polizasCreadas > 0`. -/
def finalizarSesionPolizas (db : DB) (nodoActual : Option Row) (polizasCreadas : Int)
    (ahora : Str) : DB :=
  match nodoActual with
  | none => db
  | some nodo =>
    if polizasCreadas ≠ 0 ∧ 0 < polizasCreadas then
      (sumarPoliza db nodo.id polizasCreadas ahora).1
    else db

/-- The object returned by `verificarAlertaPolizas`: `alerta`, and `ip` and `polizas` when
the alert is raised (the message is built from these two). -/
structure ResultadoAlerta where
  alerta : Bool
  ip : Option Str
  polizas : Option Int
deriving DecidableEq, Repr

/-- The constant `unaSemanaMs = 7 * 24 * 60 * 60 * 1000`. -/
def unaSemanaMs : Int := 7 * 24 * 60 * 60 * 1000

/-- The function `verificarAlertaPolizas(proxyId)` (lines 572-603).  `fechaMs s` is the time
value of `new Date(s)` in milliseconds, `none` for an invalid date (the difference is then
`NaN` and the comparison false); `ahora` is the time value of `new Date()`. -/
def verificarAlertaPolizas (fechaMs : Str → Option Int) (db : DB) (proxyId : Nat)
    (ahora : Int) : ResultadoAlerta :=
  match buscarPorId db proxyId with
  | none => ⟨false, none, none⟩
  | some row =>
    let polizaTotal := (parseInt row.poliza).getD 0
    let polizaUpdatedAt := row.poliza_updated_at
    let ip := row.ip
    if 3 ≤ polizaTotal ∧ ¬ polizaUpdatedAt.isEmpty then
      match fechaMs polizaUpdatedAt with
      | none => ⟨false, none, none⟩
      | some fechaActualizacion =>
        let diferencia := ahora - fechaActualizacion
        if diferencia < unaSemanaMs then ⟨true, some ip, some polizaTotal⟩
        else ⟨false, none, none⟩
    else ⟨false, none, none⟩

/-- The time value of `new Date(s)` on the one timestamp used in the examples,
`2026-01-01T00:00:00.000Z` (20454 days after the epoch); every other string is taken as an
invalid date. -/
def fechaEjemplo (s : Str) : Option Int :=
  if s = "2026-01-01T00:00:00.000Z".toList then some 1767225600000 else none

/-! ## The fingerprint engine (`src/fingerprint-engine.js`)

Numbers are exact rationals: the sums and products of the source are taken without the
rounding of floating point.  The values of `Math.random()`, the clock, the environment
variable behind `DEFAULT_OS_PROFILE` and the locale of the system are inputs. -/

/-- A decimal literal of the source, `mantisa / 10 ^ decimales`, with the digits as written:
`-74.0060` is `⟨-740060, 4⟩`. -/
structure Decimal where
  mantisa : Int
  decimales : Nat
deriving DecidableEq, Repr

/-- The number denoted by a decimal literal. -/
def Decimal.valor (d : Decimal) : ℚ := (d.mantisa : ℚ) / (10 : ℚ) ^ d.decimales

/-- The digits of a fraction without the zeros that end it. -/
def quitarCerosFinales (ds : Str) : Str := (ds.reverse.dropWhile (fun c => c = '0')).reverse

/-- The text of the number in a template string (`Number.prototype.toString`), for the
numbers of the catalogue (at most 15 significant digits, between 1e-6 and 1e21 in size):
the sign, the integer part and, if the fraction is not zero, a point and the fraction
without the zeros that end it. -/
def Decimal.aTexto (d : Decimal) : Str :=
  let ds0 := Nat.toDigits 10 d.mantisa.natAbs
  let ds := List.replicate (d.decimales + 1 - ds0.length) '0' ++ ds0
  let entera := ds.take (ds.length - d.decimales)
  let frac := quitarCerosFinales (ds.drop (ds.length - d.decimales))
  (if d.mantisa < 0 then ['-'] else []) ++ entera ++ (if frac.isEmpty then [] else '.' :: frac)

/-- One entry of `CIUDADES_USA`. -/
structure Ciudad where
  timezone : Str
  latitud : Decimal
  longitud : Decimal
  resoluciones : List Str
deriving DecidableEq, Repr

/-- The constant `CIUDADES_USA` (lines 23-96), in the order of the source. -/
def CIUDADES_USA : List (Str × Ciudad) :=
  [("New-York-NY".toList, ⟨"America/New_York".toList, ⟨407128, 4⟩, ⟨-740060, 4⟩,
      ["1920x1080".toList, "2560x1440".toList, "1366x768".toList, "1680x1050".toList,
        "1440x900".toList]⟩),
    ("Boston-MA".toList, ⟨"America/New_York".toList, ⟨423601, 4⟩, ⟨-710589, 4⟩,
      ["1920x1080".toList, "2560x1440".toList, "1680x1050".toList, "1440x900".toList,
        "1366x768".toList]⟩),
    ("Philadelphia-PA".toList, ⟨"America/New_York".toList, ⟨399526, 4⟩, ⟨-751652, 4⟩,
      ["1920x1080".toList, "1366x768".toList, "1680x1050".toList, "2560x1440".toList,
        "1440x900".toList]⟩),
    ("Baltimore-MD".toList, ⟨"America/New_York".toList, ⟨392904, 4⟩, ⟨-766122, 4⟩,
      ["1920x1080".toList, "1366x768".toList, "1440x900".toList, "1680x1050".toList,
        "2560x1440".toList]⟩),
    ("Washington-DC".toList, ⟨"America/New_York".toList, ⟨389072, 4⟩, ⟨-770369, 4⟩,
      ["1920x1080".toList, "2560x1440".toList, "1680x1050".toList, "1366x768".toList,
        "3840x2160".toList]⟩),
    ("Newark-NJ".toList, ⟨"America/New_York".toList, ⟨407357, 4⟩, ⟨-741724, 4⟩,
      ["1920x1080".toList, "1366x768".toList, "1680x1050".toList, "1440x900".toList,
        "2560x1440".toList]⟩),
    ("Hartford-CT".toList, ⟨"America/New_York".toList, ⟨417658, 4⟩, ⟨-726734, 4⟩,
      ["1920x1080".toList, "1366x768".toList, "1440x900".toList, "1680x1050".toList,
        "2560x1440".toList]⟩),
    ("Providence-RI".toList, ⟨"America/New_York".toList, ⟨418240, 4⟩, ⟨-714128, 4⟩,
      ["1920x1080".toList, "1680x1050".toList, "1366x768".toList, "1440x900".toList,
        "2560x1440".toList]⟩),
    ("Albany-NY".toList, ⟨"America/New_York".toList, ⟨426526, 4⟩, ⟨-737562, 4⟩,
      ["1920x1080".toList, "1366x768".toList, "1680x1050".toList, "1440x900".toList,
        "2560x1440".toList]⟩),
    ("Pittsburgh-PA".toList, ⟨"America/New_York".toList, ⟨404406, 4⟩, ⟨-799959, 4⟩,
      ["1920x1080".toList, "1366x768".toList, "1440x900".toList, "1680x1050".toList,
        "2560x1440".toList]⟩),
    ("Buffalo-NY".toList, ⟨"America/New_York".toList, ⟨428864, 4⟩, ⟨-788784, 4⟩,
      ["1920x1080".toList, "1366x768".toList, "1680x1050".toList, "1440x900".toList,
        "2560x1440".toList]⟩),
    ("Miami-FL".toList, ⟨"America/New_York".toList, ⟨257617, 4⟩, ⟨-801918, 4⟩,
      ["1920x1080".toList, "2560x1440".toList, "1366x768".toList, "1680x1050".toList,
        "3840x2160".toList]⟩)]

/-- One entry of `OS_PROFILES`. -/
structure OSProfile where
  id : Str
  etiqueta : Str
  platform : Str
  vendor : Str
  osVersion : Str
  deviceScaleFactor : Decimal
  maxTouchPoints : Nat
  hardwareConcurrency : List Nat
  deviceMemory : List Nat
  userAgents : List Str
  webglVendor : Str
  webglRenderers : List Str
  audioMode : Str
  fontsMode : Str
deriving DecidableEq, Repr

/-- The user agent of the three entries of `OS_PROFILES.mac.userAgents`. -/
def userAgentMac : Str :=
  ("Mozilla/5.0 (Macintosh; Intel Mac OS X 10_15_7) AppleWebKit/537.36 " ++
    "(KHTML, like Gecko) Chrome/142.0.0.0 Safari/537.36").toList

/-- The user agent of the three entries of `OS_PROFILES.windows.userAgents`. -/
def userAgentWindows : Str :=
  ("Mozilla/5.0 (Windows NT 10.0; Win64; x64) AppleWebKit/537.36 " ++
    "(KHTML, like Gecko) Chrome/142.0.0.0 Safari/537.36").toList

/-- The constant `OS_PROFILES` (lines 102-152). -/
def OS_PROFILES : List (Str × OSProfile) :=
  [("mac".toList,
      { id := "mac".toList
        etiqueta := "macOS Sonoma".toList
        platform := "MacIntel".toList
        vendor := "Google Inc.".toList
        osVersion := "Mac OS X 14.5".toList
        deviceScaleFactor := ⟨2, 0⟩
        maxTouchPoints := 0
        hardwareConcurrency := [8, 10, 12, 24]
        deviceMemory := [8, 16]
        userAgents := [userAgentMac, userAgentMac, userAgentMac]
        webglVendor := "Apple Inc.".toList
        webglRenderers :=
          ["ANGLE (Apple, ANGLE Metal Renderer: Apple M1, OpenGL ES 3.0)".toList,
            "ANGLE (Apple, ANGLE Metal Renderer: Apple M2, OpenGL ES 3.0)".toList,
            "ANGLE (Apple, ANGLE Metal Renderer: Apple M3, OpenGL ES 3.0)".toList,
            "Apple M2 Ultra".toList]
        audioMode := "noise".toList
        fontsMode := "emulate".toList }),
    ("windows".toList,
      { id := "windows".toList
        etiqueta := "Windows 11".toList
        platform := "Win32".toList
        vendor := "Google Inc.".toList
        osVersion := "Windows NT 10.0; Win64; x64".toList
        deviceScaleFactor := ⟨125, 2⟩
        maxTouchPoints := 0
        hardwareConcurrency := [8, 12, 16]
        deviceMemory := [8, 16]
        userAgents := [userAgentWindows, userAgentWindows, userAgentWindows]
        webglVendor := "Google Inc. (Intel)".toList
        webglRenderers :=
          ["ANGLE (Intel, Intel(R) UHD Graphics 630 Direct3D11 vs_5_0 ps_5_0, D3D11)".toList,
            "ANGLE (NVIDIA, NVIDIA GeForce RTX 3060 Direct3D11 vs_5_0 ps_5_0, D3D11)".toList,
            "ANGLE (AMD, AMD Radeon RX 6600 Direct3D11 vs_5_0 ps_5_0, D3D11)".toList]
        audioMode := "noise".toList
        fontsMode := "emulate".toList })]

/-- A language profile: `{ locales, acceptLanguage }`. -/
structure PerfilIdioma where
  locales : List Str
  acceptLanguage : Str
deriving DecidableEq, Repr

/-- The constant `TIMEZONE_LOCALE_MAP` (lines 157-164). -/
def TIMEZONE_LOCALE_MAP : List (Str × PerfilIdioma) :=
  [("America/Santo_Domingo".toList,
      ⟨["es-DO".toList, "es".toList], "es-DO,es;q=0.9,en-US;q=0.7".toList⟩),
    ("America/Mexico_City".toList,
      ⟨["es-MX".toList, "es".toList], "es-MX,es;q=0.9,en-US;q=0.7".toList⟩),
    ("America/Bogota".toList,
      ⟨["es-CO".toList, "es".toList], "es-CO,es;q=0.9,en-US;q=0.7".toList⟩),
    ("America/Lima".toList,
      ⟨["es-PE".toList, "es".toList], "es-PE,es;q=0.9,en-US;q=0.7".toList⟩),
    ("America/Caracas".toList,
      ⟨["es-VE".toList, "es".toList], "es-VE,es;q=0.9,en-US;q=0.7".toList⟩),
    ("America/Santiago".toList,
      ⟨["es-CL".toList, "es".toList], "es-CL,es;q=0.9,en-US;q=0.7".toList⟩)]

/-- The constant `REGION_LOCALE_FALLBACK` (lines 166-171). -/
def REGION_LOCALE_FALLBACK : List (Str × PerfilIdioma) :=
  [("America".toList, ⟨["en-US".toList, "en".toList], "en-US,en;q=0.9".toList⟩),
    ("Europe".toList, ⟨["en-GB".toList, "en".toList], "en-GB,en;q=0.9".toList⟩),
    ("Asia".toList, ⟨["en-GB".toList, "en".toList], "en-GB,en;q=0.9".toList⟩),
    ("Africa".toList, ⟨["en-GB".toList, "en".toList], "en-GB,en;q=0.9".toList⟩)]

/-- The property names that every object literal inherits from `Object.prototype`; the
value found under each of them is an object or a function, hence truthy. -/
def clavesHeredadas : List Str :=
  ["constructor".toList, "__defineGetter__".toList, "__defineSetter__".toList,
    "hasOwnProperty".toList, "__lookupGetter__".toList, "__lookupSetter__".toList,
    "isPrototypeOf".toList, "propertyIsEnumerable".toList, "toString".toList,
    "valueOf".toList, "__proto__".toList, "toLocaleString".toList]

/-- The value of `tabla[clave]` for an object literal `tabla` and a string `clave`: an entry
of the literal, a member inherited from `Object.prototype` (truthy, without any of the
fields of an entry), or `undefined`. -/
inductive Hallado (α : Type) where
  | propio (a : α)
  | heredado
  | ausente
deriving DecidableEq, Repr

/-- The property read `tabla[clave]`. -/
def leerClave {α : Type} (tabla : List (Str × α)) (clave : Str) : Hallado α :=
  match tabla.find? (fun e => e.1 = clave) with
  | some e => Hallado.propio e.2
  | none => if clave ∈ clavesHeredadas then Hallado.heredado else Hallado.ausente

/-- A value returned by `Math.random()`: the number `num / den`, which lies in [0, 1) when
`num < den`. -/
structure Sorteo where
  num : Nat
  den : Nat
deriving DecidableEq, Repr

/-- The range of `Math.random()`: `0 <= num / den < 1`. -/
def Sorteo.valido (r : Sorteo) : Prop := r.num < r.den

instance (r : Sorteo) : Decidable r.valido := by unfold Sorteo.valido; infer_instance

/-- The number returned by `Math.random()`. -/
def Sorteo.valor (r : Sorteo) : ℚ := (r.num : ℚ) / (r.den : ℚ)

/-- The function `randomEntre(min, max)` (lines 285-287):
`Math.floor(Math.random() * (max - min + 1)) + min`. -/
def randomEntre (min max : Int) (r : Sorteo) : Int :=
  (r.num : Int) * (max - min + 1) / (r.den : Int) + min

/-- The function `elementoAleatorio(array)` (lines 294-296):
`array[Math.floor(Math.random() * array.length)]`; `none` is `undefined`. -/
def elementoAleatorio {α : Type} (array : List α) (r : Sorteo) : Option α :=
  array[r.num * array.length / r.den]?

/-- The function `añadirRuido(valor, rango)` (lines 304-307), named without the tilde. -/
def anadirRuido (valor rango : ℚ) (r : Sorteo) : ℚ :=
  let ruido := (r.valor * 2 - 1) * rango
  valor + ruido

/-- The function `seleccionarPerfilOS(preferencia)` (lines 173-185); `defaultOs` is the
constant `DEFAULT_OS_PROFILE`, `preferencia = none` a call without argument, `r` the value
of `Math.random()` of the last branch. -/
def seleccionarPerfilOS (defaultOs : Str) (preferencia : Option Str) (r : Sorteo) :
    Hallado OSProfile :=
  let porDefecto : Hallado OSProfile :=
    match leerClave OS_PROFILES defaultOs with
    | Hallado.ausente =>
      let claves := OS_PROFILES.map Prod.fst
      match elementoAleatorio claves r with
      | some claveAleatoria => leerClave OS_PROFILES claveAleatoria
      | none => Hallado.ausente
    | hallado => hallado
  match preferencia with
  | none => porDefecto
  | some p =>
    if p.isEmpty then porDefecto
    else
      match leerClave OS_PROFILES p with
      | Hallado.ausente => porDefecto
      | hallado => hallado

/-- The function `construirPerfilIdioma({ timezone, preferirSistema, forzarLocale })`
(lines 224-253); `perfilSistema` is the result of `obtenerLocaleDelSistema()` (`none` is
`null`), `none` for `timezone` or `forzarLocale` is `undefined`. -/
def construirPerfilIdioma (perfilSistema : Option PerfilIdioma) (timezone : Option Str)
    (preferirSistema : Bool) (forzarLocale : Option Str) : Hallado PerfilIdioma :=
  let porTimezone : Hallado PerfilIdioma :=
    let america := leerClave REGION_LOCALE_FALLBACK "America".toList
    match timezone with
    | none => america
    | some tz =>
      if tz.isEmpty then america
      else
        match leerClave TIMEZONE_LOCALE_MAP tz with
        | Hallado.ausente =>
          let region := (split '/' tz).headD []
          match leerClave REGION_LOCALE_FALLBACK region with
          | Hallado.ausente => america
          | hallado => hallado
        | hallado => hallado
  let porSistema : Hallado PerfilIdioma :=
    if preferirSistema then
      match perfilSistema with
      | some p => Hallado.propio p
      | none => porTimezone
    else porTimezone
  match forzarLocale with
  | none => porSistema
  | some idioma =>
    if idioma.isEmpty then porSistema
    else
      let base := (split '-' idioma).headD []
      Hallado.propio
        ⟨[idioma, base], idioma ++ ",".toList ++ base ++ ";q=0.9".toList⟩

/-- The UTF-16 code units of a string (`charCodeAt(i)` for `i < length`). -/
def codeUnits (s : Str) : List Nat :=
  s.flatMap (fun c =>
    if c.toNat < 0x10000 then [c.toNat]
    else [0xD800 + (c.toNat - 0x10000) / 0x400, 0xDC00 + (c.toNat - 0x10000) % 0x400])

/-- The conversion `ToInt32`: the integer of the same residue modulo 2^32 in
[-2^31, 2^31). -/
def toInt32 (x : Int) : Int := (x + 2147483648) % 4294967296 - 2147483648

/-- One turn of the loop of `generarRuidoConsistente`:
`hash = ((hash << 5) - hash) + char; hash = hash & hash`. -/
def hashPaso (hash : Int) (char : Nat) : Int :=
  toInt32 ((toInt32 (hash * 32) - hash) + (char : Int))

/-- The variable `hash` of `generarRuidoConsistente` after the loop. -/
def hashSemilla (semilla : Str) : Int := (codeUnits semilla).foldl hashPaso 0

/-- The integer `Math.abs(hash % 10000)` of `generarRuidoConsistente`; `%` is the remainder
of the truncating division. -/
def ruidoNumerador (semilla : Str) : Nat := (Int.tmod (hashSemilla semilla) 10000).natAbs

/-- The function `generarRuidoConsistente(semilla)` (lines 317-328). -/
def generarRuidoConsistente (semilla : Str) : ℚ := (ruidoNumerador semilla : ℚ) / 10000

/-- The function `generarCanvasHash(semilla)` (lines 337-343).  `hexadecimal x` is the text
that the engine gives for `(ruido * 0xFFFFFFFFFFFFFFFF).toString(16)` when the exact value
of the product is `x`: the rounding of the product and the digits of a number in base 16
are those of the JavaScript engine, a function of the number alone. -/
def generarCanvasHash (hexadecimal : ℚ → Str) (semilla : Str) : Str :=
  let ruido := generarRuidoConsistente semilla
  let base := hexadecimal (ruido * 0xFFFFFFFFFFFFFFFF)
  (base ++ base ++ base ++ base).take 64

/-- The test `a` is the start of `b`. -/
def empiezaPor : Str → Str → Bool
  | [], _ => true
  | _ :: _, [] => false
  | a :: as, b :: bs => a = b && empiezaPor as bs

/-- The JavaScript `s.includes(sub)` for a string argument. -/
def includesStr (sub : Str) : Str → Bool
  | [] => sub.isEmpty
  | c :: cs => empiezaPor sub (c :: cs) || includesStr sub cs

/-- The function `seleccionarWebGLVendor(userAgent, semilla)` (lines 353-365); `none` as
`userAgent` is `undefined`, on which `includes` throws (result `none`). -/
def seleccionarWebGLVendor (userAgent : Option Str) (_semilla : Str) : Option Str :=
  match userAgent with
  | none => none
  | some ua =>
    if includesStr "Chrome".toList ua || includesStr "Edge".toList ua then
      some "Google Inc. (Intel)".toList
    else if includesStr "Firefox".toList ua then some "Mozilla".toList
    else if includesStr "Safari".toList ua then some "WebKit".toList
    else some "Google Inc. (Intel)".toList

/-- The function `generarWebGLRenderer(userAgent, semilla)` (lines 375-411); with
`ruido = k / 10000`, `ruido < 0.6` is `k < 6000`, `ruido < 0.85` is `k < 8500` and
`Math.floor(ruido * 10)` is `k / 1000`. -/
def generarWebGLRenderer (_userAgent : Option Str) (semilla : Str) : Option Str :=
  let k := ruidoNumerador semilla
  let renderersIntel : List Str :=
    ["ANGLE (Intel, Intel(R) UHD Graphics 620 Direct3D11 vs_5_0 ps_5_0, D3D11)".toList,
      "ANGLE (Intel, Intel(R) UHD Graphics 630 Direct3D11 vs_5_0 ps_5_0, D3D11)".toList,
      "ANGLE (Intel, Intel(R) HD Graphics 4600 Direct3D11 vs_5_0 ps_5_0, D3D11)".toList,
      "Intel(R) UHD Graphics 620".toList,
      "Intel(R) Iris(R) Xe Graphics".toList]
  let renderersNvidia : List Str :=
    ["ANGLE (NVIDIA, NVIDIA GeForce GTX 1650 Direct3D11 vs_5_0 ps_5_0, D3D11)".toList,
      "ANGLE (NVIDIA, NVIDIA GeForce RTX 3060 Direct3D11 vs_5_0 ps_5_0, D3D11)".toList,
      "NVIDIA GeForce GTX 1660 Ti".toList]
  let renderersAMD : List Str :=
    ["ANGLE (AMD, AMD Radeon RX 580 Direct3D11 vs_5_0 ps_5_0, D3D11)".toList,
      "AMD Radeon RX 6600".toList]
  if k < 6000 then renderersIntel[k / 1000 % renderersIntel.length]?
  else if k < 8500 then renderersNvidia[k / 1000 % renderersNvidia.length]?
  else renderersAMD[k / 1000 % renderersAMD.length]?

/-- The value of `Number(s)` for a string of decimal digits, as all parts of the
resolutions of the catalogue are; `none` (`NaN`) stands for every other string. -/
def aNumero (s : Str) : Option Int :=
  if s ≠ [] ∧ s.all isDigit then some (digitsValue s : Int) else none

/-- The values of `Math.random()` in a run of `generarFingerprintGeo`, one for each call in
the text of the function, in the order of the calls. -/
structure SorteosGeo where
  perfilOS : Sorteo
  userAgent : Sorteo
  hardwareConcurrency : Sorteo
  deviceMemory : Sorteo
  resolucion : Sorteo
  viewportAncho : Sorteo
  viewportAlto : Sorteo
  latitud : Sorteo
  longitud : Sorteo
  webglRenderer : Sorteo
deriving DecidableEq, Repr

/-- Every value is in the range of `Math.random()`. -/
def SorteosGeo.validos (s : SorteosGeo) : Prop :=
  s.perfilOS.valido ∧ s.userAgent.valido ∧ s.hardwareConcurrency.valido ∧
  s.deviceMemory.valido ∧ s.resolucion.valido ∧ s.viewportAncho.valido ∧
  s.viewportAlto.valido ∧ s.latitud.valido ∧ s.longitud.valido ∧ s.webglRenderer.valido

instance (s : SorteosGeo) : Decidable s.validos := by unfold SorteosGeo.validos; infer_instance

/-- What a run reads from outside the module: the constant `DEFAULT_OS_PROFILE` (the
lower-cased environment variable, `'mac'` when unset), the result of
`obtenerLocaleDelSistema()` and the value of `Date.now()`. -/
structure Entorno where
  defaultOs : Str
  perfilSistema : Option PerfilIdioma
  reloj : Int
deriving DecidableEq, Repr

/-- The object returned by `generarFingerprintGeo`; `none` in a field is `undefined`, or
`NaN` for a number. -/
structure Fingerprint where
  latitude : ℚ
  longitude : ℚ
  timezone : Str
  locale : List Str
  navigatorLanguage : Option Str
  acceptLanguage : Str
  userAgent : Option Str
  resolucionAncho : Option Int
  resolucionAlto : Option Int
  viewportAncho : Option Int
  viewportAlto : Option Int
  deviceScaleFactor : ℚ
  permissions : List Str
  vendor : Str
  platform : Str
  hardwareConcurrency : Option Nat
  deviceMemory : Option Nat
  maxTouchPoints : Nat
  extraHTTPHeadersAcceptLanguage : Str
  canvasHash : Str
  canvasNoise : ℚ
  webglVendor : Str
  webglRenderer : Option Str
  ciudad : Str
  timestamp : Int
  modo : Str
  osProfile : Str
  audioMode : Str
  fontsMode : Str

/-- The seed of `generarFingerprintGeo`:
the template string of `ubicacion`, `datosCiudad.latitud` and `datosCiudad.longitud`
joined by hyphens. -/
def semillaGeo (ubicacion : Str) (datosCiudad : Ciudad) : Str :=
  ubicacion ++ "-".toList ++ datosCiudad.latitud.aTexto ++ "-".toList ++
    datosCiudad.longitud.aTexto

/-- The body of `generarFingerprintGeo` (lines 433-525) once `datosCiudad` is an entry of
the catalogue; `none` is a `TypeError` (a property of `undefined` is read). -/
def generarFingerprintGeoCon (hexadecimal : ℚ → Str) (ent : Entorno) (s : SorteosGeo)
    (ubicacion : Str) (datosCiudad : Ciudad) : Option Fingerprint :=
  match seleccionarPerfilOS ent.defaultOs none s.perfilOS with
  | Hallado.propio osProfile =>
    let userAgent := elementoAleatorio osProfile.userAgents s.userAgent
    let vendor := osProfile.vendor
    let platform := osProfile.platform
    let deviceScaleFactor := osProfile.deviceScaleFactor
    let hardwareConcurrency := elementoAleatorio osProfile.hardwareConcurrency s.hardwareConcurrency
    let deviceMemory := elementoAleatorio osProfile.deviceMemory s.deviceMemory
    let maxTouchPoints := osProfile.maxTouchPoints
    match construirPerfilIdioma ent.perfilSistema (some datosCiudad.timezone) false
        (some (if platform = "MacIntel".toList then "en-US".toList else "en-US".toList)) with
    | Hallado.propio perfilIdioma =>
      match elementoAleatorio datosCiudad.resoluciones s.resolucion with
      | none => none
      | some resolucionStr =>
        let partes := (split 'x' resolucionStr).map aNumero
        let ancho := (partes[0]?).join
        let alto := (partes[1]?).join
        let viewportAncho := ancho.map (fun a => a - randomEntre 15 25 s.viewportAncho)
        let viewportAlto := alto.map (fun a => a - randomEntre 90 120 s.viewportAlto)
        let latitudConRuido := anadirRuido datosCiudad.latitud.valor (3 / 100) s.latitud
        let longitudConRuido := anadirRuido datosCiudad.longitud.valor (3 / 100) s.longitud
        let semilla := semillaGeo ubicacion datosCiudad
        let hash := generarCanvasHash hexadecimal semilla
        let noise := generarRuidoConsistente semilla
        let webglVendor :=
          if osProfile.webglVendor.isEmpty then seleccionarWebGLVendor userAgent semilla
          else some osProfile.webglVendor
        match webglVendor with
        | none => none
        | some webglVendor =>
          let webglRenderer :=
            match elementoAleatorio osProfile.webglRenderers s.webglRenderer with
            | some r => if r.isEmpty then generarWebGLRenderer userAgent semilla else some r
            | none => generarWebGLRenderer userAgent semilla
          some
            { latitude := latitudConRuido
              longitude := longitudConRuido
              timezone := datosCiudad.timezone
              locale := perfilIdioma.locales
              navigatorLanguage := perfilIdioma.locales.head?
              acceptLanguage := perfilIdioma.acceptLanguage
              userAgent := userAgent
              resolucionAncho := ancho
              resolucionAlto := alto
              viewportAncho := viewportAncho
              viewportAlto := viewportAlto
              deviceScaleFactor := deviceScaleFactor.valor
              permissions := ["geolocation".toList]
              vendor := vendor
              platform := platform
              hardwareConcurrency := hardwareConcurrency
              deviceMemory := deviceMemory
              maxTouchPoints := maxTouchPoints
              extraHTTPHeadersAcceptLanguage := perfilIdioma.acceptLanguage
              canvasHash := hash
              canvasNoise := noise
              webglVendor := webglVendor
              webglRenderer := webglRenderer
              ciudad := ubicacion
              timestamp := ent.reloj
              modo := "geo-localizado".toList
              osProfile := osProfile.id
              audioMode := osProfile.audioMode
              fontsMode := osProfile.fontsMode }
    | _ => none
  | _ => none

/-- The function `generarFingerprintGeo(ubicacion)` (lines 422-526) for a string
`ubicacion`.  A name that is not in the catalogue is replaced by `'New-York-NY'` (the
recursive call, which finds its entry); a name inherited from `Object.prototype` yields an
object without `resoluciones`, and the call throws (`none`). -/
def generarFingerprintGeo (hexadecimal : ℚ → Str) (ent : Entorno) (s : SorteosGeo)
    (ubicacion : Str) : Option Fingerprint :=
  match leerClave CIUDADES_USA ubicacion with
  | Hallado.propio datosCiudad => generarFingerprintGeoCon hexadecimal ent s ubicacion datosCiudad
  | Hallado.heredado => none
  | Hallado.ausente =>
    match leerClave CIUDADES_USA "New-York-NY".toList with
    | Hallado.propio datosCiudad =>
      generarFingerprintGeoCon hexadecimal ent s "New-York-NY".toList datosCiudad
    | _ => none

/-- A stand-in for the number formatting of the engine in the examples: the digits in
base 16 of the integer part of a number that is not negative. -/
def hexEjemplo (x : ℚ) : Str := Nat.toDigits 16 x.floor.toNat

/-- An environment of the examples: the default profile `'mac'`, no system locale read. -/
def entornoEjemplo1 : Entorno := ⟨"mac".toList, none, 1767225600000⟩

/-- Another environment: `FINGERPRINT_OS=windows`, a later time. -/
def entornoEjemplo2 : Entorno := ⟨"windows".toList, none, 1767916800000⟩

/-- Ten values of `Math.random()`, all 0. -/
def sorteosEjemplo1 : SorteosGeo :=
  ⟨⟨0, 1⟩, ⟨0, 1⟩, ⟨0, 1⟩, ⟨0, 1⟩, ⟨0, 1⟩, ⟨0, 1⟩, ⟨0, 1⟩, ⟨0, 1⟩, ⟨0, 1⟩, ⟨0, 1⟩⟩

/-- Ten other values of `Math.random()`. -/
def sorteosEjemplo2 : SorteosGeo :=
  ⟨⟨1, 2⟩, ⟨2, 3⟩, ⟨1, 3⟩, ⟨3, 4⟩, ⟨4, 5⟩, ⟨1, 2⟩, ⟨9, 10⟩, ⟨1, 4⟩, ⟨3, 4⟩, ⟨2, 3⟩⟩

/-! ## The local fingerprint (`generarFingerprintLocal`) -/

/-- The method `Number.prototype.toString(16)`: the text is `'0'` for the number 0 (the
first steps of `Number::toString`, the same for every radix); the digits of the other
numbers are those of the engine, `resto`. -/
def toStringHex (resto : ℚ → Str) (x : ℚ) : Str := if x = 0 then ['0'] else resto x

/-- What the three sources of `obtenerTimezoneDesdeIP` deliver: the body of the answer of
`https://ipapi.co/timezone/`, the member `timezone` of the JSON answer of
`https://worldtimeapi.org/api/ip`, and `Intl.DateTimeFormat().resolvedOptions().timeZone`;
`none` when the request fails or times out, the answer is not JSON or has no such text,
or the call throws. -/
structure Descubrimiento where
  ipapi : Option Str
  worldtimeapi : Option Str
  intl : Option Str
deriving DecidableEq, Repr

/-- The first source (lines 547-588): the trimmed body, accepted when it is not empty and
holds neither `error` nor `<`. -/
def timezoneIpapi (d : Descubrimiento) : Option Str :=
  match d.ipapi with
  | none => none
  | some data =>
    let timezone := trim data
    if !timezone.isEmpty && decide (0 < jsLength timezone) &&
        !includesStr "error".toList timezone && !includesStr "<".toList timezone then
      some timezone
    else none

/-- The second source (lines 590-637): the member `timezone`, accepted when it is not
empty. -/
def timezoneWorldtimeapi (d : Descubrimiento) : Option Str :=
  match d.worldtimeapi with
  | none => none
  | some timezone =>
    if !timezone.isEmpty && decide (0 < jsLength timezone) then some timezone else none

/-- The third source (lines 639-649): the time zone of the system, accepted when it is not
empty. -/
def timezoneIntl (d : Descubrimiento) : Option Str :=
  match d.intl with
  | none => none
  | some timezone =>
    if !timezone.isEmpty && decide (0 < jsLength timezone) then some timezone else none

/-- The function `obtenerTimezoneDesdeIP()` (lines 541-654): the first source that delivers
a time zone, and `'America/New_York'` when none does. -/
def obtenerTimezoneDesdeIP (d : Descubrimiento) : Str :=
  match timezoneIpapi d with
  | some timezone => timezone
  | none =>
    match timezoneWorldtimeapi d with
    | some timezone => timezone
    | none =>
      match timezoneIntl d with
      | some timezone => timezone
      | none => "America/New_York".toList

/-- What a run of `generarFingerprintLocal` reads from outside the module: the constant
`DEFAULT_OS_PROFILE`, the result of `obtenerLocaleDelSistema()`, the three sources of the
time zone, and the four values of `Date.now()` (seed and `timestamp` of the main branch,
seed and `timestamp` of the `catch` branch). -/
structure EntornoLocal where
  defaultOs : Str
  perfilSistema : Option PerfilIdioma
  descubrimiento : Descubrimiento
  relojSemilla : Int
  relojTimestamp : Int
  relojSemillaFallback : Int
  relojTimestampFallback : Int
deriving DecidableEq, Repr

/-- The values of `Math.random()` in a run of `generarFingerprintLocal`: one for each call
of the main branch, in the order of the calls, then one for each call of the `catch`
branch. -/
structure SorteosLocal where
  perfilOS : Sorteo
  userAgent : Sorteo
  hardwareConcurrency : Sorteo
  deviceMemory : Sorteo
  resolucion : Sorteo
  viewportAncho : Sorteo
  viewportAlto : Sorteo
  latitud : Sorteo
  longitud : Sorteo
  webglRenderer : Sorteo
  userAgentFallback : Sorteo
  hardwareConcurrencyFallback : Sorteo
  deviceMemoryFallback : Sorteo
  webglRendererFallback : Sorteo
deriving DecidableEq, Repr

/-- Every value is in the range of `Math.random()`. -/
def SorteosLocal.validos (s : SorteosLocal) : Prop :=
  s.perfilOS.valido ∧ s.userAgent.valido ∧ s.hardwareConcurrency.valido ∧
  s.deviceMemory.valido ∧ s.resolucion.valido ∧ s.viewportAncho.valido ∧
  s.viewportAlto.valido ∧ s.latitud.valido ∧ s.longitud.valido ∧ s.webglRenderer.valido ∧
  s.userAgentFallback.valido ∧ s.hardwareConcurrencyFallback.valido ∧
  s.deviceMemoryFallback.valido ∧ s.webglRendererFallback.valido

instance (s : SorteosLocal) : Decidable s.validos := by
  unfold SorteosLocal.validos; infer_instance

/-- The `try` block of `generarFingerprintLocal` (lines 666-770); `none` is a `TypeError`
(a property of `undefined` is read), which the `catch` block receives. -/
def generarFingerprintLocalTry (hexadecimal : ℚ → Str) (ent : EntornoLocal)
    (s : SorteosLocal) : Option Fingerprint :=
  let timezoneReal := obtenerTimezoneDesdeIP ent.descubrimiento
  match seleccionarPerfilOS ent.defaultOs none s.perfilOS with
  | Hallado.propio osProfile =>
    let userAgent := elementoAleatorio osProfile.userAgents s.userAgent
    let vendor := osProfile.vendor
    let platform := osProfile.platform
    let perfilIdioma := construirPerfilIdioma ent.perfilSistema (some timezoneReal) true none
    let deviceScaleFactor := osProfile.deviceScaleFactor
    let hardwareConcurrency := elementoAleatorio osProfile.hardwareConcurrency s.hardwareConcurrency
    let deviceMemory := elementoAleatorio osProfile.deviceMemory s.deviceMemory
    let maxTouchPoints := osProfile.maxTouchPoints
    let resoluciones : List Str :=
      ["1920x1080".toList, "2560x1440".toList, "1366x768".toList, "1680x1050".toList,
        "1440x900".toList]
    match elementoAleatorio resoluciones s.resolucion with
    | none => none
    | some resolucionStr =>
      let partes := (split 'x' resolucionStr).map aNumero
      let ancho := (partes[0]?).join
      let alto := (partes[1]?).join
      let viewportAncho := ancho.map (fun a => a - randomEntre 15 25 s.viewportAncho)
      let viewportAlto := alto.map (fun a => a - randomEntre 90 120 s.viewportAlto)
      let latitudGenerica := (⟨407128, 4⟩ : Decimal).valor + (s.latitud.valor - 1 / 2) * (1 / 10)
      let longitudGenerica :=
        (⟨-740060, 4⟩ : Decimal).valor + (s.longitud.valor - 1 / 2) * (1 / 10)
      let semilla := "local-".toList ++ timezoneReal ++ "-".toList ++ intToStr ent.relojSemilla
      match perfilIdioma with
      | Hallado.propio perfilIdioma =>
        let hash := generarCanvasHash hexadecimal semilla
        let noise := generarRuidoConsistente semilla
        let webglVendor :=
          if osProfile.webglVendor.isEmpty then seleccionarWebGLVendor userAgent semilla
          else some osProfile.webglVendor
        match webglVendor with
        | none => none
        | some webglVendor =>
          let webglRenderer :=
            match elementoAleatorio osProfile.webglRenderers s.webglRenderer with
            | some r => if r.isEmpty then generarWebGLRenderer userAgent semilla else some r
            | none => generarWebGLRenderer userAgent semilla
          some
            { latitude := latitudGenerica
              longitude := longitudGenerica
              timezone := timezoneReal
              locale := perfilIdioma.locales
              navigatorLanguage := perfilIdioma.locales.head?
              acceptLanguage := perfilIdioma.acceptLanguage
              userAgent := userAgent
              resolucionAncho := ancho
              resolucionAlto := alto
              viewportAncho := viewportAncho
              viewportAlto := viewportAlto
              deviceScaleFactor := deviceScaleFactor.valor
              permissions := ["geolocation".toList]
              vendor := vendor
              platform := platform
              hardwareConcurrency := hardwareConcurrency
              deviceMemory := deviceMemory
              maxTouchPoints := maxTouchPoints
              extraHTTPHeadersAcceptLanguage := perfilIdioma.acceptLanguage
              canvasHash := hash
              canvasNoise := noise
              webglVendor := webglVendor
              webglRenderer := webglRenderer
              ciudad := "Local (IP-based)".toList
              timestamp := ent.relojTimestamp
              modo := "local-ip-based".toList
              osProfile := osProfile.id
              audioMode := osProfile.audioMode
              fontsMode := osProfile.fontsMode }
      | _ => none
  | _ => none

/-- The `catch` block of `generarFingerprintLocal` (lines 770-826), `none` again a
`TypeError`. -/
def generarFingerprintLocalCatch (hexadecimal : ℚ → Str) (ent : EntornoLocal)
    (s : SorteosLocal) : Option Fingerprint :=
  match seleccionarPerfilOS ent.defaultOs (some "windows".toList) s.perfilOS with
  | Hallado.propio osProfile =>
    let userAgent := elementoAleatorio osProfile.userAgents s.userAgentFallback
    let vendor := osProfile.vendor
    let platform := osProfile.platform
    let hardwareConcurrency :=
      elementoAleatorio osProfile.hardwareConcurrency s.hardwareConcurrencyFallback
    let deviceMemory := elementoAleatorio osProfile.deviceMemory s.deviceMemoryFallback
    let maxTouchPoints := osProfile.maxTouchPoints
    let deviceScaleFactor := osProfile.deviceScaleFactor
    match construirPerfilIdioma ent.perfilSistema (some "America/New_York".toList) false none with
    | Hallado.propio perfilIdioma =>
      let resolucionStr := "1920x1080".toList
      let partes := (split 'x' resolucionStr).map aNumero
      let ancho := (partes[0]?).join
      let alto := (partes[1]?).join
      let viewportAncho := ancho.map (fun a => a - 20)
      let viewportAlto := alto.map (fun a => a - 100)
      let semilla := "fallback-".toList ++ intToStr ent.relojSemillaFallback
      let hash := generarCanvasHash hexadecimal semilla
      let noise := generarRuidoConsistente semilla
      let webglVendor :=
        if osProfile.webglVendor.isEmpty then seleccionarWebGLVendor userAgent semilla
        else some osProfile.webglVendor
      match webglVendor with
      | none => none
      | some webglVendor =>
        let webglRenderer :=
          match elementoAleatorio osProfile.webglRenderers s.webglRendererFallback with
          | some r => if r.isEmpty then generarWebGLRenderer userAgent semilla else some r
          | none => generarWebGLRenderer userAgent semilla
        some
          { latitude := (⟨407128, 4⟩ : Decimal).valor
            longitude := (⟨-740060, 4⟩ : Decimal).valor
            timezone := "America/New_York".toList
            locale := perfilIdioma.locales
            navigatorLanguage := perfilIdioma.locales.head?
            acceptLanguage := perfilIdioma.acceptLanguage
            userAgent := userAgent
            resolucionAncho := ancho
            resolucionAlto := alto
            viewportAncho := viewportAncho
            viewportAlto := viewportAlto
            deviceScaleFactor := deviceScaleFactor.valor
            permissions := ["geolocation".toList]
            vendor := vendor
            platform := platform
            hardwareConcurrency := hardwareConcurrency
            deviceMemory := deviceMemory
            maxTouchPoints := maxTouchPoints
            extraHTTPHeadersAcceptLanguage := perfilIdioma.acceptLanguage
            canvasHash := hash
            canvasNoise := noise
            webglVendor := webglVendor
            webglRenderer := webglRenderer
            ciudad := "Local (Fallback)".toList
            timestamp := ent.relojTimestampFallback
            modo := "local-fallback".toList
            osProfile := osProfile.id
            audioMode := osProfile.audioMode
            fontsMode := osProfile.fontsMode }
    | _ => none
  | _ => none

/-- The function `generarFingerprintLocal()` (lines 663-827): the result of the `try`
block, or that of the `catch` block when the `try` block throws; `none` when the `catch`
block throws as well (the promise is rejected). -/
def generarFingerprintLocal (hexadecimal : ℚ → Str) (ent : EntornoLocal) (s : SorteosLocal) :
    Option Fingerprint :=
  match generarFingerprintLocalTry hexadecimal ent s with
  | some fingerprint => some fingerprint
  | none => generarFingerprintLocalCatch hexadecimal ent s

/-- Example values of `Math.random()` for a run of `generarFingerprintLocal`. -/
def sorteosLocalEjemplo : SorteosLocal :=
  ⟨⟨1, 2⟩, ⟨2, 3⟩, ⟨1, 3⟩, ⟨3, 4⟩, ⟨4, 5⟩, ⟨1, 2⟩, ⟨9, 10⟩, ⟨1, 4⟩, ⟨3, 4⟩, ⟨2, 3⟩,
    ⟨0, 1⟩, ⟨1, 2⟩, ⟨1, 3⟩, ⟨1, 4⟩⟩

/-! ## The noise of a seed, in the words of the specification -/

/-- In the words of the specification: the signed 32-bit wrap-around value `H(s)` of the
rolling polynomial hash `h <- 31 * h + c` over the UTF-16 code units of `s`, from 0. -/
def hashPolinomico (s : Str) : Int :=
  (codeUnits s).foldl (fun (h : Int) (c : Nat) => toInt32 (31 * h + (c : Int))) 0

/-- In the words of the specification: `|H(s) rem 10000| / 10000`, with the remainder of
the truncating division. -/
def ruidoSegunSpec (s : Str) : ℚ := ((Int.tmod (hashPolinomico s) 10000).natAbs : ℚ) / 10000

/-- A run of `generarFingerprintLocal` whose first source answers `America/New_York` and
whose clock reads 1767225606219 (2026-01-01T00:00:06.219Z) when the seed is built. -/
def entornoLocalCero : EntornoLocal :=
  ⟨"mac".toList, none, ⟨some "America/New_York\n".toList, none, none⟩,
    1767225606219, 1767225606219, 1767225606220, 1767225606220⟩

/-! ## Coherence of a fingerprint with an OS profile -/

/-- The fingerprint is coherent with the OS profile `P`: platform, vendor, profile id,
WebGL vendor, scale factor and touch points are those of `P`, and the user agent, the WebGL
renderer, the hardware concurrency and the device memory are entries of the lists of `P`. -/
def Fingerprint.coherenteCon (fp : Fingerprint) (P : OSProfile) : Prop :=
  fp.platform = P.platform ∧ fp.vendor = P.vendor ∧ fp.osProfile = P.id ∧
  (∃ ua ∈ P.userAgents, fp.userAgent = some ua) ∧
  fp.webglVendor = P.webglVendor ∧
  (∃ r ∈ P.webglRenderers, fp.webglRenderer = some r) ∧
  (∃ n ∈ P.hardwareConcurrency, fp.hardwareConcurrency = some n) ∧
  (∃ m ∈ P.deviceMemory, fp.deviceMemory = some m) ∧
  fp.deviceScaleFactor = P.deviceScaleFactor.valor ∧ fp.maxTouchPoints = P.maxTouchPoints

/-- The language profile that the timezone alone resolves to, for timezones without entry
in `TIMEZONE_LOCALE_MAP` whose region is `America`. -/
def perfilAmerica : PerfilIdioma := ⟨["en-US".toList, "en".toList], "en-US,en;q=0.9".toList⟩

/-- A run of `generarFingerprintLocal` in which the three sources of the time zone fail. -/
def entornoLocalAgotado : EntornoLocal :=
  ⟨"mac".toList, none, ⟨none, none, none⟩,
    1767225600000, 1767225600000, 1767225600001, 1767225600001⟩

/-- A run of `generarFingerprintLocal` in which the first source answers `constructor` and
the locale of the system cannot be read. -/
def entornoLocalHeredado : EntornoLocal :=
  ⟨"mac".toList, none, ⟨some "constructor".toList, none, none⟩,
    1767225600000, 1767225600000, 1767225600001, 1767225600001⟩

/-! ## The disabled flag -/

/-- Every `disabled` flag of the table is 0 or 1. -/
def DisabledBinario (db : DB) : Prop := ∀ r ∈ db.rows, r.disabled = 0 ∨ r.disabled = 1

/-- The id and the `disabled` flag of every row, in table order. -/
def banderas (db : DB) : List (Nat × Int) := db.rows.map (fun r => (r.id, r.disabled))

/-! ## The exhaustion diagnostic -/

/-- The object `{ total, disponibles }` returned by `contarDisponiblesPorEstado`. -/
structure Disponibilidad where
  total : Nat
  disponibles : Nat
deriving DecidableEq, Repr

/-- The SQLite function `sqlite3_bind_parameter_index`: the index, from 1, of the parameter
of the given name among the parameters of a statement, 0 when no parameter has that name.
A parameter written `?` has no name (`none`), one written `:name` has the name `:name`. -/
def indiceParametro (parametros : List (Option Str)) (nombre : Str) : Nat :=
  if some nombre ∈ parametros then parametros.indexOf (some nombre) + 1 else 0

/-- The binding of an object by sql.js (`Statement.bind` on an object, `bindFromObject`):
for each key of the object the index of the parameter of that name is looked up and, when
it is not 0, the value is bound to it; a key without parameter is skipped.  The result is
the value of each parameter, `none` for one left unbound, which SQLite reads as `NULL`. -/
def bindFromObject (parametros : List (Option Str)) (valores : List (Str × Str)) :
    List (Option Str) :=
  valores.foldl
    (fun ligados e =>
      let num := indiceParametro parametros e.1
      if num ≠ 0 then ligados.set (num - 1) (some e.2) else ligados)
    (parametros.map (fun _ => none))

/-- The counting query with the region code written into its text,
`... FROM proxies WHERE state_code = '<estado>'`, as `obtenerSiguienteNodo` runs it for its
log (lines 374-377): the number of rows of the region and the number of those with
`estado = 'disponible'` and `disabled = 0` (0 for the `NULL` sum of no rows). -/
def contarPorEstado (db : DB) (estado : Str) : Disponibilidad :=
  let filas := db.rows.filter (fun r => decide (r.state_code = estado))
  ⟨filas.length,
    (filas.filter (fun r => decide (r.estado = disponible) && decide (r.disabled = 0))).length⟩

/-- The function `contarDisponiblesPorEstado(stateCode)` (lines 470-491).  The statement
`... FROM proxies WHERE state_code = ?` has one parameter, without name, and
`getAsObject({ ':state_code': estado })` binds by name; the comparison of `state_code` with
a `NULL` parameter selects no row.  `resultado.total || 0` and `resultado.disponibles || 0`
are the count and the sum, 0 for `NULL`. -/
def contarDisponiblesPorEstado (db : DB) (stateCode : Option Str) : Disponibilidad :=
  match normalizarEstado stateCode with
  | none => ⟨0, 0⟩
  | some estado =>
    let ligados := bindFromObject [none] [(":state_code".toList, estado)]
    let parametro := (ligados.head?).join
    let filas := db.rows.filter (fun r => decide (parametro = some r.state_code))
    ⟨filas.length,
      (filas.filter (fun r => decide (r.estado = disponible) && decide (r.disabled = 0))).length⟩

/-- The function `obtenerEstadoDesdeUbicacion(ubicacion)` of `src/main.js` (lines 103-109):
the same test and the same pattern as `extraerEstadoDesdeUbicacion`. -/
def obtenerEstadoDesdeUbicacion (ubicacion : Option Str) : Option Str :=
  extraerEstadoDesdeUbicacion ubicacion

/-- The message of the handler `'iniciar-sesion'` when no node is obtained (`src/main.js`,
lines 180-185): `true` for `No hay proxies registrados para ...` (the branch
`disponibilidad.total === 0`), `false` for `Los proxies disponibles para ... se agotaron`. -/
def mensajeSinRegistrados (db : DB) (ubicacion : Option Str) : Bool :=
  let estadoSeleccionado := obtenerEstadoDesdeUbicacion ubicacion
  let disponibilidad := contarDisponiblesPorEstado db estadoSeleccionado
  decide (disponibilidad.total = 0)

/-! ## Port numbers as tokens -/

/-- The token is a decimal integer: a non-empty string of decimal digits. -/
def esEnteroDecimal (t : Str) : Prop := t ≠ [] ∧ ∀ c ∈ t, isDigit c = true

instance (t : Str) : Decidable (esEnteroDecimal t) := by
  unfold esEnteroDecimal; infer_instance

/-- The token is a valid port number: a decimal integer in [1,65535]. -/
def esNumeroDePuerto (t : Str) : Prop :=
  esEnteroDecimal t ∧ 1 ≤ digitsValue t ∧ digitsValue t ≤ 65535

instance (t : Str) : Decidable (esNumeroDePuerto t) := by
  unfold esNumeroDePuerto; infer_instance

/-- The token is not a port number and does not start like a number either: `parseInt`
reads no number in it, or it is a decimal integer outside [1,65535]. -/
def noEsNumeroDePuerto (t : Str) : Prop :=
  parseInt t = none ∨ (esEnteroDecimal t ∧ (digitsValue t = 0 ∨ 65535 < digitsValue t))

instance (t : Str) : Decidable (noEsNumeroDePuerto t) := by
  unfold noEsNumeroDePuerto; infer_instance

/-! ## The callers of `sumarPoliza` -/

/-- The handler `ipcMain.handle('proxies:sumar-poliza')` (`src/main.js`, lines 725-733):
it passes `proxyId` and `cantidad` on to `sumarPoliza` and returns its result. -/
def manejadorSumarPoliza (db : DB) (proxyId : Nat) (cantidad : Int) (ahora : Str) :
    DB × Option (Int × Str) :=
  sumarPoliza db proxyId cantidad ahora

/-- What the confirm click of a row of the proxy table shows (`src/renderer.js`, lines
501-519): the error `'Ingresa una cantidad mayor a 0'`, the success message with the count
added and the new total, or `'Error al sumar pólizas'`. -/
inductive AvisoSuma where
  | cantidadInvalida
  | agregadas (cantidad : Int) (total : Int)
  | errorAlSumar
deriving DecidableEq, Repr

/-- The confirm click of a row of the proxy table (`src/renderer.js`, lines 501-519), the
one place that invokes `'proxies:sumar-poliza'`: `valor` is the text of the input field,
`cantidadAgregar = parseInt(valor, 10) || 0`; a count `<= 0` shows the error and returns
before any call. -/
def clicSumarPoliza (db : DB) (valor : Str) (proxyId : Nat) (ahora : Str) :
    DB × AvisoSuma :=
  let cantidadAgregar := (parseInt valor).getD 0
  if cantidadAgregar ≤ 0 then (db, AvisoSuma.cantidadInvalida)
  else
    match manejadorSumarPoliza db proxyId cantidadAgregar ahora with
    | (db2, some (poliza, _)) => (db2, AvisoSuma.agregadas cantidadAgregar poliza)
    | (db2, none) => (db2, AvisoSuma.errorAlSumar)

/-- The calls that the program makes on the store: imports, session credits, toggles, and
policy credits with a positive count (the confirm click and `'finalizar-sesion'` let no
other count through); nothing in the renderer invokes `'proxies:actualizar-poliza'`. -/
def Op.delPrograma : Op → Prop
  | Op.sumar _ cantidad _ => 0 < cantidad
  | Op.actualizar _ _ _ => False
  | _ => True

/-- Every policy total of the table is a non-negative integer: the column `poliza` is
empty or holds the decimal text of a total that is not negative. -/
def PolizasNoNegativas (db : DB) : Prop :=
  ∀ r ∈ db.rows, 0 ≤ r.polizas ∧ (r.poliza = [] ∨ r.poliza = intToStr r.polizas)

/-! # Theorems -/

/-! ## The example table is a reachable one -/

/-- The example table is what two imports, five session credits and one toggle leave,
starting from the empty table. -/
theorem dbEjemplo_reachable :
    ejecutar DB.vacia
      [Op.importar
          (some "1.2.3.4:8080:user:pass\n1.2.3.5:8080:user:pass\n1.2.3.6:8080:user:pass".toList)
          (some "fl".toList),
        Op.importar (some "1.2.3.7:8080:user:pass".toList) (some "NY".toList),
        Op.incrementar 2, Op.incrementar 2, Op.marcar 2, Op.toggle 3,
        Op.incrementar 4, Op.incrementar 4] = dbEjemplo := by
  decide

/-! ## Allocation picks the eligible node of largest id -/

theorem ultimoPorId_eq_none (l : List Row) : ultimoPorId l = none ↔ l = [] := by
  cases l with
  | nil => simp [ultimoPorId]
  | cons r rs =>
    simp only [ultimoPorId]
    cases h : ultimoPorId rs with
    | none => simp
    | some m => by_cases hm : m.id ≤ r.id <;> simp [hm]

theorem ultimoPorId_mem_max (l : List Row) (n : Row) (h : ultimoPorId l = some n) :
    n ∈ l ∧ ∀ m ∈ l, m.id ≤ n.id := by
  induction l generalizing n with
  | nil => simp [ultimoPorId] at h
  | cons r rs ih =>
    simp only [ultimoPorId] at h
    cases hrs : ultimoPorId rs with
    | none =>
      rw [hrs] at h
      have hnil : rs = [] := (ultimoPorId_eq_none rs).1 hrs
      simp only [Option.some.injEq] at h
      subst h hnil
      simp
    | some m0 =>
      rw [hrs] at h
      obtain ⟨hmem, hmax⟩ := ih m0 hrs
      by_cases hm : m0.id ≤ r.id
      · simp only [hm, if_true, Option.some.injEq] at h
        subst h
        refine ⟨List.mem_cons_self _ _, ?_⟩
        intro m hmm
        rcases List.mem_cons.1 hmm with rfl | hmm
        · exact le_refl _
        · exact le_trans (hmax m hmm) hm
      · simp only [hm, if_false, Option.some.injEq] at h
        subst h
        refine ⟨List.mem_cons_of_mem _ hmem, ?_⟩
        intro m hmm
        rcases List.mem_cons.1 hmm with rfl | hmm
        · omega
        · exact hmax m hmm

theorem elegible_iff (estado : Str) (r : Row) :
    elegible estado r = true ↔
      r.state_code = estado ∧ r.estado = disponible ∧ r.disabled = 0 := by
  simp [elegible, and_assoc]

/-- Two rows of a table with distinct ids that carry the same id are the same row. -/
theorem eq_of_id_eq {rows : List Row} (hid : (rows.map Row.id).Nodup) {a b : Row}
    (ha : a ∈ rows) (hb : b ∈ rows) (h : a.id = b.id) : a = b :=
  List.inj_on_of_nodup_map hid ha hb h

/-- C1. For a location tag whose region code `r` can be extracted, `obtenerSiguienteNodo`
returns `n` exactly when `n` is the stored node of largest id among those with
`state_code = r`, `estado = 'disponible'` and `disabled = 0`; it returns no node exactly
when there is no such node; a Burned or disabled node is never returned.  The ids of the
table are distinct (`id` is its primary key). -/
theorem obtenerSiguienteNodo_largest_eligible (db : DB) (tag r : Str)
    (hr : extraerEstadoDesdeUbicacion (some tag) = some r)
    (hid : (db.rows.map Row.id).Nodup) :
    (∀ n : Row, obtenerSiguienteNodo db (some tag) = some n ↔
      (n ∈ db.rows ∧ n.state_code = r ∧ n.estado = disponible ∧ n.disabled = 0 ∧
        ∀ m ∈ db.rows, m.state_code = r → m.estado = disponible → m.disabled = 0 →
          m.id ≤ n.id)) ∧
    (obtenerSiguienteNodo db (some tag) = none ↔
      ¬ ∃ m ∈ db.rows, m.state_code = r ∧ m.estado = disponible ∧ m.disabled = 0) ∧
    (∀ n : Row, obtenerSiguienteNodo db (some tag) = some n →
      n.estado ≠ BURNED ∧ n.disabled = 0) := by
  have hdef : obtenerSiguienteNodo db (some tag) = ultimoPorId (db.rows.filter (elegible r)) := by
    simp [obtenerSiguienteNodo, hr]
  have hfwd : ∀ n : Row, obtenerSiguienteNodo db (some tag) = some n →
      (n ∈ db.rows ∧ n.state_code = r ∧ n.estado = disponible ∧ n.disabled = 0 ∧
        ∀ m ∈ db.rows, m.state_code = r → m.estado = disponible → m.disabled = 0 →
          m.id ≤ n.id) := by
    intro n h
    rw [hdef] at h
    obtain ⟨hmem, hmax⟩ := ultimoPorId_mem_max _ n h
    obtain ⟨hin, hel⟩ := List.mem_filter.1 hmem
    obtain ⟨h1, h2, h3⟩ := (elegible_iff r n).1 hel
    refine ⟨hin, h1, h2, h3, ?_⟩
    intro m hm hm1 hm2 hm3
    exact hmax m (List.mem_filter.2 ⟨hm, (elegible_iff r m).2 ⟨hm1, hm2, hm3⟩⟩)
  refine ⟨?_, ?_, ?_⟩
  · intro n
    refine ⟨hfwd n, ?_⟩
    rintro ⟨hin, h1, h2, h3, hmax⟩
    have hnmem : n ∈ db.rows.filter (elegible r) :=
      List.mem_filter.2 ⟨hin, (elegible_iff r n).2 ⟨h1, h2, h3⟩⟩
    cases hres : ultimoPorId (db.rows.filter (elegible r)) with
    | none =>
      rw [(ultimoPorId_eq_none _).1 hres] at hnmem
      simp at hnmem
    | some k =>
      rw [hdef, hres]
      obtain ⟨hkmem, hkmax⟩ := ultimoPorId_mem_max _ k hres
      obtain ⟨hkin, hkel⟩ := List.mem_filter.1 hkmem
      obtain ⟨k1, k2, k3⟩ := (elegible_iff r k).1 hkel
      have hle1 : k.id ≤ n.id := hmax k hkin k1 k2 k3
      have hle2 : n.id ≤ k.id := hkmax n hnmem
      rw [eq_of_id_eq hid hkin hin (le_antisymm hle1 hle2)]
  · rw [hdef, ultimoPorId_eq_none]
    constructor
    · rintro hnil ⟨m, hm, h1, h2, h3⟩
      have : m ∈ db.rows.filter (elegible r) :=
        List.mem_filter.2 ⟨hm, (elegible_iff r m).2 ⟨h1, h2, h3⟩⟩
      rw [hnil] at this
      simp at this
    · intro hno
      apply List.eq_nil_iff_forall_not_mem.2
      intro m hm
      obtain ⟨hin, hel⟩ := List.mem_filter.1 hm
      exact hno ⟨m, hin, (elegible_iff r m).1 hel⟩
  · intro n h
    obtain ⟨_, _, h2, h3, _⟩ := hfwd n h
    refine ⟨?_, h3⟩
    rw [h2]
    decide

/-- C1, on the example table and the tag `Miami-FL`: node 1 is returned, not the Burned
node 2 nor the disabled node 3. -/
theorem obtenerSiguienteNodo_largest_eligible_witness :
    extraerEstadoDesdeUbicacion (some "Miami-FL".toList) = some "FL".toList ∧
    (dbEjemplo.rows.map Row.id).Nodup ∧
    obtenerSiguienteNodo dbEjemplo (some "Miami-FL".toList) =
      some ⟨1, "1.2.3.4".toList, 8080, "user".toList, "pass".toList, "FL".toList,
        "FL".toList, disponible, 0, [], [], 0⟩ :=
  ⟨by decide, by decide,
    ((obtenerSiguienteNodo_largest_eligible dbEjemplo "Miami-FL".toList "FL".toList
      (by decide) (by decide)).1 _).2 (by decide)⟩

/-! ## Session credits: theorems -/

theorem buscarPorId_of_mem (db : DB) (hid : (db.rows.map Row.id).Nodup) (row : Row)
    (hrow : row ∈ db.rows) : buscarPorId db row.id = some row := by
  unfold buscarPorId
  cases h : db.rows.find? (fun r => r.id = row.id) with
  | none =>
    have := List.find?_eq_none.1 h row hrow
    simp at this
  | some x =>
    have hx : x ∈ db.rows := List.mem_of_find?_eq_some h
    have hp := List.find?_some h
    simp only [decide_eq_true_eq] at hp
    rw [eq_of_id_eq hid hx hrow hp]

theorem buscarPorId_some (db : DB) (id : Nat) (row : Row) (h : buscarPorId db id = some row) :
    row ∈ db.rows ∧ row.id = id := by
  unfold buscarPorId at h
  refine ⟨List.mem_of_find?_eq_some h, ?_⟩
  have hp := List.find?_some h
  simpa using hp

theorem buscarPorId_none (db : DB) (id : Nat) (h : buscarPorId db id = none) :
    ∀ r ∈ db.rows, r.id ≠ id := by
  unfold buscarPorId at h
  intro r hr
  have := List.find?_eq_none.1 h r hr
  simpa using this

/-- On a table with distinct ids, `incrementarSesiones` replaces the row of the given id by
its credited version and leaves the other rows. -/
theorem incrementarSesiones_rows (db : DB) (hid : (db.rows.map Row.id).Nodup) (row : Row)
    (hrow : row ∈ db.rows) :
    incrementarSesiones db row.id =
      (⟨db.rows.map (fun r => if r.id = row.id then r.acreditada else r), db.seq⟩,
        some (row.sesionesCompletadas + 1,
          if 3 ≤ row.sesionesCompletadas + 1 then BURNED else row.estado)) := by
  simp only [incrementarSesiones, buscarPorId_of_mem db hid row hrow, actualizarDonde]
  congr 2
  apply List.map_congr_left
  intro r hr
  by_cases h : r.id = row.id
  · have : r = row := eq_of_id_eq hid hr hrow h
    subst this
    simp [Row.acreditada]
  · simp [h]

/-- The two session-credit functions make the same update of the table. -/
theorem marcar_eq_incrementar (db : DB) (id : Nat) :
    (marcarSesionCompletada db id).1 = (incrementarSesiones db id).1 := by
  unfold marcarSesionCompletada incrementarSesiones
  cases buscarPorId db id <;> rfl

/-- C2. Crediting one session to the stored node `row` (with either function) sets its
`sesionesCompletadas` to `n + 1` and its `estado` to `'BURNED'` when `n + 1 >= 3`, leaving
`estado` otherwise, and changes nothing else; an Available node at 0 or 1 stays Available, an
Available node at 2 becomes Burned; and `incrementarSesiones` and `marcarSesionCompletada`
make the same update of the table on every input. -/
theorem incrementarSesiones_credits_one :
    (∀ (db : DB) (id : Nat),
      (incrementarSesiones db id).1 = (marcarSesionCompletada db id).1) ∧
    (∀ (db : DB) (row : Row), (db.rows.map Row.id).Nodup → row ∈ db.rows →
      (incrementarSesiones db row.id).1 =
          ⟨db.rows.map (fun r => if r.id = row.id then r.acreditada else r), db.seq⟩ ∧
      (incrementarSesiones db row.id).2 = some (row.acreditada.sesionesCompletadas,
        row.acreditada.estado) ∧
      (marcarSesionCompletada db row.id).2 = some (row.acreditada.estado,
        row.acreditada.sesionesCompletadas) ∧
      row.acreditada.sesionesCompletadas = row.sesionesCompletadas + 1 ∧
      (3 ≤ row.sesionesCompletadas + 1 → row.acreditada.estado = BURNED) ∧
      (¬ 3 ≤ row.sesionesCompletadas + 1 → row.acreditada.estado = row.estado) ∧
      (row.estado = disponible →
        (row.sesionesCompletadas = 0 ∨ row.sesionesCompletadas = 1) →
        row.acreditada.estado = disponible) ∧
      (row.sesionesCompletadas = 2 →
        row.acreditada.estado = BURNED ∧ row.acreditada.sesionesCompletadas = 3)) := by
  refine ⟨fun db id => (marcar_eq_incrementar db id).symm, ?_⟩
  intro db row hid hrow
  have h := incrementarSesiones_rows db hid row hrow
  refine ⟨by rw [h], by rw [h]; rfl, ?_, rfl, ?_, ?_, ?_, ?_⟩
  · simp only [marcarSesionCompletada, buscarPorId_of_mem db hid row hrow]
    rfl
  · intro h3
    simp [Row.acreditada, h3]
  · intro h3
    simp [Row.acreditada, h3]
  · intro hd h01
    have : ¬ (3 : Int) ≤ row.sesionesCompletadas + 1 := by omega
    simp [Row.acreditada, this, hd]
  · intro h2
    simp [Row.acreditada, h2]

/-- C2, on the example table: crediting the New York node 4, which is at 2 sessions, burns it
at 3 and leaves the three other rows. -/
theorem incrementarSesiones_credits_one_witness :
    (dbEjemplo.rows.map Row.id).Nodup ∧
    (incrementarSesiones dbEjemplo 4).1 =
      ⟨[⟨1, "1.2.3.4".toList, 8080, "user".toList, "pass".toList, "FL".toList, "FL".toList,
          disponible, 0, [], [], 0⟩,
        ⟨2, "1.2.3.5".toList, 8080, "user".toList, "pass".toList, "FL".toList, "FL".toList,
          BURNED, 3, [], [], 0⟩,
        ⟨3, "1.2.3.6".toList, 8080, "user".toList, "pass".toList, "FL".toList, "FL".toList,
          disponible, 0, [], [], 1⟩,
        ⟨4, "1.2.3.7".toList, 8080, "user".toList, "pass".toList, "NY".toList, "NY".toList,
          BURNED, 3, [], [], 0⟩], 4⟩ :=
  ⟨by decide,
    (incrementarSesiones_credits_one.2 dbEjemplo
      ⟨4, "1.2.3.7".toList, 8080, "user".toList, "pass".toList, "NY".toList, "NY".toList,
        disponible, 2, [], [], 0⟩ (by decide) (by decide)).1⟩

/-! ## The lifecycle invariant: theorems -/

theorem le_maxId (rows : List Row) (r : Row) (h : r ∈ rows) : r.id ≤ maxId rows := by
  induction rows with
  | nil => simp at h
  | cons a as ih =>
    simp only [maxId, List.foldr_cons]
    rcases List.mem_cons.1 h with rfl | h
    · exact le_max_left _ _
    · exact le_trans (ih h) (le_max_right _ _)

theorem lt_nextId (db : DB) (r : Row) (h : r ∈ db.rows) : r.id < nextId db := by
  have := le_maxId db.rows r h
  unfold nextId
  omega

theorem insertOrReplace_nodup (db : DB) (estado : Str) (reg : ProxyParsed)
    (hid : (db.rows.map Row.id).Nodup) :
    ((insertOrReplace db estado reg).rows.map Row.id).Nodup := by
  simp only [insertOrReplace, List.map_append, List.map_cons, List.map_nil]
  rw [List.nodup_append]
  refine ⟨?_, List.nodup_singleton _, ?_⟩
  · exact List.Nodup.sublist (List.Sublist.map _ (List.filter_sublist _)) hid
  · intro a ha hb
    simp only [List.mem_singleton] at hb
    obtain ⟨r, hr, rfl⟩ := List.mem_map.1 ha
    have := lt_nextId db r (List.mem_filter.1 hr).1
    omega

theorem insertOrReplace_inv (db : DB) (estado : Str) (reg : ProxyParsed) (h : Inv db) :
    Inv (insertOrReplace db estado reg) := by
  refine ⟨insertOrReplace_nodup db estado reg h.1, ?_⟩
  intro r hr
  simp only [insertOrReplace, List.mem_append, List.mem_singleton] at hr
  rcases hr with hr | rfl
  · exact h.2 r (List.mem_filter.1 hr).1
  · simp [Row.coherente]

theorem foldl_insertOrReplace_inv (estado : Str) (regs : List ProxyParsed) (db : DB)
    (h : Inv db) : Inv (regs.foldl (fun d reg => insertOrReplace d estado reg) db) := by
  induction regs generalizing db with
  | nil => exact h
  | cons reg regs ih => exact ih _ (insertOrReplace_inv db estado reg h)

theorem importar_inv (db : DB) (contenido stateCode : Option Str) (h : Inv db) :
    Inv (importarProxiesDesdeArchivo db contenido stateCode).1 := by
  unfold importarProxiesDesdeArchivo
  cases normalizarEstado stateCode with
  | none => exact h
  | some e =>
    cases contenido with
    | none => exact h
    | some texto =>
      simp only
      split
      · exact h
      · exact foldl_insertOrReplace_inv e _ db h

theorem actualizarDonde_ids (db : DB) (id : Nat) (f : Row → Row)
    (hf : ∀ r, (f r).id = r.id) :
    (actualizarDonde db id f).rows.map Row.id = db.rows.map Row.id := by
  simp only [actualizarDonde, List.map_map]
  apply List.map_congr_left
  intro r _
  by_cases h : r.id = id <;> simp [h, hf]

theorem actualizarDonde_nodup (db : DB) (id : Nat) (f : Row → Row)
    (hf : ∀ r, (f r).id = r.id) (h : (db.rows.map Row.id).Nodup) :
    ((actualizarDonde db id f).rows.map Row.id).Nodup := by
  rw [actualizarDonde_ids db id f hf]
  exact h

theorem actualizarDonde_inv (db : DB) (id : Nat) (f : Row → Row) (h : Inv db)
    (hf : ∀ r, (f r).id = r.id)
    (hc : ∀ r ∈ db.rows, r.id = id → (f r).coherente) : Inv (actualizarDonde db id f) := by
  refine ⟨by rw [actualizarDonde_ids db id f hf]; exact h.1, ?_⟩
  intro r hr
  simp only [actualizarDonde] at hr
  obtain ⟨r0, hr0, rfl⟩ := List.mem_map.1 hr
  by_cases hid : r0.id = id
  · simp only [hid, if_true]
    exact hc r0 hr0 hid
  · simp only [hid, if_false]
    exact h.2 r0 hr0

theorem acreditada_coherente (r : Row) (h : r.coherente) : r.acreditada.coherente := by
  unfold Row.coherente at h ⊢
  simp only [Row.acreditada]
  by_cases h3 : (3 : Int) ≤ r.sesionesCompletadas + 1
  · have : (3 : Int) ≤ r.sesionesCompletadas + 1 := h3
    simp [h3]
  · have h4 : ¬ (3 : Int) ≤ r.sesionesCompletadas := by omega
    simp only [h3, if_false]
    rw [h]
    simp [h4]

theorem incrementarSesiones_inv (db : DB) (id : Nat) (h : Inv db) :
    Inv (incrementarSesiones db id).1 := by
  cases hb : buscarPorId db id with
  | none => simpa [incrementarSesiones, hb] using h
  | some row =>
    obtain ⟨hrow, rfl⟩ := buscarPorId_some db id row hb
    rw [incrementarSesiones_rows db h.1 row hrow]
    have := actualizarDonde_inv db row.id Row.acreditada h (fun r => rfl)
      (fun r hr _ => acreditada_coherente r (h.2 r hr))
    simpa [actualizarDonde] using this

theorem aplicar_inv (db : DB) (op : Op) (h : Inv db) : Inv (aplicar db op) := by
  cases op with
  | importar contenido stateCode => exact importar_inv db contenido stateCode h
  | incrementar proxyId => exact incrementarSesiones_inv db proxyId h
  | marcar nodoId =>
    simp only [aplicar, marcar_eq_incrementar]
    exact incrementarSesiones_inv db nodoId h
  | sumar proxyId cantidad ahora =>
    simp only [aplicar, sumarPoliza]
    cases hb : buscarPorId db proxyId with
    | none => exact h
    | some row =>
      exact actualizarDonde_inv db proxyId _ h (fun r => rfl) (fun r hr _ => h.2 r hr)
  | actualizar proxyId poliza ahora =>
    exact actualizarDonde_inv db proxyId _ h (fun r => rfl) (fun r hr _ => h.2 r hr)
  | toggle proxyId =>
    simp only [aplicar, toggleDisabled]
    cases hb : buscarPorId db proxyId with
    | none => exact h
    | some row =>
      exact actualizarDonde_inv db proxyId _ h (fun r => rfl) (fun r hr _ => h.2 r hr)

theorem ejecutar_inv (ops : List Op) (db : DB) (h : Inv db) : Inv (ejecutar db ops) := by
  induction ops generalizing db with
  | nil => exact h
  | cons op ops ih => exact ih _ (aplicar_inv db op h)

theorem inv_vacia : Inv DB.vacia := by
  simp [Inv, DB.vacia]

/-- C3. In every table reached from the empty one by imports, session credits (either
function), policy credits, policy updates and toggles, every node is `'BURNED'` exactly when
its `sesionesCompletadas` is at least 3, and is `'disponible'` otherwise. -/
theorem reachable_burned_iff_three_sessions (ops : List Op) (r : Row)
    (hr : r ∈ (ejecutar DB.vacia ops).rows) :
    (r.estado = BURNED ↔ 3 ≤ r.sesionesCompletadas) ∧
    (¬ 3 ≤ r.sesionesCompletadas → r.estado = disponible) := by
  have hc : r.coherente := (ejecutar_inv ops DB.vacia inv_vacia).2 r hr
  unfold Row.coherente at hc
  by_cases h3 : (3 : Int) ≤ r.sesionesCompletadas
  · simp only [h3, if_true] at hc
    simp [hc, h3]
  · simp only [h3, if_false] at hc
    simp only [hc, h3, iff_false, not_false_eq_true, forall_true_left, and_true]
    decide

/-- C3, after importing one line and crediting the node three times: the node is Burned
with 3 sessions. -/
theorem reachable_burned_iff_three_sessions_witness :
    (⟨1, "1.2.3.4".toList, 8080, "user".toList, "pass".toList, "FL".toList, "FL".toList,
        BURNED, 3, [], [], 0⟩ : Row) ∈
      (ejecutar DB.vacia [Op.importar (some "1.2.3.4:8080:user:pass".toList) (some "fl".toList),
        Op.incrementar 1, Op.marcar 1, Op.incrementar 1]).rows ∧
    ((BURNED = BURNED ↔ (3 : Int) ≤ 3) ∧ (¬ (3 : Int) ≤ 3 → BURNED = disponible)) :=
  ⟨by decide,
    reachable_burned_iff_three_sessions
      [Op.importar (some "1.2.3.4:8080:user:pass".toList) (some "fl".toList),
        Op.incrementar 1, Op.marcar 1, Op.incrementar 1]
      ⟨1, "1.2.3.4".toList, 8080, "user".toList, "pass".toList, "FL".toList, "FL".toList,
        BURNED, 3, [], [], 0⟩ (by decide)⟩

/-! ## Burned is terminal, up to re-import: theorems -/

theorem Evol.refl (t : Str × Int × Str × Str) (db : DB) : Evol t db db :=
  ⟨fun r hr ht => ⟨r, hr, rfl, ht, le_refl _, id⟩,
    fun r hr ht => ⟨r, hr, rfl, ht, le_refl _, id⟩⟩

theorem Evol.trans {t : Str × Int × Str × Str} {a b c : DB} (h1 : Evol t a b)
    (h2 : Evol t b c) : Evol t a c := by
  constructor
  · intro r3 hr3 ht
    obtain ⟨r2, hr2, hid2, ht2, hs2, hb2⟩ := h2.1 r3 hr3 ht
    obtain ⟨r1, hr1, hid1, ht1, hs1, hb1⟩ := h1.1 r2 hr2 ht2
    exact ⟨r1, hr1, hid1.trans hid2, ht1, le_trans hs1 hs2, fun h => hb2 (hb1 h)⟩
  · intro r1 hr1 ht
    obtain ⟨r2, hr2, hid2, ht2, hs2, hb2⟩ := h1.2 r1 hr1 ht
    obtain ⟨r3, hr3, hid3, ht3, hs3, hb3⟩ := h2.2 r2 hr2 ht2
    exact ⟨r3, hr3, hid3.trans hid2, ht3, le_trans hs2 hs3, fun h => hb3 (hb2 h)⟩

theorem actualizarDonde_evol (t : Str × Int × Str × Str) (db : DB) (id : Nat) (f : Row → Row)
    (hf : ∀ r ∈ db.rows, r.id = id → (f r).id = r.id ∧ (f r).tupla = r.tupla ∧
      r.sesionesCompletadas ≤ (f r).sesionesCompletadas ∧
      (r.estado = BURNED → (f r).estado = BURNED)) :
    Evol t db (actualizarDonde db id f) := by
  constructor
  · intro r2 hr2 ht
    simp only [actualizarDonde] at hr2
    obtain ⟨r, hr, rfl⟩ := List.mem_map.1 hr2
    by_cases hid : r.id = id
    · simp only [hid, if_true] at ht ⊢
      obtain ⟨h1, h2, h3, h4⟩ := hf r hr hid
      exact ⟨r, hr, by rw [h1, hid], by rw [← h2]; exact ht, h3, h4⟩
    · simp only [hid, if_false] at ht ⊢
      exact ⟨r, hr, rfl, ht, le_refl _, fun hb => hb⟩
  · intro r hr ht
    refine ⟨if r.id = id then f r else r, ?_, ?_⟩
    · simp only [actualizarDonde]
      exact List.mem_map.2 ⟨r, hr, rfl⟩
    · by_cases hid : r.id = id
      · simp only [hid, if_true]
        obtain ⟨h1, h2, h3, h4⟩ := hf r hr hid
        exact ⟨by rw [h1, hid], by rw [h2]; exact ht, h3, h4⟩
      · simp only [hid, if_false]
        exact ⟨trivial, ht, le_refl _, fun hb => hb⟩

theorem insertOrReplace_evol (t : Str × Int × Str × Str) (db : DB) (estado : Str)
    (reg : ProxyParsed) (hreg : reg.tupla ≠ t) : Evol t db (insertOrReplace db estado reg) := by
  constructor
  · intro r2 hr2 ht
    simp only [insertOrReplace, List.mem_append, List.mem_singleton] at hr2
    rcases hr2 with hr2 | rfl
    · exact ⟨r2, (List.mem_filter.1 hr2).1, rfl, ht, le_refl _, id⟩
    · exact absurd ht hreg
  · intro r hr ht
    refine ⟨r, ?_, rfl, ht, le_refl _, id⟩
    simp only [insertOrReplace, List.mem_append, List.mem_singleton]
    left
    refine List.mem_filter.2 ⟨hr, ?_⟩
    simp only [decide_eq_true_eq, ht]
    exact fun h => hreg h.symm

theorem foldl_insertOrReplace_evol (t : Str × Int × Str × Str) (estado : Str)
    (regs : List ProxyParsed) (db : DB) (hregs : ∀ reg ∈ regs, reg.tupla ≠ t) :
    Evol t db (regs.foldl (fun d reg => insertOrReplace d estado reg) db) := by
  induction regs generalizing db with
  | nil => exact Evol.refl t db
  | cons reg regs ih =>
    exact Evol.trans
      (insertOrReplace_evol t db estado reg (hregs reg (List.mem_cons_self _ _)))
      (ih _ (fun r hr => hregs r (List.mem_cons_of_mem _ hr)))

theorem importar_evol (t : Str × Int × Str × Str) (db : DB) (contenido stateCode : Option Str)
    (h : (Op.importar contenido stateCode).importaTupla t = false) :
    Evol t db (importarProxiesDesdeArchivo db contenido stateCode).1 := by
  unfold importarProxiesDesdeArchivo
  cases normalizarEstado stateCode with
  | none => exact Evol.refl t db
  | some e =>
    cases contenido with
    | none => exact Evol.refl t db
    | some texto =>
      simp only
      split
      · exact Evol.refl t db
      · apply foldl_insertOrReplace_evol
        intro reg hreg
        simp only [Op.importaTupla, registrosDe, List.any_eq_false, decide_eq_true_eq] at h
        exact h reg hreg

theorem aplicar_evol (t : Str × Int × Str × Str) (db : DB) (op : Op)
    (hid : (db.rows.map Row.id).Nodup) (h : op.importaTupla t = false) :
    Evol t db (aplicar db op) := by
  have hcredit : ∀ id, Evol t db (incrementarSesiones db id).1 := by
    intro id
    cases hb : buscarPorId db id with
    | none =>
      simp only [incrementarSesiones, hb]
      exact Evol.refl t db
    | some row =>
      obtain ⟨hrow, rfl⟩ := buscarPorId_some db id row hb
      rw [incrementarSesiones_rows db hid row hrow]
      have := actualizarDonde_evol t db row.id Row.acreditada (fun r _ _ =>
        ⟨rfl, rfl, by simp [Row.acreditada], by
          intro hb
          simp only [Row.acreditada, hb, ite_self]⟩)
      simpa [actualizarDonde] using this
  cases op with
  | importar contenido stateCode => exact importar_evol t db contenido stateCode h
  | incrementar proxyId => exact hcredit proxyId
  | marcar nodoId =>
    simp only [aplicar, marcar_eq_incrementar]
    exact hcredit nodoId
  | sumar proxyId cantidad ahora =>
    simp only [aplicar, sumarPoliza]
    cases hb : buscarPorId db proxyId with
    | none => exact Evol.refl t db
    | some row =>
      exact actualizarDonde_evol t db proxyId _
        (fun r _ _ => ⟨rfl, rfl, le_refl _, fun hb => hb⟩)
  | actualizar proxyId poliza ahora =>
    exact actualizarDonde_evol t db proxyId _ (fun r _ _ => ⟨rfl, rfl, le_refl _, fun hb => hb⟩)
  | toggle proxyId =>
    simp only [aplicar, toggleDisabled]
    cases hb : buscarPorId db proxyId with
    | none => exact Evol.refl t db
    | some row =>
      exact actualizarDonde_evol t db proxyId _
        (fun r _ _ => ⟨rfl, rfl, le_refl _, fun hb => hb⟩)

theorem foldl_insertOrReplace_nodup (estado : Str) (regs : List ProxyParsed) (db : DB)
    (h : (db.rows.map Row.id).Nodup) :
    ((regs.foldl (fun d reg => insertOrReplace d estado reg) db).rows.map Row.id).Nodup := by
  induction regs generalizing db with
  | nil => exact h
  | cons reg regs ih => exact ih _ (insertOrReplace_nodup db estado reg h)

theorem aplicar_nodup (db : DB) (op : Op) (h : (db.rows.map Row.id).Nodup) :
    ((aplicar db op).rows.map Row.id).Nodup := by
  cases op with
  | importar contenido stateCode =>
    simp only [aplicar, importarProxiesDesdeArchivo]
    cases normalizarEstado stateCode with
    | none => exact h
    | some e =>
      cases contenido with
      | none => exact h
      | some texto =>
        simp only
        split
        · exact h
        · exact foldl_insertOrReplace_nodup e _ db h
  | incrementar proxyId =>
    simp only [aplicar, incrementarSesiones]
    cases buscarPorId db proxyId with
    | none => exact h
    | some row => exact actualizarDonde_nodup db proxyId _ (fun r => rfl) h
  | marcar nodoId =>
    simp only [aplicar, marcarSesionCompletada]
    cases buscarPorId db nodoId with
    | none => exact h
    | some row => exact actualizarDonde_nodup db nodoId _ (fun r => rfl) h
  | sumar proxyId cantidad ahora =>
    simp only [aplicar, sumarPoliza]
    cases buscarPorId db proxyId with
    | none => exact h
    | some row => exact actualizarDonde_nodup db proxyId _ (fun r => rfl) h
  | actualizar proxyId poliza ahora =>
    simp only [aplicar, actualizarPoliza]
    exact actualizarDonde_nodup db proxyId _ (fun r => rfl) h
  | toggle proxyId =>
    simp only [aplicar, toggleDisabled]
    cases buscarPorId db proxyId with
    | none => exact h
    | some row => exact actualizarDonde_nodup db proxyId _ (fun r => rfl) h

theorem ejecutar_evol (t : Str × Int × Str × Str) (ops : List Op) (db : DB)
    (hid : (db.rows.map Row.id).Nodup) (hops : ∀ op ∈ ops, op.importaTupla t = false) :
    Evol t db (ejecutar db ops) := by
  induction ops generalizing db with
  | nil => exact Evol.refl t db
  | cons op ops ih =>
    exact Evol.trans (aplicar_evol t db op hid (hops op (List.mem_cons_self _ _)))
      (ih _ (aplicar_nodup db op hid) (fun o ho => hops o (List.mem_cons_of_mem _ ho)))

/-- C4 as stated fails: a node imported from the line `1.2.3.4:8080:user:pass` and credited
three times is Burned with 3 sessions; importing the same line again leaves, for the same
credential tuple, a single node that is Available with 0 sessions. -/
theorem burned_node_available_after_reimport :
    (ejecutar DB.vacia [Op.importar (some "1.2.3.4:8080:user:pass".toList) (some "FL".toList),
        Op.incrementar 1, Op.incrementar 1, Op.incrementar 1]).rows =
      [⟨1, "1.2.3.4".toList, 8080, "user".toList, "pass".toList, "FL".toList, "FL".toList,
        BURNED, 3, [], [], 0⟩] ∧
    (ejecutar DB.vacia [Op.importar (some "1.2.3.4:8080:user:pass".toList) (some "FL".toList),
        Op.incrementar 1, Op.incrementar 1, Op.incrementar 1,
        Op.importar (some "1.2.3.4:8080:user:pass".toList) (some "FL".toList)]).rows =
      [⟨2, "1.2.3.4".toList, 8080, "user".toList, "pass".toList, "FL".toList, "FL".toList,
        disponible, 0, [], [], 0⟩] := by
  decide

/-- C4, amended. Along every sequence of session credits, policy credits, policy updates,
toggles and imports of files that hold no valid line for the credential tuple `t`, the nodes
of tuple `t` stay the same nodes (same ids), their `sesionesCompletadas` never decreases and
a node that is `'BURNED'` stays `'BURNED'`, so it is never `'disponible'` again. -/
theorem burned_stays_burned_without_reimport (db : DB) (ops : List Op)
    (t : Str × Int × Str × Str) (hid : (db.rows.map Row.id).Nodup)
    (hops : ∀ op ∈ ops, op.importaTupla t = false) :
    (∀ r2 ∈ (ejecutar db ops).rows, r2.tupla = t →
      ∃ r ∈ db.rows, r.id = r2.id ∧ r.tupla = t ∧
      r.sesionesCompletadas ≤ r2.sesionesCompletadas ∧
      (r.estado = BURNED → r2.estado = BURNED ∧ r2.estado ≠ disponible)) ∧
    (∀ r ∈ db.rows, r.tupla = t →
      ∃ r2 ∈ (ejecutar db ops).rows, r2.id = r.id ∧ r2.tupla = t ∧
      r.sesionesCompletadas ≤ r2.sesionesCompletadas ∧
      (r.estado = BURNED → r2.estado = BURNED ∧ r2.estado ≠ disponible)) := by
  have hne : BURNED ≠ disponible := by decide
  obtain ⟨h1, h2⟩ := ejecutar_evol t ops db hid hops
  constructor
  · intro r2 hr2 ht
    obtain ⟨r, hr, ha, hb, hc, hd⟩ := h1 r2 hr2 ht
    exact ⟨r, hr, ha, hb, hc, fun hB => ⟨hd hB, by rw [hd hB]; exact hne⟩⟩
  · intro r hr ht
    obtain ⟨r2, hr2, ha, hb, hc, hd⟩ := h2 r hr ht
    exact ⟨r2, hr2, ha, hb, hc, fun hB => ⟨hd hB, by rw [hd hB]; exact hne⟩⟩

/-- C4 amended, on the example table: the Burned node 2 is credited, toggled, given
policies, and another node is imported. -/
theorem burned_stays_burned_without_reimport_witness :
    (dbEjemplo.rows.map Row.id).Nodup ∧
    (∀ op ∈ [Op.marcar 2, Op.toggle 2, Op.sumar 2 3 "2026-01-01T00:00:00.000Z".toList,
        Op.importar (some "9.9.9.9:80:u:p\n1.2.3.4:8080:user:pass".toList) (some "FL".toList)],
      op.importaTupla ("1.2.3.5".toList, 8080, "user".toList, "pass".toList) = false) ∧
    (∀ r2 ∈ (ejecutar dbEjemplo [Op.marcar 2, Op.toggle 2,
        Op.sumar 2 3 "2026-01-01T00:00:00.000Z".toList,
        Op.importar (some "9.9.9.9:80:u:p\n1.2.3.4:8080:user:pass".toList)
          (some "FL".toList)]).rows,
      r2.tupla = ("1.2.3.5".toList, 8080, "user".toList, "pass".toList) →
      ∃ r ∈ dbEjemplo.rows, r.id = r2.id ∧
        r.tupla = ("1.2.3.5".toList, 8080, "user".toList, "pass".toList) ∧
        r.sesionesCompletadas ≤ r2.sesionesCompletadas ∧
        (r.estado = BURNED → r2.estado = BURNED ∧ r2.estado ≠ disponible)) :=
  ⟨by decide, by decide,
    (burned_stays_burned_without_reimport dbEjemplo
      [Op.marcar 2, Op.toggle 2, Op.sumar 2 3 "2026-01-01T00:00:00.000Z".toList,
        Op.importar (some "9.9.9.9:80:u:p\n1.2.3.4:8080:user:pass".toList) (some "FL".toList)]
      ("1.2.3.5".toList, 8080, "user".toList, "pass".toList) (by decide) (by decide)).1⟩

/-! ## Successive sessions: theorems -/

theorem obtenerSiguienteNodo_some (db : DB) (tag r : Str)
    (hr : extraerEstadoDesdeUbicacion (some tag) = some r) (n : Row)
    (h : obtenerSiguienteNodo db (some tag) = some n) : n ∈ db.rows ∧ elegible r n = true := by
  simp only [obtenerSiguienteNodo, hr] at h
  exact List.mem_filter.1 (ultimoPorId_mem_max _ n h).1

theorem obtenerSiguienteNodo_none (db : DB) (tag r : Str)
    (hr : extraerEstadoDesdeUbicacion (some tag) = some r)
    (h : obtenerSiguienteNodo db (some tag) = none) : ∀ x ∈ db.rows, elegible r x = false := by
  simp only [obtenerSiguienteNodo, hr, ultimoPorId_eq_none] at h
  intro x hx
  by_contra hne
  have : x ∈ db.rows.filter (elegible r) := List.mem_filter.2 ⟨hx, by simpa using hne⟩
  rw [h] at this
  simp at this

theorem map_acreditada_of_not_mem (rows : List Row) (id : Nat)
    (h : id ∉ rows.map Row.id) :
    rows.map (fun x => if x.id = id then x.acreditada else x) = rows := by
  induction rows with
  | nil => rfl
  | cons a as ih =>
    simp only [List.map_cons, List.mem_cons, not_or] at h ⊢
    have ha : ¬ a.id = id := fun e => h.1 e.symm
    rw [ih h.2]
    simp [ha]

/-- Crediting the row `n` of a table with distinct ids changes a sum over the rows by the
difference at `n`. -/
theorem sum_map_acreditada (g : Row → Nat) (rows : List Row) (n : Row)
    (hid : (rows.map Row.id).Nodup) (hn : n ∈ rows) :
    ((rows.map (fun x => if x.id = n.id then x.acreditada else x)).map g).sum + g n =
      (rows.map g).sum + g n.acreditada := by
  induction rows with
  | nil => simp at hn
  | cons a as ih =>
    simp only [List.map_cons, List.nodup_cons] at hid
    rcases List.mem_cons.1 hn with rfl | hmem
    · rw [List.map_cons, map_acreditada_of_not_mem as n.id hid.1]
      simp only [if_true, List.map_cons, List.sum_cons]
      omega
    · have hne : ¬ a.id = n.id := by
        intro e
        exact hid.1 (e ▸ List.mem_map.2 ⟨n, hmem, rfl⟩)
      have := ih hid.2 hmem
      simp only [List.map_cons, hne, if_false, List.sum_cons]
      omega

theorem cupo_acreditada (r : Str) (n : Row) (h : elegible r n = true) :
    cupo r n.acreditada + 1 = cupo r n := by
  obtain ⟨h1, h2, h3⟩ := (elegible_iff r n).1 h
  have hne : BURNED ≠ disponible := by decide
  by_cases h3s : (3 : Int) ≤ n.sesionesCompletadas + 1
  · have hel : elegible r n.acreditada = false := by
      simp [elegible, Row.acreditada, h3s, hne]
    simp only [cupo, hel, h, if_true]
    have : max 1 (3 - n.sesionesCompletadas) = 1 := by omega
    simp [this]
  · have hel : elegible r n.acreditada = true := by
      simp [elegible, Row.acreditada, h3s, h1, h2, h3]
    simp only [cupo, hel, h, if_true]
    have e1 : max 1 (3 - n.acreditada.sesionesCompletadas) = 2 - n.sesionesCompletadas := by
      simp only [Row.acreditada]
      omega
    have e2 : max 1 (3 - n.sesionesCompletadas) = 3 - n.sesionesCompletadas := by omega
    rw [e1, e2]
    omega

/-- One session on a table with distinct ids: either the region has nothing left and the
table is unchanged, or a node is handed out and the region and that node lose one unit. -/
theorem iniciarSesionGeo_step (db : DB) (tag r : Str)
    (hr : extraerEstadoDesdeUbicacion (some tag) = some r)
    (hid : (db.rows.map Row.id).Nodup) :
    ((iniciarSesionGeo db (some tag)).2 = none ∧ (iniciarSesionGeo db (some tag)).1 = db ∧
      cupoTotal r db = 0 ∧ ∀ id, cupoDeId r db id = 0) ∨
    (∃ n, (iniciarSesionGeo db (some tag)).2 = some n ∧
      cupoTotal r (iniciarSesionGeo db (some tag)).1 + 1 = cupoTotal r db ∧
      (∀ id, cupoDeId r (iniciarSesionGeo db (some tag)).1 id + (if n.id = id then 1 else 0) =
        cupoDeId r db id) ∧
      (((iniciarSesionGeo db (some tag)).1).rows.map Row.id).Nodup) := by
  cases h : obtenerSiguienteNodo db (some tag) with
  | none =>
    left
    have hall := obtenerSiguienteNodo_none db tag r hr h
    have hz : ∀ x ∈ db.rows, cupo r x = 0 := fun x hx => by simp [cupo, hall x hx]
    refine ⟨by simp [iniciarSesionGeo, h], by simp [iniciarSesionGeo, h], ?_, ?_⟩
    · apply List.sum_eq_zero
      intro v hv
      obtain ⟨x, hx, rfl⟩ := List.mem_map.1 hv
      exact hz x hx
    · intro id
      apply List.sum_eq_zero
      intro v hv
      obtain ⟨x, hx, rfl⟩ := List.mem_map.1 hv
      by_cases hxi : x.id = id <;> simp [hxi, hz x hx]
  | some n =>
    right
    obtain ⟨hn, hel⟩ := obtenerSiguienteNodo_some db tag r hr n h
    have hdb : (iniciarSesionGeo db (some tag)).1 =
        ⟨db.rows.map (fun x => if x.id = n.id then x.acreditada else x), db.seq⟩ := by
      simp [iniciarSesionGeo, h, incrementarSesiones_rows db hid n hn]
    refine ⟨n, by simp [iniciarSesionGeo, h], ?_, ?_, ?_⟩
    · rw [hdb]
      have := sum_map_acreditada (cupo r) db.rows n hid hn
      have hc := cupo_acreditada r n hel
      simp only [cupoTotal]
      omega
    · intro id
      rw [hdb]
      have := sum_map_acreditada (fun x => if x.id = id then cupo r x else 0) db.rows n hid hn
      have hc := cupo_acreditada r n hel
      have hsame : n.acreditada.id = n.id := rfl
      simp only [cupoDeId]
      simp only [hsame] at this
      by_cases hni : n.id = id
      · simp only [hni, if_true] at this ⊢
        omega
      · simp only [hni, if_false] at this ⊢
        omega
    · rw [hdb]
      have := actualizarDonde_nodup db n.id Row.acreditada (fun _ => rfl) hid
      simpa [actualizarDonde] using this

theorem cupoDeId_of_not_mem (r : Str) (db : DB) (id : Nat) (h : id ∉ db.rows.map Row.id) :
    cupoDeId r db id = 0 := by
  apply List.sum_eq_zero
  intro v hv
  obtain ⟨x, hx, rfl⟩ := List.mem_map.1 hv
  have : ¬ x.id = id := fun e => h (e ▸ List.mem_map.2 ⟨x, hx, rfl⟩)
  simp [this]

theorem cupoDeId_of_mem (r : Str) (db : DB) (row : Row) (hid : (db.rows.map Row.id).Nodup)
    (hrow : row ∈ db.rows) : cupoDeId r db row.id = cupo r row := by
  obtain ⟨rows, seq⟩ := db
  simp only at hid hrow
  simp only [cupoDeId]
  induction rows with
  | nil => simp at hrow
  | cons a as ih =>
    simp only [List.map_cons, List.nodup_cons] at hid
    rcases List.mem_cons.1 hrow with rfl | hmem
    · have := cupoDeId_of_not_mem r ⟨as, seq⟩ row.id hid.1
      simp only [cupoDeId] at this
      simp [this]
    · have hne : ¬ a.id = row.id := fun e => hid.1 (e ▸ List.mem_map.2 ⟨row, hmem, rfl⟩)
      simp [hne, ih hid.2 hmem]

theorem sesionesSucesivas_counts (tag r : Str)
    (hr : extraerEstadoDesdeUbicacion (some tag) = some r) (N : Nat) (db : DB)
    (hid : (db.rows.map Row.id).Nodup) :
    (sesionesSucesivas db (some tag) N).2.map Option.isSome =
        List.replicate (min N (cupoTotal r db)) true ++
          List.replicate (N - cupoTotal r db) false ∧
    ∀ id, (idsEntregados (sesionesSucesivas db (some tag) N).2).count id ≤
      cupoDeId r db id := by
  induction N generalizing db with
  | zero => simp [sesionesSucesivas, idsEntregados]
  | succ N ih =>
    simp only [sesionesSucesivas]
    rcases iniciarSesionGeo_step db tag r hr hid with ⟨h1, h2, h3, h4⟩ | ⟨n, h1, h2, h3, h4⟩
    · obtain ⟨ih1, ih2⟩ := ih db hid
      rw [h1, h2]
      constructor
      · rw [List.map_cons, ih1, h3]
        simp [List.replicate_succ]
      · intro id
        have := ih2 id
        simpa [idsEntregados] using this
    · obtain ⟨ih1, ih2⟩ := ih _ h4
      rw [h1]
      constructor
      · rw [List.map_cons, ih1]
        have e1 : min (N + 1) (cupoTotal r db) =
            min N (cupoTotal r (iniciarSesionGeo db (some tag)).1) + 1 := by omega
        have e2 : N + 1 - cupoTotal r db =
            N - cupoTotal r (iniciarSesionGeo db (some tag)).1 := by omega
        rw [e1, e2]
        simp [List.replicate_succ]
      · intro id
        have hc := ih2 id
        have hd := h3 id
        simp only [idsEntregados, List.filterMap_cons, Option.map_some', List.count_cons]
          at hc ⊢
        by_cases hni : n.id = id
        · simp only [hni, if_true, beq_self_eq_true] at hd ⊢
          omega
        · have : (n.id == id) = false := by simpa using hni
          simp only [hni, if_false, this] at hd ⊢
          simp only [Bool.false_eq_true, if_false]
          omega

theorem cupoTotal_of_all_at_two (r : Str) (db : DB)
    (h2 : ∀ row ∈ db.rows, elegible r row = true → row.sesionesCompletadas = 2) :
    cupoTotal r db = (db.rows.filter (elegible r)).length := by
  obtain ⟨rows, seq⟩ := db
  simp only [cupoTotal] at h2 ⊢
  induction rows with
  | nil => rfl
  | cons a as ih =>
    have iha := ih (fun row hrow => h2 row (List.mem_cons_of_mem _ hrow))
    by_cases hel : elegible r a = true
    · have := h2 a (List.mem_cons_self _ _) hel
      simp only [List.map_cons, List.sum_cons, iha, List.filter_cons, hel, if_true,
        List.length_cons, cupo, this]
      have : (max 1 ((3 : Int) - 2)).toNat = 1 := by decide
      omega
    · simp only [List.map_cons, List.sum_cons, iha, List.filter_cons, hel, if_false, cupo]
      simp

/-- C5 as stated fails: Florida has one eligible node in the example table, yet two
successive sessions for `Miami-FL` both receive node 1 and none of them is refused. -/
theorem same_node_in_successive_sessions :
    (dbEjemplo.rows.filter (elegible "FL".toList)).length = 1 ∧
    (sesionesSucesivas dbEjemplo (some "Miami-FL".toList) 2).2.map (Option.map Row.id) =
      [some 1, some 1] := by
  decide

/-- C5, amended. In a serial run where every allocation is followed at once by
`incrementarSesiones` on the node handed out, a node is handed out again while it stays
eligible: with `K` the sum over the eligible nodes of the region of the credits that take
each to the threshold of 3, the first `min N K` of `N` successive allocations give a node and
the others give none; a stored node is handed out at most as many times as its own share of
`K`, which is at most 3 when its counter is not negative, and an id that is not stored is
never handed out.  When every eligible node is at 2 sessions, the ids handed out are pairwise
distinct and `K` is the number of eligible nodes. -/
theorem sesionesSucesivas_reuse_until_burned (db : DB) (tag r : Str) (N : Nat)
    (hr : extraerEstadoDesdeUbicacion (some tag) = some r)
    (hid : (db.rows.map Row.id).Nodup) :
    (sesionesSucesivas db (some tag) N).2.map Option.isSome =
        List.replicate (min N (cupoTotal r db)) true ++
          List.replicate (N - cupoTotal r db) false ∧
    (∀ row ∈ db.rows,
      (idsEntregados (sesionesSucesivas db (some tag) N).2).count row.id ≤ cupo r row) ∧
    (∀ id, id ∉ db.rows.map Row.id →
      (idsEntregados (sesionesSucesivas db (some tag) N).2).count id = 0) ∧
    (∀ row ∈ db.rows, 0 ≤ row.sesionesCompletadas → cupo r row ≤ 3) ∧
    ((∀ row ∈ db.rows, elegible r row = true → row.sesionesCompletadas = 2) →
      (idsEntregados (sesionesSucesivas db (some tag) N).2).Nodup ∧
      cupoTotal r db = (db.rows.filter (elegible r)).length) := by
  obtain ⟨h1, h2⟩ := sesionesSucesivas_counts tag r hr N db hid
  refine ⟨h1, ?_, ?_, ?_, ?_⟩
  · intro row hrow
    rw [← cupoDeId_of_mem r db row hid hrow]
    exact h2 row.id
  · intro id hnot
    have := h2 id
    rw [cupoDeId_of_not_mem r db id hnot] at this
    omega
  · intro row _ h0
    simp only [cupo]
    split
    · omega
    · omega
  · intro hall
    refine ⟨?_, cupoTotal_of_all_at_two r db hall⟩
    rw [List.nodup_iff_count_le_one]
    intro id
    refine le_trans (h2 id) ?_
    by_cases hmem : id ∈ db.rows.map Row.id
    · obtain ⟨row, hrow, rfl⟩ := List.mem_map.1 hmem
      rw [cupoDeId_of_mem r db row hid hrow]
      simp only [cupo]
      split
      · rename_i hel
        rw [hall row hrow hel]
        decide
      · omega
    · rw [cupoDeId_of_not_mem r db id hmem]
      omega

/-- C5 amended, on the example table: the only eligible Florida node, at 0 sessions, is
handed out three times and the fourth allocation gives no node. -/
theorem sesionesSucesivas_reuse_until_burned_witness :
    extraerEstadoDesdeUbicacion (some "Miami-FL".toList) = some "FL".toList ∧
    (dbEjemplo.rows.map Row.id).Nodup ∧
    (sesionesSucesivas dbEjemplo (some "Miami-FL".toList) 4).2.map Option.isSome =
      [true, true, true, false] :=
  ⟨by decide, by decide,
    (sesionesSucesivas_reuse_until_burned dbEjemplo "Miami-FL".toList "FL".toList 4
      (by decide) (by decide)).1⟩

/-! ## Two requests in flight: theorems -/

theorem esEntrelazado_cases (plan : List Bool) (h : esEntrelazado plan) :
    plan = [true, true, false, false] ∨ plan = [true, false, true, false] ∨
    plan = [true, false, false, true] ∨ plan = [false, true, true, false] ∨
    plan = [false, true, false, true] ∨ plan = [false, false, true, true] := by
  obtain ⟨h1, h2⟩ := h
  have hlen : plan.length = 4 := by
    have := List.count_true_add_count_false plan
    omega
  match plan, hlen with
  | [a, b, c, d], _ =>
    revert h1 h2
    cases a <;> cases b <;> cases c <;> cases d <;> decide

theorem acreditarNodo_nodup (db : DB) (hid : (db.rows.map Row.id).Nodup) (nodo : Option Row) :
    ((acreditarNodo db nodo).rows.map Row.id).Nodup := by
  cases nodo with
  | none => exact hid
  | some n => exact aplicar_nodup db (Op.incrementar n.id) hid

theorem acreditarNodo_ses (db : DB) (hid : (db.rows.map Row.id).Nodup) (nodo : Option Row)
    (row : Row) (hrow : row ∈ db.rows) :
    ∃ row2 ∈ (acreditarNodo db nodo).rows, row2.id = row.id ∧
      row2.sesionesCompletadas = row.sesionesCompletadas + creditoDe nodo row.id := by
  cases nodo with
  | none => exact ⟨row, hrow, rfl, by simp [creditoDe]⟩
  | some n =>
    simp only [acreditarNodo]
    cases hb : buscarPorId db n.id with
    | none =>
      have hne : n.id ≠ row.id := fun e => buscarPorId_none db n.id hb row hrow e.symm
      refine ⟨row, by simpa [incrementarSesiones, hb] using hrow, rfl, ?_⟩
      simp [creditoDe, hne]
    | some row0 =>
      obtain ⟨hrow0, hid0⟩ := buscarPorId_some db n.id row0 hb
      rw [← hid0, incrementarSesiones_rows db hid row0 hrow0]
      refine ⟨if row.id = row0.id then row.acreditada else row,
        List.mem_map.2 ⟨row, hrow, rfl⟩, ?_⟩
      by_cases he : row.id = row0.id
      · have h1 : n.id = row.id := by rw [he, hid0]
        simp [he, creditoDe, Row.acreditada, h1]
      · have h1 : ¬ n.id = row.id := fun e => he (by rw [hid0, e])
        simp [he, creditoDe, h1]

theorem acreditarNodo_twice_ses (db : DB) (hid : (db.rows.map Row.id).Nodup)
    (x y : Option Row) (row : Row) (hrow : row ∈ db.rows) :
    ∃ row2 ∈ (acreditarNodo (acreditarNodo db x) y).rows, row2.id = row.id ∧
      row2.sesionesCompletadas =
        row.sesionesCompletadas + creditoDe x row.id + creditoDe y row.id := by
  obtain ⟨r1, hr1, hid1, hs1⟩ := acreditarNodo_ses db hid x row hrow
  obtain ⟨r2, hr2, hid2, hs2⟩ :=
    acreditarNodo_ses (acreditarNodo db x) (acreditarNodo_nodup db hid x) y r1 hr1
  exact ⟨r2, hr2, hid2.trans hid1, by rw [hs2, hs1, hid1]⟩

/-- After the credit that takes a node to the threshold, an allocation does not return it. -/
theorem obtenerSiguienteNodo_after_burn (db : DB) (tag r : Str)
    (hr : extraerEstadoDesdeUbicacion (some tag) = some r)
    (hid : (db.rows.map Row.id).Nodup) (n : Row) (hn : n ∈ db.rows)
    (h3 : 3 ≤ n.sesionesCompletadas + 1) :
    (obtenerSiguienteNodo (acreditarNodo db (some n)) (some tag)).map Row.id ≠ some n.id := by
  intro hsame
  cases hm : obtenerSiguienteNodo (acreditarNodo db (some n)) (some tag) with
  | none => simp [hm] at hsame
  | some m =>
    rw [hm] at hsame
    simp only [Option.map_some', Option.some.injEq] at hsame
    obtain ⟨hmem, hel⟩ := obtenerSiguienteNodo_some _ tag r hr m hm
    simp only [acreditarNodo, incrementarSesiones_rows db hid n hn] at hmem
    obtain ⟨x, hx, hxm⟩ := List.mem_map.1 hmem
    have hxid : x.id = n.id := by
      by_cases he : x.id = n.id
      · exact he
      · simp only [he, if_false] at hxm
        rw [hxm]
        exact hsame
    have hxn : x = n := eq_of_id_eq hid hx hn hxid
    subst hxn
    simp only [if_true] at hxm
    have hd := ((elegible_iff r m).1 hel).2.1
    rw [← hxm] at hd
    simp only [Row.acreditada, h3, if_true] at hd
    exact absurd hd (by decide)

theorem carrera_serial_ab (db : DB) (u : Option Str) :
    carrera db u [true, true, false, false] =
      ⟨acreditarNodo (acreditarNodo db (obtenerSiguienteNodo db u))
          (obtenerSiguienteNodo (acreditarNodo db (obtenerSiguienteNodo db u)) u),
        ⟨2, obtenerSiguienteNodo db u⟩,
        ⟨2, obtenerSiguienteNodo (acreditarNodo db (obtenerSiguienteNodo db u)) u⟩⟩ := by
  simp [carrera, correr, avanzar, Peticion.inicial]

theorem carrera_serial_ba (db : DB) (u : Option Str) :
    carrera db u [false, false, true, true] =
      ⟨acreditarNodo (acreditarNodo db (obtenerSiguienteNodo db u))
          (obtenerSiguienteNodo (acreditarNodo db (obtenerSiguienteNodo db u)) u),
        ⟨2, obtenerSiguienteNodo (acreditarNodo db (obtenerSiguienteNodo db u)) u⟩,
        ⟨2, obtenerSiguienteNodo db u⟩⟩ := by
  simp [carrera, correr, avanzar, Peticion.inicial]

theorem carrera_race (db : DB) (u : Option Str) (plan : List Bool)
    (h : plan = [true, false, true, false] ∨ plan = [true, false, false, true] ∨
      plan = [false, true, true, false] ∨ plan = [false, true, false, true]) :
    carrera db u plan =
      ⟨acreditarNodo (acreditarNodo db (obtenerSiguienteNodo db u)) (obtenerSiguienteNodo db u),
        ⟨2, obtenerSiguienteNodo db u⟩, ⟨2, obtenerSiguienteNodo db u⟩⟩ := by
  rcases h with rfl | rfl | rfl | rfl <;> simp [carrera, correr, avanzar, Peticion.inicial]

/-- C6 as stated fails: on the example table two requests for `Miami-FL` receive the same
node 1, when one runs after the other and also when both allocate before either credits. -/
theorem two_requests_receive_same_node :
    esEntrelazado [true, true, false, false] ∧
    (carrera dbEjemplo (some "Miami-FL".toList) [true, true, false, false]).a.nodo.map Row.id
      = some 1 ∧
    (carrera dbEjemplo (some "Miami-FL".toList) [true, true, false, false]).b.nodo.map Row.id
      = some 1 ∧
    esEntrelazado [true, false, true, false] ∧
    (carrera dbEjemplo (some "Miami-FL".toList) [true, false, true, false]).a.nodo.map Row.id
      = some 1 ∧
    (carrera dbEjemplo (some "Miami-FL".toList) [true, false, true, false]).b.nodo.map Row.id
      = some 1 := by
  decide

/-- C6, amended. Allocation and the credit that follows are two steps with no mutual
exclusion.  For every interleaving of two requests for the same region on a table with
distinct ids: both requests finish; a node that a request receives was Available, enabled
and of the region when it was selected; every credit is applied, so each stored node ends
with its `sesionesCompletadas` raised by the number of requests that received it; when both
allocations come before both credits the two requests receive the same result (the one of
`obtenerSiguienteNodo` on the initial table); and when one request runs wholly before the
other and its credit takes its node to the threshold of 3, the other request does not
receive that node. -/
theorem two_requests_credit_without_exclusion (db : DB) (tag r : Str) (plan : List Bool)
    (hr : extraerEstadoDesdeUbicacion (some tag) = some r)
    (hid : (db.rows.map Row.id).Nodup) (hplan : esEntrelazado plan) :
    ((carrera db (some tag) plan).a.paso = 2 ∧ (carrera db (some tag) plan).b.paso = 2) ∧
    (∀ n, ((carrera db (some tag) plan).a.nodo = some n ∨
        (carrera db (some tag) plan).b.nodo = some n) →
      n.state_code = r ∧ n.estado = disponible ∧ n.disabled = 0) ∧
    (∀ row ∈ db.rows, ∃ row2 ∈ (carrera db (some tag) plan).db.rows, row2.id = row.id ∧
      row2.sesionesCompletadas = row.sesionesCompletadas +
        creditoDe (carrera db (some tag) plan).a.nodo row.id +
        creditoDe (carrera db (some tag) plan).b.nodo row.id) ∧
    ((plan.take 2 = [true, false] ∨ plan.take 2 = [false, true]) →
      (carrera db (some tag) plan).a.nodo = obtenerSiguienteNodo db (some tag) ∧
      (carrera db (some tag) plan).b.nodo = obtenerSiguienteNodo db (some tag)) ∧
    (plan = [true, true, false, false] → ∀ n, (carrera db (some tag) plan).a.nodo = some n →
      3 ≤ n.sesionesCompletadas + 1 →
      (carrera db (some tag) plan).b.nodo.map Row.id ≠ some n.id) ∧
    (plan = [false, false, true, true] → ∀ n, (carrera db (some tag) plan).b.nodo = some n →
      3 ≤ n.sesionesCompletadas + 1 →
      (carrera db (some tag) plan).a.nodo.map Row.id ≠ some n.id) := by
  have hel : ∀ (d : DB) (n : Row), obtenerSiguienteNodo d (some tag) = some n →
      n.state_code = r ∧ n.estado = disponible ∧ n.disabled = 0 :=
    fun d n h => (elegible_iff r n).1 (obtenerSiguienteNodo_some d tag r hr n h).2
  rcases esEntrelazado_cases plan hplan with rfl | hrace | hrace | hrace | hrace | rfl
  · rw [carrera_serial_ab]
    refine ⟨⟨rfl, rfl⟩, ?_, ?_, (fun h => absurd h (by decide)), ?_,
      (fun h => absurd h (by decide))⟩
    · rintro n (h | h)
      · exact hel _ n h
      · exact hel _ n h
    · intro row hrow
      exact acreditarNodo_twice_ses db hid _ _ row hrow
    · intro _ n hn h3
      simp only at hn ⊢
      rw [hn]
      exact obtenerSiguienteNodo_after_burn db tag r hr hid n
        (obtenerSiguienteNodo_some db tag r hr n hn).1 h3
  all_goals first
    | (rw [carrera_race db (some tag) plan (by simp [hrace])]
       subst hrace
       refine ⟨⟨rfl, rfl⟩, ?_, ?_, fun _ => ⟨rfl, rfl⟩, (fun h => absurd h (by decide)),
         (fun h => absurd h (by decide))⟩
       · rintro n (h | h)
         · exact hel _ n h
         · exact hel _ n h
       · intro row hrow
         exact acreditarNodo_twice_ses db hid _ _ row hrow)
    | (rw [carrera_serial_ba]
       refine ⟨⟨rfl, rfl⟩, ?_, ?_, (fun h => absurd h (by decide)),
         (fun h => absurd h (by decide)), ?_⟩
       · rintro n (h | h)
         · exact hel _ n h
         · exact hel _ n h
       · intro row hrow
         obtain ⟨row2, h1, h2, h3⟩ := acreditarNodo_twice_ses db hid
           (obtenerSiguienteNodo db (some tag))
           (obtenerSiguienteNodo (acreditarNodo db (obtenerSiguienteNodo db (some tag)))
             (some tag)) row hrow
         exact ⟨row2, h1, h2, by simp only; rw [h3]; omega⟩
       · intro _ n hn h3
         simp only at hn ⊢
         rw [hn]
         exact obtenerSiguienteNodo_after_burn db tag r hr hid n
           (obtenerSiguienteNodo_some db tag r hr n hn).1 h3)

/-- C6 amended, on the example table with both allocations before both credits: the two
requests receive the same result. -/
theorem two_requests_credit_without_exclusion_witness :
    extraerEstadoDesdeUbicacion (some "Miami-FL".toList) = some "FL".toList ∧
    (dbEjemplo.rows.map Row.id).Nodup ∧ esEntrelazado [true, false, false, true] ∧
    (carrera dbEjemplo (some "Miami-FL".toList) [true, false, false, true]).a.nodo =
      obtenerSiguienteNodo dbEjemplo (some "Miami-FL".toList) ∧
    (carrera dbEjemplo (some "Miami-FL".toList) [true, false, false, true]).b.nodo =
      obtenerSiguienteNodo dbEjemplo (some "Miami-FL".toList) :=
  ⟨by decide, by decide, by decide,
    (two_requests_credit_without_exclusion dbEjemplo "Miami-FL".toList "FL".toList
      [true, false, false, true] (by decide) (by decide) (by decide)).2.2.2.1
      (by decide)⟩

/-! ## Facts on the string primitives -/

theorem isDigit_facts (c : Char) (h : isDigit c = true) :
    isJsSpace c = false ∧ c ≠ ':' ∧ c ≠ '@' ∧ c ≠ '-' ∧ c ≠ '+' := by
  simp only [isDigit, Bool.and_eq_true, decide_eq_true_eq] at h
  refine ⟨?_, ?_, ?_, ?_, ?_⟩
  · simp only [isJsSpace, Bool.or_eq_false_iff, Bool.and_eq_false_imp, decide_eq_false_iff_not,
      decide_eq_true_eq]
    omega
  all_goals
    intro e
    subst e
    revert h
    decide

theorem split_ne_nil (sep : Char) (s : Str) : split sep s ≠ [] := by
  cases s with
  | nil => simp [split]
  | cons c cs =>
    simp only [split]
    split
    · simp
    · split <;> simp

theorem split_of_not_mem (sep : Char) (s : Str) (h : sep ∉ s) : split sep s = [s] := by
  induction s with
  | nil => rfl
  | cons c cs ih =>
    simp only [List.mem_cons, not_or] at h
    have hc : ¬ c = sep := fun e => h.1 e.symm
    simp [split, hc, ih h.2]

theorem split_append_sep (sep : Char) (a b : Str) (h : sep ∉ a) :
    split sep (a ++ sep :: b) = a :: split sep b := by
  induction a with
  | nil => simp [split]
  | cons c cs ih =>
    simp only [List.mem_cons, not_or] at h
    have hc : ¬ c = sep := fun e => h.1 e.symm
    simp [split, hc, ih h.2]

theorem join_split (sep : Char) (s : Str) : join sep (split sep s) = s := by
  induction s with
  | nil => rfl
  | cons c cs ih =>
    simp only [split]
    by_cases hc : c = sep
    · simp only [hc, if_true]
      cases hs : split sep cs with
      | nil => exact absurd hs (split_ne_nil sep cs)
      | cons p ps =>
        rw [hs] at ih
        simp [join, ih]
    · simp only [hc, if_false]
      cases hs : split sep cs with
      | nil => exact absurd hs (split_ne_nil sep cs)
      | cons p ps =>
        rw [hs] at ih
        cases ps with
        | nil =>
          simp only [join] at ih ⊢
          rw [ih]
        | cons q qs =>
          simp only [join] at ih ⊢
          rw [← ih]
          rfl

theorem trimStart_of_head (s : Str) (h : ∀ c, s.head? = some c → isJsSpace c = false) :
    trimStart s = s := by
  cases s with
  | nil => rfl
  | cons c cs =>
    have := h c rfl
    simp [trimStart, List.dropWhile, this]

theorem trim_of_ends (s : Str) (h1 : ∀ c, s.head? = some c → isJsSpace c = false)
    (h2 : ∀ c, s.getLast? = some c → isJsSpace c = false) : trim s = s := by
  unfold trim
  rw [trimStart_of_head s h1]
  unfold trimEnd
  have : s.reverse.dropWhile isJsSpace = s.reverse := by
    cases hr : s.reverse with
    | nil => rfl
    | cons c cs =>
      have hl : s.getLast? = some c := by
        rw [← List.head?_reverse, hr]
        rfl
      simp [List.dropWhile, h2 c hl]
  rw [this, List.reverse_reverse]

theorem includes_eq_false (c : Char) (s : Str) (h : c ∉ s) : includes c s = false := by
  simp only [includes, List.contains_eq_any_beq, List.any_eq_false, beq_iff_eq]
  intro x hx e
  exact h (e ▸ hx)

theorem includes_eq_true (c : Char) (s : Str) (h : c ∈ s) : includes c s = true := by
  simp only [includes, List.contains_eq_any_beq, List.any_eq_true, beq_iff_eq]
  exact ⟨c, h, rfl⟩

theorem indexOf_append (c : Char) (a b : Str) (h : c ∉ a) :
    indexOf c (a ++ c :: b) = a.length := by
  induction a with
  | nil => simp [indexOf]
  | cons d ds ih =>
    simp only [List.mem_cons, not_or] at h
    have hd : ¬ d = c := fun e => h.1 e.symm
    simp [indexOf, hd, ih h.2]

/-! ## Decimal numerals -/

theorem digitChar_facts :
    ∀ d, d < 10 → isDigit (Nat.digitChar d) = true ∧ digitVal (Nat.digitChar d) = d := by
  decide

theorem toDigitsCore_digits (fuel n : Nat) (acc : Str)
    (hacc : ∀ c ∈ acc, isDigit c = true) :
    ∀ c ∈ Nat.toDigitsCore 10 fuel n acc, isDigit c = true := by
  induction fuel generalizing n acc with
  | zero => simpa [Nat.toDigitsCore] using hacc
  | succ fuel ih =>
    have hd : isDigit (Nat.digitChar (n % 10)) = true :=
      (digitChar_facts (n % 10) (Nat.mod_lt _ (by decide))).1
    have hacc2 : ∀ c ∈ Nat.digitChar (n % 10) :: acc, isDigit c = true := by
      intro c hc
      rcases List.mem_cons.1 hc with rfl | hc
      · exact hd
      · exact hacc c hc
    simp only [Nat.toDigitsCore]
    split
    · exact hacc2
    · exact ih _ _ hacc2

theorem toDigitsCore_ne_nil (fuel n : Nat) (acc : Str) (h : 0 < fuel) :
    Nat.toDigitsCore 10 fuel n acc ≠ [] := by
  induction fuel generalizing n acc with
  | zero => omega
  | succ fuel ih =>
    simp only [Nat.toDigitsCore]
    split
    · simp
    · cases fuel with
      | zero => simp [Nat.toDigitsCore]
      | succ f => exact ih _ _ (Nat.succ_pos _)

theorem toDigitsCore_value (fuel n : Nat) (acc : Str) (h : n < fuel) :
    (Nat.toDigitsCore 10 fuel n acc).foldl (fun a c => 10 * a + digitVal c) 0 =
      acc.foldl (fun a c => 10 * a + digitVal c) n := by
  induction fuel generalizing n acc with
  | zero => omega
  | succ fuel ih =>
    have hv : digitVal (Nat.digitChar (n % 10)) = n % 10 :=
      (digitChar_facts (n % 10) (Nat.mod_lt _ (by decide))).2
    simp only [Nat.toDigitsCore]
    split
    · rename_i h0
      simp only [List.foldl_cons, hv]
      congr 1
      omega
    · rename_i h0
      rw [ih (n / 10) _ (by omega)]
      simp only [List.foldl_cons, hv]
      congr 1
      omega

theorem toDigits_facts (p : Nat) :
    Nat.toDigits 10 p ≠ [] ∧ (∀ c ∈ Nat.toDigits 10 p, isDigit c = true) ∧
    digitsValue (Nat.toDigits 10 p) = p := by
  refine ⟨toDigitsCore_ne_nil _ _ _ (Nat.succ_pos _),
    toDigitsCore_digits _ _ _ (by simp), ?_⟩
  simp only [digitsValue, Nat.toDigits]
  rw [toDigitsCore_value (p + 1) p [] (Nat.lt_succ_self p)]
  rfl

/-- On a non-empty string of decimal digits `parseInt` gives its value. -/
theorem parseInt_digits (ds : Str) (hne : ds ≠ []) (hall : ∀ c ∈ ds, isDigit c = true) :
    parseInt ds = some (digitsValue ds : Int) := by
  cases ds with
  | nil => exact absurd rfl hne
  | cons d rest =>
    obtain ⟨hsp, _, _, hminus, hplus⟩ := isDigit_facts d (hall d (List.mem_cons_self _ _))
    have htake : (d :: rest).takeWhile isDigit = d :: rest := by
      rw [List.takeWhile_eq_self_iff]
      exact hall
    have hm : (d == '-') = false := by simpa using hminus
    have hp : (d == '+') = false := by simpa using hplus
    simp only [parseInt, trimStart, List.dropWhile, hsp, startsWith, hm, hp, Bool.or_self,
      Bool.false_eq_true, if_false, htake, List.isEmpty_cons]

theorem parseInt_toDigits (p : Nat) : parseInt (Nat.toDigits 10 p) = some (p : Int) := by
  obtain ⟨h1, h2, h3⟩ := toDigits_facts p
  rw [parseInt_digits _ h1 h2, h3]

/-! ## Lines that `trim` leaves as they are: theorems -/

theorem finLimpio_append (a b : Str) (hb : b ≠ []) (h : finLimpio b) : finLimpio (a ++ b) := by
  intro c hc
  rw [List.getLast?_append_of_ne_nil a hb] at hc
  exact h c hc

theorem finLimpio_cons (c : Char) (b : Str) (hb : b ≠ []) (h : finLimpio b) :
    finLimpio (c :: b) := finLimpio_append [c] b hb h

theorem inicioLimpio_append (a b : Str) (ha : a ≠ []) (h : inicioLimpio a) :
    inicioLimpio (a ++ b) := by
  intro c hc
  cases a with
  | nil => exact absurd rfl ha
  | cons d ds => exact h c (by simpa using hc)

theorem inicioLimpio_of_all (a : Str) (h : ∀ c ∈ a, isJsSpace c = false) : inicioLimpio a := by
  intro c hc
  exact h c (List.mem_of_mem_head? hc)

theorem finLimpio_of_all (a : Str) (h : ∀ c ∈ a, isJsSpace c = false) : finLimpio a := by
  intro c hc
  exact h c (List.mem_of_mem_getLast? hc)

theorem trim_eq_self (s : Str) (h1 : inicioLimpio s) (h2 : finLimpio s) : trim s = s :=
  trim_of_ends s h1 h2

theorem length_dropWhile_le (p : Char → Bool) (s : Str) :
    (s.dropWhile p).length ≤ s.length :=
  (List.dropWhile_sublist p).length_le

theorem trimEnd_length_le (s : Str) : (trimEnd s).length ≤ s.length := by
  simp only [trimEnd, List.length_reverse]
  exact le_trans (length_dropWhile_le _ _) (by simp)

/-- A string that `trim` leaves as it is has no white space at either end. -/
theorem limpio_of_trim_eq (s : Str) (h : trim s = s) : inicioLimpio s ∧ finLimpio s := by
  have hstart : inicioLimpio s := by
    intro c hc
    cases s with
    | nil => simp at hc
    | cons d ds =>
      simp only [List.head?_cons, Option.some.injEq] at hc
      subst hc
      by_contra hsp
      have hsp2 : isJsSpace d = true := by simpa using hsp
      have hlen : (trim (d :: ds)).length ≤ ds.length := by
        unfold trim
        refine le_trans (trimEnd_length_le _) ?_
        simp only [trimStart, List.dropWhile, hsp2]
        exact length_dropWhile_le _ _
      rw [h] at hlen
      simp at hlen
  refine ⟨hstart, ?_⟩
  intro c hc
  unfold trim at h
  rw [trimStart_of_head s hstart] at h
  unfold trimEnd at h
  have hrev : s.reverse.dropWhile isJsSpace = s.reverse := by
    have := congrArg List.reverse h
    simpa using this
  rw [← List.head?_reverse] at hc
  cases hr : s.reverse with
  | nil => rw [hr] at hc; simp at hc
  | cons d ds =>
    rw [hr] at hc hrev
    simp only [List.head?_cons, Option.some.injEq] at hc
    subst hc
    by_contra hsp
    have hsp2 : isJsSpace d = true := by simpa using hsp
    simp only [List.dropWhile, hsp2] at hrev
    have := length_dropWhile_le isJsSpace ds
    rw [hrev] at this
    simp at this

/-! ## Round trips of `parsearLineaProxy` -/

theorem length_split_pos (sep : Char) (s : Str) : 1 ≤ (split sep s).length := by
  cases h : split sep s with
  | nil => exact absurd h (split_ne_nil sep s)
  | cons a as => simp

theorem digits_not_mem (p : Nat) :
    ':' ∉ Nat.toDigits 10 p ∧ '@' ∉ Nat.toDigits 10 p ∧
      ∀ c ∈ Nat.toDigits 10 p, isJsSpace c = false := by
  obtain ⟨_, hall, _⟩ := toDigits_facts p
  refine ⟨fun hm => (isDigit_facts _ (hall _ hm)).2.1 rfl,
    fun hm => (isDigit_facts _ (hall _ hm)).2.2.1 rfl,
    fun c hc => (isDigit_facts c (hall c hc)).1⟩

theorem esPuerto_of_range (p : Nat) (hp : 1 ≤ p ∧ p ≤ 65535) :
    esPuerto (some (p : Int)) = true := by
  simp only [esPuerto, Bool.and_eq_true, decide_eq_true_eq]
  omega

theorem space_isJsSpace : isJsSpace ' ' = true := by decide

/-- The final validation accepts four resolved fields when the host has no white space. -/
theorem validar_ok (h u s : Str) (p : Nat) (hh : h ≠ []) (hh1 : ∀ c ∈ h, isJsSpace c = false)
    (hp : 1 ≤ p) (hu : u ≠ []) (hs : s ≠ []) :
    validar ⟨some h, some (p : Int), some u, some s⟩ = some ⟨h, p, u, s⟩ := by
  have h1 : h.isEmpty = false := by cases h <;> simp_all
  have h2 : u.isEmpty = false := by cases u <;> simp_all
  have h3 : s.isEmpty = false := by cases s <;> simp_all
  have h4 : ¬ (p : Int) = 0 := by omega
  have h5 : ¬ h.length < 1 := by
    cases h with
    | nil => exact absurd rfl hh
    | cons a as => simp
  have h6 : includes ' ' h = false := by
    apply includes_eq_false
    intro hm
    have := hh1 ' ' hm
    rw [space_isJsSpace] at this
    exact Bool.noConfusion this
  simp [validar, h1, h2, h3, h4, h5, h6]

theorem finLimpio_digits (p : Nat) : finLimpio (Nat.toDigits 10 p) :=
  finLimpio_of_all _ (digits_not_mem p).2.2

theorem noStr_some (x : Str) (h : x ≠ []) : noStr (some x) = false := by
  cases x <;> simp_all [noStr]

theorem noNum_some (p : Nat) (h : 1 ≤ p) : noNum (some (p : Int)) = false := by
  simp only [noNum, decide_eq_false_iff_not]
  omega

/-- The first block of `parsearLineaProxy` on `a@b`, where `a` is not empty and holds no
`@`: the two sides handed to `split(':')` are `a` and `b`. -/
theorem formato1_at (a b : Str) (ha : a ≠ []) (hat : '@' ∉ a) :
    formato1 (a ++ '@' :: b) =
      if 2 ≤ (split ':' a).length ∧ 2 ≤ (split ':' b).length then
        if esPuerto (parseInt ((split ':' a).getD 1 [])) &&
            esNaN (parseInt ((split ':' b).getD 1 [])) then
          ⟨(split ':' a).head?, parseInt ((split ':' a).getD 1 []), (split ':' b).head?,
            some (join ':' ((split ':' b).drop 1))⟩
        else if esPuerto (parseInt ((split ':' b).getD 1 [])) then
          ⟨(split ':' b).head?, parseInt ((split ':' b).getD 1 []), (split ':' a).head?,
            some (join ':' ((split ':' a).drop 1))⟩
        else Vars.vacio
      else Vars.vacio := by
  have hinc : includes '@' (a ++ '@' :: b) = true :=
    includes_eq_true _ _ (by simp)
  have hst : startsWith '@' (a ++ '@' :: b) = false := by
    cases a with
    | nil => exact absurd rfl ha
    | cons c cs =>
      simp only [List.mem_cons, not_or] at hat
      have : ¬ c = '@' := fun e => hat.1 e.symm
      simpa [startsWith] using this
  have hidx := indexOf_append '@' a b hat
  have htake : (a ++ '@' :: b).take a.length = a := by simp
  have hdrop : (a ++ '@' :: b).drop (a.length + 1) = b := by
    rw [← List.drop_drop]
    simp
  simp only [formato1, hinc, hst, hidx, htake, hdrop, Bool.not_false, Bool.and_self, if_true]

/-- C7. For a host `h` (non-empty, without `:`, `@` or white space, not starting with `#`),
a port `p` with `1 <= p <= 65535` written in decimal, a user `u` (non-empty, without `:`,
`@` or white space) and a secret `s` (non-empty, without `@`, without leading or trailing
white space, possibly with `:`), `parsearLineaProxy` on `h:p:u:s` returns exactly
`{ ip: h, puerto: p, usuario: u, password: s }`. -/
theorem parsear_host_port_user_secret (h u s : Str) (p : Nat)
    (hh : h ≠ []) (hh1 : ∀ c ∈ h, c ≠ ':' ∧ c ≠ '@' ∧ isJsSpace c = false)
    (hh2 : startsWith '#' h = false)
    (hp : 1 ≤ p ∧ p ≤ 65535)
    (hu : u ≠ []) (hu1 : ∀ c ∈ u, c ≠ ':' ∧ c ≠ '@' ∧ isJsSpace c = false)
    (hs : s ≠ []) (hs1 : '@' ∉ s) (hs2 : trim s = s) :
    parsearLineaProxy (h ++ ':' :: (Nat.toDigits 10 p ++ ':' :: (u ++ ':' :: s))) =
      some ⟨h, p, u, s⟩ := by
  obtain ⟨hD1, hD2, hD3⟩ := toDigits_facts p
  obtain ⟨hDc, hDa, hDs⟩ := digits_not_mem p
  have hne : (h ++ ':' :: (Nat.toDigits 10 p ++ ':' :: (u ++ ':' :: s))).isEmpty = false := by
    cases h <;> simp_all
  have htrim : trim (h ++ ':' :: (Nat.toDigits 10 p ++ ':' :: (u ++ ':' :: s))) =
      h ++ ':' :: (Nat.toDigits 10 p ++ ':' :: (u ++ ':' :: s)) := by
    apply trim_eq_self
    · exact inicioLimpio_append h _ hh (inicioLimpio_of_all h (fun c hc => (hh1 c hc).2.2))
    · exact finLimpio_append h _ (by simp) (finLimpio_cons _ _ (by simp)
        (finLimpio_append _ _ (by simp) (finLimpio_cons _ _ (by simp)
          (finLimpio_append u _ (by simp) (finLimpio_cons _ s hs (limpio_of_trim_eq s hs2).2)))))
  have hstart : startsWith '#' (h ++ ':' :: (Nat.toDigits 10 p ++ ':' :: (u ++ ':' :: s))) =
      false := by
    cases h with
    | nil => exact absurd rfl hh
    | cons a as => simpa [startsWith] using hh2
  have hat : '@' ∉ h ++ ':' :: (Nat.toDigits 10 p ++ ':' :: (u ++ ':' :: s)) := by
    simp only [List.mem_append, List.mem_cons, not_or]
    exact ⟨fun hm => (hh1 _ hm).2.1 rfl, by decide, hDa, by decide,
      fun hm => (hu1 _ hm).2.1 rfl, by decide, hs1⟩
  have hf1 : formato1 (h ++ ':' :: (Nat.toDigits 10 p ++ ':' :: (u ++ ':' :: s))) =
      Vars.vacio := by
    simp [formato1, includes_eq_false _ _ hat]
  have hsplit : split ':' (h ++ ':' :: (Nat.toDigits 10 p ++ ':' :: (u ++ ':' :: s))) =
      h :: Nat.toDigits 10 p :: u :: split ':' s := by
    rw [split_append_sep ':' h _ (fun hm => (hh1 _ hm).1 rfl),
      split_append_sep ':' _ _ hDc, split_append_sep ':' u _ (fun hm => (hu1 _ hm).1 rfl)]
  have hlen := length_split_pos ':' s
  have hf2 : formato2 (h ++ ':' :: (Nat.toDigits 10 p ++ ':' :: (u ++ ':' :: s)))
      Vars.vacio = ⟨some h, some (p : Int), some u, some s⟩ := by
    have h4 : 4 ≤ (h :: Nat.toDigits 10 p :: u :: split ':' s).length := by
      simp only [List.length_cons]
      omega
    simp only [formato2, Vars.vacio, noStr, noNum, Bool.or_self, if_true, hsplit, h4,
      List.getD_cons_succ, List.getD_cons_zero, parseInt_toDigits, esPuerto_of_range p hp,
      List.head?_cons, List.drop_succ_cons, List.drop_zero, join_split]
    rfl
  simp only [parsearLineaProxy, hne, htrim, hstart, hf1, hf2, Bool.or_self,
    Bool.false_eq_true, if_false]
  exact validar_ok h u s p hh (fun c hc => (hh1 c hc).2.2) hp.1 hu hs

/-- C7, on the two lines `1.2.3.4:8080:user:pass` and `1.2.3.4:8080:user:pa:ss`. -/
theorem parsear_host_port_user_secret_witness :
    parsearLineaProxy "1.2.3.4:8080:user:pass".toList =
      some ⟨"1.2.3.4".toList, 8080, "user".toList, "pass".toList⟩ ∧
    parsearLineaProxy "1.2.3.4:8080:user:pa:ss".toList =
      some ⟨"1.2.3.4".toList, 8080, "user".toList, "pa:ss".toList⟩ :=
  ⟨parsear_host_port_user_secret "1.2.3.4".toList "user".toList "pass".toList 8080
      (by decide) (by decide) (by decide) (by decide) (by decide) (by decide) (by decide)
      (by decide) (by decide),
    parsear_host_port_user_secret "1.2.3.4".toList "user".toList "pa:ss".toList 8080
      (by decide) (by decide) (by decide) (by decide) (by decide) (by decide) (by decide)
      (by decide) (by decide)⟩

theorem split_append_sep_general (sep : Char) (a b : Str) :
    split sep (a ++ sep :: b) = split sep a ++ split sep b := by
  induction a with
  | nil => simp [split]
  | cons c cs ih =>
    by_cases hc : c = sep
    · simp [split, hc, ih]
    · cases hs : split sep cs with
      | nil => exact absurd hs (split_ne_nil sep cs)
      | cons q qs =>
        have ih2 : split sep (cs ++ sep :: b) = q :: (qs ++ split sep b) := by
          rw [ih, hs]
          rfl
        show split sep (c :: (cs ++ sep :: b)) = split sep (c :: cs) ++ split sep b
        simp only [split, hc, if_false, ih2, hs]
        rfl

/-- The round trip of `USER:SECRET:HOST:PORT` holds whenever `parseInt` of the first token of
the secret is `NaN` or outside [1,65535]. -/
theorem parsear_user_secret_host_port_of_not_port (h u s : Str) (p : Nat)
    (hu : u ≠ []) (hu1 : ∀ c ∈ u, c ≠ ':' ∧ c ≠ '@' ∧ isJsSpace c = false)
    (hu2 : startsWith '#' u = false)
    (hs : s ≠ []) (hs1 : '@' ∉ s)
    (hs3 : esPuerto (parseInt ((split ':' s).headD [])) = false)
    (hh : h ≠ []) (hh1 : ∀ c ∈ h, c ≠ ':' ∧ c ≠ '@' ∧ isJsSpace c = false)
    (hp : 1 ≤ p ∧ p ≤ 65535) :
    parsearLineaProxy (u ++ ':' :: (s ++ ':' :: (h ++ ':' :: Nat.toDigits 10 p))) =
      some ⟨h, p, u, s⟩ := by
  obtain ⟨hD1, hD2, hD3⟩ := toDigits_facts p
  obtain ⟨hDc, hDa, hDs⟩ := digits_not_mem p
  have hne : (u ++ ':' :: (s ++ ':' :: (h ++ ':' :: Nat.toDigits 10 p))).isEmpty = false := by
    cases u <;> simp_all
  have htrim : trim (u ++ ':' :: (s ++ ':' :: (h ++ ':' :: Nat.toDigits 10 p))) =
      u ++ ':' :: (s ++ ':' :: (h ++ ':' :: Nat.toDigits 10 p)) := by
    apply trim_eq_self
    · exact inicioLimpio_append u _ hu (inicioLimpio_of_all u (fun c hc => (hu1 c hc).2.2))
    · exact finLimpio_append u _ (by simp) (finLimpio_cons _ _ (by simp)
        (finLimpio_append s _ (by simp) (finLimpio_cons _ _ (by simp)
          (finLimpio_append h _ (by simp) (finLimpio_cons _ _ hD1 (finLimpio_digits p))))))
  have hstart : startsWith '#' (u ++ ':' :: (s ++ ':' :: (h ++ ':' :: Nat.toDigits 10 p))) =
      false := by
    cases u with
    | nil => exact absurd rfl hu
    | cons a as => simpa [startsWith] using hu2
  have hat : '@' ∉ u ++ ':' :: (s ++ ':' :: (h ++ ':' :: Nat.toDigits 10 p)) := by
    simp only [List.mem_append, List.mem_cons, not_or]
    exact ⟨fun hm => (hu1 _ hm).2.1 rfl, by decide, hs1, by decide,
      fun hm => (hh1 _ hm).2.1 rfl, by decide, hDa⟩
  have hf1 : formato1 (u ++ ':' :: (s ++ ':' :: (h ++ ':' :: Nat.toDigits 10 p))) =
      Vars.vacio := by
    simp [formato1, includes_eq_false _ _ hat]
  cases hT : split ':' s with
  | nil => exact absurd hT (split_ne_nil ':' s)
  | cons t ts =>
    have hjoin : join ':' (t :: ts) = s := by rw [← hT, join_split]
    rw [hT] at hs3
    simp only [List.headD_cons] at hs3
    have hsplit : split ':' (u ++ ':' :: (s ++ ':' :: (h ++ ':' :: Nat.toDigits 10 p))) =
        (u :: t :: ts) ++ [h, Nat.toDigits 10 p] := by
      rw [split_append_sep ':' u _ (fun hm => (hu1 _ hm).1 rfl), split_append_sep_general,
        hT, split_append_sep ':' h _ (fun hm => (hh1 _ hm).1 rfl),
        split_of_not_mem ':' _ hDc]
      rfl
    have hlen : ((u :: t :: ts) ++ [h, Nat.toDigits 10 p]).length = ts.length + 4 := by
      simp
    have hget1 : ((u :: t :: ts) ++ [h, Nat.toDigits 10 p]).getD 1 [] = t := rfl
    have hgetLast : ((u :: t :: ts) ++ [h, Nat.toDigits 10 p]).getD (ts.length + 4 - 1) [] =
        Nat.toDigits 10 p := by
      rw [List.getD_eq_getElem?_getD, List.getElem?_append_right (by simp)]
      have : ts.length + 4 - 1 - (u :: t :: ts).length = 1 := by
        simp only [List.length_cons]
        omega
      rw [this]
      rfl
    have hgetHost : ((u :: t :: ts) ++ [h, Nat.toDigits 10 p]).get? (ts.length + 4 - 2) =
        some h := by
      rw [List.get?_eq_getElem?, List.getElem?_append_right (by simp)]
      have : ts.length + 4 - 2 - (u :: t :: ts).length = 0 := by
        simp only [List.length_cons]
        omega
      rw [this]
      rfl
    have hslice : slice 1 (ts.length + 4 - 2) ((u :: t :: ts) ++ [h, Nat.toDigits 10 p]) =
        t :: ts := by
      have : ts.length + 4 - 2 = (u :: t :: ts).length := by
        simp only [List.length_cons]
        omega
      rw [slice, this, List.take_left']
      · rfl
      · rfl
    have hf2 : formato2 (u ++ ':' :: (s ++ ':' :: (h ++ ':' :: Nat.toDigits 10 p)))
        Vars.vacio = ⟨some h, some (p : Int), some u, some s⟩ := by
      have h4 : 4 ≤ ts.length + 4 := by omega
      simp only [formato2, Vars.vacio, noStr, noNum, Bool.or_self, if_true, hsplit, hlen, h4,
        hget1, hs3, Bool.false_eq_true, if_false, hgetLast, parseInt_toDigits,
        esPuerto_of_range p hp, hgetHost, hslice, hjoin]
      rfl
    simp only [parsearLineaProxy, hne, htrim, hstart, hf1, hf2, Bool.or_self,
      Bool.false_eq_true, if_false]
    exact validar_ok h u s p hh (fun c hc => (hh1 c hc).2.2) hp.1 hu hs

/-- C8, at the line `user:80pass:1.2.3.4:8080` (user `user`, secret `80pass`, host `1.2.3.4`,
port 8080): the first token of the secret is not a decimal integer, yet `parseInt` reads 80
from it and the line is taken as `HOST:PORT:USER:SECRET`: the result has ip `user`, puerto
80, usuario `1.2.3.4` and password `8080`. -/
theorem parsear_user_secret_host_port_digit_prefix :
    parseInt "80pass".toList = some 80 ∧
    parsearLineaProxy "user:80pass:1.2.3.4:8080".toList =
      some ⟨"user".toList, 80, "1.2.3.4".toList, "8080".toList⟩ := by
  decide

/-- C9 as stated fails: in the line `1.2.3.4:8080@user:0` the secret `0` is not a decimal
integer in [1,65535], yet `parsearLineaProxy` returns no result: the first block asks for
`isNaN(parseInt('0', 10))`, which is false. -/
theorem parsear_host_port_at_user_numeric_secret :
    parseInt "0".toList = some 0 ∧ esPuerto (parseInt "0".toList) = false ∧
    parsearLineaProxy "1.2.3.4:8080@user:0".toList = none := by
  decide

/-- C9, amended. For a host `h` (non-empty, without `:`, `@` or white space, not starting
with `#`), a port `p` with `1 <= p <= 65535` written in decimal, a user `u` (non-empty,
without `:`, `@` or white space) and a secret `s` (non-empty, without leading or trailing
white space, possibly with `:` and `@`) whose first `:`-separated token has no numeric
prefix (`parseInt` of it is `NaN`), `parsearLineaProxy` on `h:p@u:s` returns exactly
`{ ip: h, puerto: p, usuario: u, password: s }`. -/
theorem parsear_host_port_at_user_secret (h u s : Str) (p : Nat)
    (hh : h ≠ []) (hh1 : ∀ c ∈ h, c ≠ ':' ∧ c ≠ '@' ∧ isJsSpace c = false)
    (hh2 : startsWith '#' h = false)
    (hp : 1 ≤ p ∧ p ≤ 65535)
    (hu : u ≠ []) (hu1 : ∀ c ∈ u, c ≠ ':' ∧ c ≠ '@' ∧ isJsSpace c = false)
    (hs : s ≠ []) (hs2 : trim s = s)
    (hs3 : parseInt ((split ':' s).headD []) = none) :
    parsearLineaProxy (h ++ ':' :: (Nat.toDigits 10 p ++ '@' :: (u ++ ':' :: s))) =
      some ⟨h, p, u, s⟩ := by
  obtain ⟨hD1, hD2, hD3⟩ := toDigits_facts p
  obtain ⟨hDc, hDa, hDs⟩ := digits_not_mem p
  have hne : (h ++ ':' :: (Nat.toDigits 10 p ++ '@' :: (u ++ ':' :: s))).isEmpty = false := by
    cases h <;> simp_all
  have htrim : trim (h ++ ':' :: (Nat.toDigits 10 p ++ '@' :: (u ++ ':' :: s))) =
      h ++ ':' :: (Nat.toDigits 10 p ++ '@' :: (u ++ ':' :: s)) := by
    apply trim_eq_self
    · exact inicioLimpio_append h _ hh (inicioLimpio_of_all h (fun c hc => (hh1 c hc).2.2))
    · exact finLimpio_append h _ (by simp) (finLimpio_cons _ _ (by simp)
        (finLimpio_append _ _ (by simp) (finLimpio_cons _ _ (by simp)
          (finLimpio_append u _ (by simp) (finLimpio_cons _ s hs (limpio_of_trim_eq s hs2).2)))))
  have hstart : startsWith '#' (h ++ ':' :: (Nat.toDigits 10 p ++ '@' :: (u ++ ':' :: s))) =
      false := by
    cases h with
    | nil => exact absurd rfl hh
    | cons a as => simpa [startsWith] using hh2
  have hassoc : h ++ ':' :: (Nat.toDigits 10 p ++ '@' :: (u ++ ':' :: s)) =
      (h ++ ':' :: Nat.toDigits 10 p) ++ '@' :: (u ++ ':' :: s) := by simp
  have hleft : '@' ∉ h ++ ':' :: Nat.toDigits 10 p := by
    simp only [List.mem_append, List.mem_cons, not_or]
    exact ⟨fun hm => (hh1 _ hm).2.1 rfl, by decide, hDa⟩
  have hsa : split ':' (h ++ ':' :: Nat.toDigits 10 p) = [h, Nat.toDigits 10 p] := by
    rw [split_append_sep ':' h _ (fun hm => (hh1 _ hm).1 rfl), split_of_not_mem ':' _ hDc]
  have hsb : split ':' (u ++ ':' :: s) = u :: split ':' s :=
    split_append_sep ':' u s (fun hm => (hu1 _ hm).1 rfl)
  have hlen := length_split_pos ':' s
  have hnan : parseInt ((split ':' s).getD 0 []) = none := by
    cases hsp : split ':' s with
    | nil => exact absurd hsp (split_ne_nil ':' s)
    | cons t ts =>
      rw [hsp] at hs3
      simpa using hs3
  have hf1 : formato1 (h ++ ':' :: (Nat.toDigits 10 p ++ '@' :: (u ++ ':' :: s))) =
      ⟨some h, some (p : Int), some u, some s⟩ := by
    rw [hassoc, formato1_at _ _ (by simp) hleft, hsa, hsb]
    have h2 : 2 ≤ [h, Nat.toDigits 10 p].length ∧ 2 ≤ (u :: split ':' s).length := by
      simp only [List.length_cons, List.length_nil]
      omega
    simp only [h2, and_self, if_true, List.getD_cons_succ, List.getD_cons_zero,
      parseInt_toDigits, hnan, esNaN, Option.isNone_none, Bool.and_true,
      esPuerto_of_range p hp, List.head?_cons, List.drop_succ_cons, List.drop_zero,
      join_split]
  have hf2 : formato2 (h ++ ':' :: (Nat.toDigits 10 p ++ '@' :: (u ++ ':' :: s)))
      ⟨some h, some (p : Int), some u, some s⟩ =
        ⟨some h, some (p : Int), some u, some s⟩ := by
    simp [formato2, noStr_some h hh, noNum_some p hp.1]
  simp only [parsearLineaProxy, hne, htrim, hstart, hf1, hf2, Bool.or_self,
    Bool.false_eq_true, if_false]
  exact validar_ok h u s p hh (fun c hc => (hh1 c hc).2.2) hp.1 hu hs

/-- C9 amended, on the two lines `1.2.3.4:8080@user:pass` and `1.2.3.4:8080@user:pa:ss`. -/
theorem parsear_host_port_at_user_secret_witness :
    parsearLineaProxy "1.2.3.4:8080@user:pass".toList =
      some ⟨"1.2.3.4".toList, 8080, "user".toList, "pass".toList⟩ ∧
    parsearLineaProxy "1.2.3.4:8080@user:pa:ss".toList =
      some ⟨"1.2.3.4".toList, 8080, "user".toList, "pa:ss".toList⟩ :=
  ⟨parsear_host_port_at_user_secret "1.2.3.4".toList "user".toList "pass".toList 8080
      (by decide) (by decide) (by decide) (by decide) (by decide) (by decide) (by decide)
      (by decide) (by decide),
    parsear_host_port_at_user_secret "1.2.3.4".toList "user".toList "pa:ss".toList 8080
      (by decide) (by decide) (by decide) (by decide) (by decide) (by decide) (by decide)
      (by decide) (by decide)⟩

/-- C10. For a user `u` (non-empty, without `:`, `@` or white space, not starting with `#`),
a secret `s` (non-empty, without `@`, possibly with `:`), a host `h` (non-empty, without
`:`, `@` or white space) and a port `p` with `1 <= p <= 65535` written in decimal,
`parsearLineaProxy` on `u:s@h:p` returns exactly
`{ ip: h, puerto: p, usuario: u, password: s }`. -/
theorem parsear_user_secret_at_host_port (h u s : Str) (p : Nat)
    (hu : u ≠ []) (hu1 : ∀ c ∈ u, c ≠ ':' ∧ c ≠ '@' ∧ isJsSpace c = false)
    (hu2 : startsWith '#' u = false)
    (hs : s ≠ []) (hs1 : '@' ∉ s)
    (hh : h ≠ []) (hh1 : ∀ c ∈ h, c ≠ ':' ∧ c ≠ '@' ∧ isJsSpace c = false)
    (hp : 1 ≤ p ∧ p ≤ 65535) :
    parsearLineaProxy (u ++ ':' :: (s ++ '@' :: (h ++ ':' :: Nat.toDigits 10 p))) =
      some ⟨h, p, u, s⟩ := by
  obtain ⟨hD1, hD2, hD3⟩ := toDigits_facts p
  obtain ⟨hDc, hDa, hDs⟩ := digits_not_mem p
  have hne : (u ++ ':' :: (s ++ '@' :: (h ++ ':' :: Nat.toDigits 10 p))).isEmpty = false := by
    cases u <;> simp_all
  have htrim : trim (u ++ ':' :: (s ++ '@' :: (h ++ ':' :: Nat.toDigits 10 p))) =
      u ++ ':' :: (s ++ '@' :: (h ++ ':' :: Nat.toDigits 10 p)) := by
    apply trim_eq_self
    · exact inicioLimpio_append u _ hu (inicioLimpio_of_all u (fun c hc => (hu1 c hc).2.2))
    · exact finLimpio_append u _ (by simp) (finLimpio_cons _ _ (by simp)
        (finLimpio_append s _ (by simp) (finLimpio_cons _ _ (by simp)
          (finLimpio_append h _ (by simp) (finLimpio_cons _ _ hD1 (finLimpio_digits p))))))
  have hstart : startsWith '#' (u ++ ':' :: (s ++ '@' :: (h ++ ':' :: Nat.toDigits 10 p))) =
      false := by
    cases u with
    | nil => exact absurd rfl hu
    | cons a as => simpa [startsWith] using hu2
  have hassoc : u ++ ':' :: (s ++ '@' :: (h ++ ':' :: Nat.toDigits 10 p)) =
      (u ++ ':' :: s) ++ '@' :: (h ++ ':' :: Nat.toDigits 10 p) := by simp
  have hleft : '@' ∉ u ++ ':' :: s := by
    simp only [List.mem_append, List.mem_cons, not_or]
    exact ⟨fun hm => (hu1 _ hm).2.1 rfl, by decide, hs1⟩
  have hsa : split ':' (u ++ ':' :: s) = u :: split ':' s :=
    split_append_sep ':' u s (fun hm => (hu1 _ hm).1 rfl)
  have hsb : split ':' (h ++ ':' :: Nat.toDigits 10 p) = [h, Nat.toDigits 10 p] := by
    rw [split_append_sep ':' h _ (fun hm => (hh1 _ hm).1 rfl), split_of_not_mem ':' _ hDc]
  have hlen := length_split_pos ':' s
  have hf1 : formato1 (u ++ ':' :: (s ++ '@' :: (h ++ ':' :: Nat.toDigits 10 p))) =
      ⟨some h, some (p : Int), some u, some s⟩ := by
    rw [hassoc, formato1_at _ _ (by simp) hleft, hsa, hsb]
    have h2 : 2 ≤ (u :: split ':' s).length ∧ 2 ≤ [h, Nat.toDigits 10 p].length := by
      simp only [List.length_cons, List.length_nil]
      omega
    simp only [h2, and_self, if_true, List.getD_cons_succ, List.getD_cons_zero,
      parseInt_toDigits, esNaN, Option.isNone_some, Bool.and_false, Bool.false_eq_true,
      if_false, esPuerto_of_range p hp, List.head?_cons, List.drop_succ_cons, List.drop_zero,
      join_split]
  have hf2 : formato2 (u ++ ':' :: (s ++ '@' :: (h ++ ':' :: Nat.toDigits 10 p)))
      ⟨some h, some (p : Int), some u, some s⟩ =
        ⟨some h, some (p : Int), some u, some s⟩ := by
    simp [formato2, noStr_some h hh, noNum_some p hp.1]
  simp only [parsearLineaProxy, hne, htrim, hstart, hf1, hf2, Bool.or_self,
    Bool.false_eq_true, if_false]
  exact validar_ok h u s p hh (fun c hc => (hh1 c hc).2.2) hp.1 hu hs

/-- C10, on the two lines `user:pass@1.2.3.4:8080` and `user:pa:ss@1.2.3.4:8080`. -/
theorem parsear_user_secret_at_host_port_witness :
    parsearLineaProxy "user:pass@1.2.3.4:8080".toList =
      some ⟨"1.2.3.4".toList, 8080, "user".toList, "pass".toList⟩ ∧
    parsearLineaProxy "user:pa:ss@1.2.3.4:8080".toList =
      some ⟨"1.2.3.4".toList, 8080, "user".toList, "pa:ss".toList⟩ :=
  ⟨parsear_user_secret_at_host_port "1.2.3.4".toList "user".toList "pass".toList 8080
      (by decide) (by decide) (by decide) (by decide) (by decide) (by decide) (by decide)
      (by decide),
    parsear_user_secret_at_host_port "1.2.3.4".toList "user".toList "pa:ss".toList 8080
      (by decide) (by decide) (by decide) (by decide) (by decide) (by decide) (by decide)
      (by decide)⟩

/-! ## What `parsearLineaProxy` rejects -/

theorem trimStart_of_all_space (s : Str) (h : ∀ c ∈ s, isJsSpace c = true) :
    trimStart s = [] := by
  unfold trimStart
  rw [List.dropWhile_eq_nil_iff]
  exact h

theorem trim_of_all_space (s : Str) (h : ∀ c ∈ s, isJsSpace c = true) : trim s = [] := by
  unfold trim
  rw [trimStart_of_all_space s h]
  rfl

theorem trimStart_space_append (ws : Str) (c : Char) (rest : Str)
    (hws : ∀ x ∈ ws, isJsSpace x = true) (hc : isJsSpace c = false) :
    trimStart (ws ++ c :: rest) = c :: rest := by
  induction ws with
  | nil => simp [trimStart, List.dropWhile, hc]
  | cons w ws ih =>
    have hw : isJsSpace w = true := hws w (List.mem_cons_self _ _)
    have := ih (fun x hx => hws x (List.mem_cons_of_mem _ hx))
    simpa [trimStart, List.dropWhile, hw] using this

theorem dropWhile_append_single (p : Char → Bool) (l : Str) (c : Char) (hc : p c = false) :
    (l ++ [c]).dropWhile p = l.dropWhile p ++ [c] := by
  induction l with
  | nil => simp [List.dropWhile, hc]
  | cons a as ih =>
    by_cases ha : p a = true
    · simp [List.dropWhile, ha, ih]
    · have ha2 : p a = false := by simpa using ha
      simp [List.dropWhile, ha2]

theorem trimEnd_cons (c : Char) (rest : Str) (hc : isJsSpace c = false) :
    trimEnd (c :: rest) = c :: trimEnd rest := by
  simp only [trimEnd, List.reverse_cons]
  rw [dropWhile_append_single isJsSpace rest.reverse c hc]
  simp

theorem head_dropWhile_not (p : Char → Bool) (l : Str) (c : Char)
    (h : (l.dropWhile p).head? = some c) : p c = false := by
  induction l with
  | nil => simp at h
  | cons a as ih =>
    by_cases ha : p a = true
    · simp only [List.dropWhile, ha] at h
      exact ih h
    · have ha2 : p a = false := by simpa using ha
      simp only [List.dropWhile, ha2, List.head?_cons, Option.some.injEq] at h
      rw [← h]
      exact ha2

theorem inicioLimpio_trimStart (s : Str) : inicioLimpio (trimStart s) :=
  fun c hc => head_dropWhile_not isJsSpace s c hc

theorem inicioLimpio_trimEnd (s : Str) (h : inicioLimpio s) : inicioLimpio (trimEnd s) := by
  cases s with
  | nil => intro c hc; simp [trimEnd] at hc
  | cons a as =>
    have ha : isJsSpace a = false := h a rfl
    rw [trimEnd_cons a as ha]
    intro c hc
    simp only [List.head?_cons, Option.some.injEq] at hc
    rw [← hc]
    exact ha

theorem finLimpio_trimEnd (s : Str) : finLimpio (trimEnd s) := by
  intro c hc
  unfold trimEnd at hc
  rw [List.getLast?_reverse] at hc
  exact head_dropWhile_not isJsSpace s.reverse c hc

/-- `trim` is idempotent. -/
theorem trim_trim (s : Str) : trim (trim s) = trim s :=
  trim_eq_self (trim s) (inicioLimpio_trimEnd _ (inicioLimpio_trimStart s))
    (finLimpio_trimEnd _)

/-- `parsearLineaProxy` gives the same result on a line and on the trimmed line. -/
theorem parsear_trim (l : Str) : parsearLineaProxy (trim l) = parsearLineaProxy l := by
  unfold parsearLineaProxy
  rw [trim_trim]
  by_cases h1 : l.isEmpty = true
  · have : l = [] := by simpa using h1
    subst this
    rfl
  · by_cases h2 : (trim l).isEmpty = true
    · simp [h1, h2]
    · simp [h1, h2]

theorem parsear_of_trim_nil (l : Str) (h : trim l = []) : parsearLineaProxy l = none := by
  unfold parsearLineaProxy
  simp [h]

theorem parsear_of_hash (l : Str) (h : startsWith '#' (trim l) = true) :
    parsearLineaProxy l = none := by
  unfold parsearLineaProxy
  simp [h]

theorem formato1_puerto (t : Str) (p : Int) (h : (formato1 t).puerto = some p) :
    esPuerto (some p) = true := by
  unfold formato1 at h
  split at h
  · simp only at h
    split at h
    · split at h
      · rename_i hc
        simp only [Bool.and_eq_true] at hc
        simp only at h
        rw [← h]
        exact hc.1
      · split at h
        · rename_i hc
          simp only at h
          rw [← h]
          exact hc
        · simp [Vars.vacio] at h
    · simp [Vars.vacio] at h
  · simp [Vars.vacio] at h

theorem formato2_puerto (t : Str) (v : Vars) (p : Int)
    (hv : ∀ q, v.puerto = some q → esPuerto (some q) = true)
    (h : (formato2 t v).puerto = some p) : esPuerto (some p) = true := by
  unfold formato2 at h
  split at h
  · simp only at h
    split at h
    · split at h
      · rename_i hc
        simp only at h
        rw [← h]
        exact hc
      · split at h
        · rename_i hc
          simp only at h
          rw [← h]
          exact hc
        · exact hv p h
    · exact hv p h
  · exact hv p h

theorem validar_some (v : Vars) (r : ProxyParsed) (h : validar v = some r) :
    v.ip = some r.ip ∧ v.puerto = some r.puerto ∧ v.usuario = some r.usuario ∧
    v.password = some r.password ∧ r.ip ≠ [] ∧ r.puerto ≠ 0 ∧ r.usuario ≠ [] ∧
    r.password ≠ [] ∧ ' ' ∉ r.ip := by
  obtain ⟨ip, puerto, usuario, password⟩ := v
  cases ip with
  | none => simp [validar] at h
  | some ip =>
    cases puerto with
    | none => simp [validar] at h
    | some puerto =>
      cases usuario with
      | none => simp [validar] at h
      | some usuario =>
        cases password with
        | none => simp [validar] at h
        | some password =>
          simp only [validar] at h
          split at h
          · exact absurd h (by simp)
          · rename_i h1
            split at h
            · exact absurd h (by simp)
            · rename_i h2
              simp only [Option.some.injEq] at h
              subst h
              simp only [Bool.or_eq_true, not_or, Bool.not_eq_true, List.isEmpty_eq_true,
                decide_eq_true_eq, decide_eq_false_iff_not] at h1 h2
              refine ⟨rfl, rfl, rfl, rfl, h1.1.1.1, h1.1.1.2, h1.1.2, h1.2, ?_⟩
              intro hm
              have := includes_eq_true ' ' ip hm
              rw [this] at h2
              exact absurd h2.2 (by simp)

theorem validar_of_unresolved (v : Vars)
    (h : noStr v.ip = true ∨ noNum v.puerto = true ∨ noStr v.usuario = true ∨
      noStr v.password = true) : validar v = none := by
  obtain ⟨ip, puerto, usuario, password⟩ := v
  cases ip with
  | none => simp [validar]
  | some ip =>
    cases puerto with
    | none => simp [validar]
    | some puerto =>
      cases usuario with
      | none => simp [validar]
      | some usuario =>
        cases password with
        | none => simp [validar]
        | some password =>
          simp only [noStr, noNum, decide_eq_true_eq, List.isEmpty_eq_true] at h
          have hc : (ip.isEmpty || decide (puerto = 0) || usuario.isEmpty ||
              password.isEmpty) = true := by
            rcases h with h | h | h | h <;> simp [h]
          simp [validar, hc]

theorem parsear_some (l : Str) (r : ProxyParsed) (h : parsearLineaProxy l = some r) :
    validar (formato2 (trim l) (formato1 (trim l))) = some r := by
  unfold parsearLineaProxy at h
  split at h
  · exact absurd h (by simp)
  · simp only at h
    split at h
    · exact absurd h (by simp)
    · exact h

/-- C11 as stated fails: the line `1.2<TAB>3.4:8080:user:pass` is accepted and the host of the
result holds a tab, a white-space character; the validation only looks for the space
character (`ip.includes(' ')`). -/
theorem parsear_accepts_tab_in_host :
    parsearLineaProxy "1.2\t3.4:8080:user:pass".toList =
      some ⟨"1.2\t3.4".toList, 8080, "user".toList, "pass".toList⟩ ∧
    '\t' ∈ "1.2\t3.4".toList ∧ isJsSpace '\t' = true := by
  decide

/-- C11, amended. `parsearLineaProxy` returns no result for every blank line (empty or made
of white space), for every line whose first non-blank character is `#`, and whenever the host,
the port, the user or the secret is left unresolved (undefined, empty or 0) by the two format
blocks; and every result it returns has a non-empty ip without the space character, a puerto
in [1,65535], and a non-empty usuario and password.  (White space other than the space
character is not looked for in the ip.) -/
theorem parsear_rejects_and_validates :
    (∀ l : Str, (∀ c ∈ l, isJsSpace c = true) → parsearLineaProxy l = none) ∧
    (∀ ws rest : Str, (∀ c ∈ ws, isJsSpace c = true) →
      parsearLineaProxy (ws ++ '#' :: rest) = none) ∧
    (∀ l : Str,
      (noStr (formato2 (trim l) (formato1 (trim l))).ip = true ∨
        noNum (formato2 (trim l) (formato1 (trim l))).puerto = true ∨
        noStr (formato2 (trim l) (formato1 (trim l))).usuario = true ∨
        noStr (formato2 (trim l) (formato1 (trim l))).password = true) →
      parsearLineaProxy l = none) ∧
    (∀ (l : Str) (r : ProxyParsed), parsearLineaProxy l = some r →
      r.ip ≠ [] ∧ ' ' ∉ r.ip ∧ 1 ≤ r.puerto ∧ r.puerto ≤ 65535 ∧ r.usuario ≠ [] ∧
      r.password ≠ []) := by
  refine ⟨?_, ?_, ?_, ?_⟩
  · intro l hl
    exact parsear_of_trim_nil l (trim_of_all_space l hl)
  · intro ws rest hws
    apply parsear_of_hash
    unfold trim
    rw [trimStart_space_append ws '#' rest hws (by decide), trimEnd_cons '#' rest (by decide)]
    rfl
  · intro l h
    unfold parsearLineaProxy
    split
    · rfl
    · simp only
      split
      · rfl
      · exact validar_of_unresolved _ h
  · intro l r h
    have hv := parsear_some l r h
    obtain ⟨_, hp, _, _, h1, _, h3, h4, h5⟩ := validar_some _ r hv
    have hport : esPuerto (some r.puerto) = true :=
      formato2_puerto (trim l) (formato1 (trim l)) r.puerto
        (fun q hq => formato1_puerto (trim l) q hq) hp
    simp only [esPuerto, Bool.and_eq_true, decide_eq_true_eq] at hport
    exact ⟨h1, h5, hport.1, hport.2, h3, h4⟩

/-- C11 amended, on a comment line with leading blanks and on an accepted line. -/
theorem parsear_rejects_and_validates_witness :
    (∀ c ∈ "  \t".toList, isJsSpace c = true) ∧
    parsearLineaProxy "  \t# 1.2.3.4:8080:user:pass".toList = none ∧
    parsearLineaProxy "user:pass@1.2.3.4:8080".toList =
      some ⟨"1.2.3.4".toList, 8080, "user".toList, "pass".toList⟩ ∧
    ("1.2.3.4".toList ≠ [] ∧ ' ' ∉ "1.2.3.4".toList ∧ (1 : Int) ≤ 8080 ∧ (8080 : Int) ≤ 65535 ∧
      "user".toList ≠ [] ∧ "pass".toList ≠ []) :=
  ⟨by decide,
    parsear_rejects_and_validates.2.1 "  \t".toList " 1.2.3.4:8080:user:pass".toList
      (by decide),
    by decide,
    parsear_rejects_and_validates.2.2.2 "user:pass@1.2.3.4:8080".toList
      ⟨"1.2.3.4".toList, 8080, "user".toList, "pass".toList⟩ (by decide)⟩

/-! ## The counts reported by an import -/

theorem parsear_of_not_util (l : Str) (h : esLineaUtil l = false) :
    parsearLineaProxy l = none := by
  unfold esLineaUtil at h
  simp only [Bool.not_eq_false', Bool.or_eq_true, List.isEmpty_eq_true] at h
  rcases h with h | h
  · exact parsear_of_trim_nil l h
  · exact parsear_of_hash l h

/-- The loop over the lines keeps exactly the results of `parsearLineaProxy` on the lines,
in order, and counts the useful lines that it rejects. -/
theorem leerLineas_eq (ls : List Str) :
    (leerLineas ls).1 = ls.filterMap parsearLineaProxy ∧
    (leerLineas ls).2 =
      (ls.filter (fun l => esLineaUtil l && (parsearLineaProxy l).isNone)).length := by
  induction ls with
  | nil => exact ⟨rfl, rfl⟩
  | cons l ls ih =>
    obtain ⟨ih1, ih2⟩ := ih
    by_cases hu : esLineaUtil l = true
    · have hskip : ((trim l).isEmpty || startsWith '#' (trim l)) = false := by
        unfold esLineaUtil at hu
        simpa using hu
      cases hp : parsearLineaProxy l with
      | none =>
        have hp2 : parsearLineaProxy (trim l) = none := by rw [parsear_trim, hp]
        simp only [leerLineas, hskip, Bool.false_eq_true, if_false, hp2, ih1, ih2,
          List.filterMap_cons, hp, List.filter_cons, hu, Option.isNone_none, Bool.and_self,
          if_true, List.length_cons, and_self]
      | some r =>
        have hp2 : parsearLineaProxy (trim l) = some r := by rw [parsear_trim, hp]
        simp only [leerLineas, hskip, Bool.false_eq_true, if_false, hp2, ih1, ih2,
          List.filterMap_cons, hp, List.filter_cons, hu, Option.isNone_some, Bool.and_false,
          and_self]
    · have hu2 : esLineaUtil l = false := by simpa using hu
      have hskip : ((trim l).isEmpty || startsWith '#' (trim l)) = true := by
        unfold esLineaUtil at hu2
        simp only [Bool.not_eq_false'] at hu2
        exact hu2
      have hp := parsear_of_not_util l hu2
      simp only [leerLineas, hskip, if_true, ih1, ih2, List.filterMap_cons, hp,
        List.filter_cons, hu2, Bool.false_and, Bool.false_eq_true, if_false, and_self]

theorem length_filterMap_parsear (ls : List Str) :
    (ls.filterMap parsearLineaProxy).length =
      (ls.filter (fun l => esLineaUtil l && (parsearLineaProxy l).isSome)).length := by
  induction ls with
  | nil => rfl
  | cons l ls ih =>
    cases hp : parsearLineaProxy l with
    | none => simp [List.filterMap_cons, hp, List.filter_cons, ih]
    | some r =>
      have hu : esLineaUtil l = true := by
        by_contra hne
        have := parsear_of_not_util l (by simpa using hne)
        rw [hp] at this
        exact absurd this (by simp)
      simp [List.filterMap_cons, hp, List.filter_cons, hu, ih]

/-- The result object of an import with an accepted region code, as a function of the two
counts. -/
theorem importar_resultado (db : DB) (texto : Str) (stateCode : Option Str) (e : Str)
    (he : normalizarEstado stateCode = some e) :
    (importarProxiesDesdeArchivo db (some texto) stateCode).2 =
      if lineasValidas texto = 0 then ⟨false, 0, none⟩
      else ⟨true, lineasValidas texto, some (lineasMalformadas texto)⟩ := by
  obtain ⟨h1, h2⟩ := leerLineas_eq (split '\n' texto)
  have hv : (leerLineas (split '\n' texto)).1.length = lineasValidas texto := by
    rw [h1, length_filterMap_parsear]
    rfl
  have hm : (leerLineas (split '\n' texto)).2 = lineasMalformadas texto := h2
  simp only [importarProxiesDesdeArchivo, he]
  by_cases h0 : lineasValidas texto = 0
  · have hnil : (leerLineas (split '\n' texto)).1 = [] := by
      apply List.eq_nil_of_length_eq_zero
      rw [hv, h0]
    simp [hnil, h0]
  · have hne : (leerLineas (split '\n' texto)).1.isEmpty = false := by
      cases hl : (leerLineas (split '\n' texto)).1 with
      | nil => rw [hl] at hv; exact absurd hv.symm h0
      | cons a as => rfl
    simp [hne, h0, hv, hm]

/-- An import that finds no valid line leaves the table as it is. -/
theorem importar_sin_validas (db : DB) (contenido stateCode : Option Str)
    (h : (importarProxiesDesdeArchivo db contenido stateCode).2.exito = false) :
    (importarProxiesDesdeArchivo db contenido stateCode).1 = db := by
  unfold importarProxiesDesdeArchivo at h ⊢
  cases hn : normalizarEstado stateCode with
  | none => rfl
  | some e =>
    cases contenido with
    | none => rfl
    | some texto =>
      simp only [hn] at h ⊢
      split
      · rfl
      · rename_i hne
        simp [hne] at h

/-- C12 as stated fails when no line is valid: for a file of two malformed lines (v = 0,
m = 2) the import returns the failure object, which has `nodosCargados` 0 and no
`lineasInvalidas` at all, not 2. -/
theorem importar_no_valid_line_reports_no_count :
    normalizarEstado (some "FL".toList) = some "FL".toList ∧
    lineasValidas "malo\notro:malo".toList = 0 ∧
    lineasMalformadas "malo\notro:malo".toList = 2 ∧
    (importarProxiesDesdeArchivo DB.vacia (some "malo\notro:malo".toList)
        (some "FL".toList)).2 = ⟨false, 0, none⟩ := by
  decide

/-- C12, amended. For every file content and every accepted region code, with `v` the number
of non-blank, non-comment lines that `parsearLineaProxy` accepts and `m` the number of those
it rejects: when `v >= 1` the import reports `nodosCargados = v` and `lineasInvalidas = m`
(a malformed line is counted and the loop goes on); when `v = 0` it returns the failure
object, with `nodosCargados = 0` and no `lineasInvalidas`, and leaves the table as it is. -/
theorem importar_reports_counts (db : DB) (texto : Str) (stateCode : Option Str) (e : Str)
    (he : normalizarEstado stateCode = some e) :
    (1 ≤ lineasValidas texto →
      (importarProxiesDesdeArchivo db (some texto) stateCode).2 =
        ⟨true, lineasValidas texto, some (lineasMalformadas texto)⟩) ∧
    (lineasValidas texto = 0 →
      importarProxiesDesdeArchivo db (some texto) stateCode = (db, ⟨false, 0, none⟩)) := by
  have hres := importar_resultado db texto stateCode e he
  constructor
  · intro hv
    have h0 : ¬ lineasValidas texto = 0 := by omega
    rw [hres]
    simp [h0]
  · intro h0
    have h2 : (importarProxiesDesdeArchivo db (some texto) stateCode).2 = ⟨false, 0, none⟩ := by
      rw [hres]
      simp [h0]
    have h1 := importar_sin_validas db (some texto) stateCode (by rw [h2])
    exact Prod.ext h1 h2

/-- C12 amended, on a file with 5 valid lines, 2 malformed lines, a comment and a blank
line: the import reports 5 and 2. -/
theorem importar_reports_counts_witness :
    normalizarEstado (some "fl".toList) = some "FL".toList ∧
    1 ≤ lineasValidas ("1.2.3.4:8080:user:pass\n# lista\nuser:pass@1.2.3.5:8080\n\nmalo\n" ++
      "1.2.3.6:8080@user:pass\nuser:pass:1.2.3.7:8080\notro:malo\n1.2.3.8:8080:user:pa:ss").toList ∧
    (importarProxiesDesdeArchivo DB.vacia
      (some ("1.2.3.4:8080:user:pass\n# lista\nuser:pass@1.2.3.5:8080\n\nmalo\n" ++
        "1.2.3.6:8080@user:pass\nuser:pass:1.2.3.7:8080\notro:malo\n1.2.3.8:8080:user:pa:ss").toList)
      (some "fl".toList)).2 = ⟨true, 5, some 2⟩ :=
  ⟨by decide, by decide,
    (importar_reports_counts DB.vacia
      ("1.2.3.4:8080:user:pass\n# lista\nuser:pass@1.2.3.5:8080\n\nmalo\n" ++
        "1.2.3.6:8080@user:pass\nuser:pass:1.2.3.7:8080\notro:malo\n1.2.3.8:8080:user:pa:ss").toList
      (some "fl".toList) "FL".toList (by decide)).1 (by decide)⟩

/-! ## Which region codes an import accepts -/

theorem upperChar_toNat :
    ∀ n, n < 128 → (upperChar (Char.ofNat n)).toNat < 128 := by
  decide

theorem upperChar_ascii (c : Char) (h : c.toNat < 128) : (upperChar c).toNat < 128 := by
  have := upperChar_toNat c.toNat h
  rwa [Char.ofNat_toNat] at this

theorem jsLength_of_ascii (s : Str) (h : esAscii s) : jsLength s = s.length := by
  induction s with
  | nil => rfl
  | cons c cs ih =>
    have hc : c.toNat < 0x10000 := by
      have := h c (List.mem_cons_self _ _)
      omega
    have := ih (fun x hx => h x (List.mem_cons_of_mem _ hx))
    simp only [jsLength, List.map_cons, List.sum_cons, hc, if_true, List.length_cons] at this ⊢
    omega

theorem esAscii_toUpperCase (s : Str) (h : esAscii s) : esAscii (toUpperCase s) := by
  intro c hc
  simp only [toUpperCase, List.mem_map] at hc
  obtain ⟨d, hd, rfl⟩ := hc
  exact upperChar_ascii d (h d hd)

theorem mem_trim (s : Str) (c : Char) (h : c ∈ trim s) : c ∈ s := by
  unfold trim trimEnd trimStart at h
  rw [List.mem_reverse] at h
  have h2 := (List.dropWhile_sublist isJsSpace).subset h
  rw [List.mem_reverse] at h2
  exact (List.dropWhile_sublist isJsSpace).subset h2

theorem esAscii_trim (s : Str) (h : esAscii s) : esAscii (trim s) :=
  fun c hc => h c (mem_trim s c hc)

/-- On an ASCII string `normalizarEstado` only looks at the length of the trimmed string. -/
theorem normalizarEstado_ascii (s : Str) (h : esAscii s) :
    normalizarEstado (some s) =
      if (trim s).length = 2 then some (toUpperCase (trim s)) else none := by
  have hlen : jsLength (toUpperCase (trim s)) = (trim s).length := by
    rw [jsLength_of_ascii _ (esAscii_toUpperCase _ (esAscii_trim s h))]
    simp [toUpperCase]
  by_cases he : s.isEmpty = true
  · have : s = [] := by simpa using he
    subst this
    rfl
  · simp only [normalizarEstado, he, Bool.false_eq_true, if_false, hlen]

theorem importar_sin_estado (db : DB) (contenido stateCode : Option Str)
    (h : normalizarEstado stateCode = none) :
    importarProxiesDesdeArchivo db contenido stateCode = (db, ⟨false, 0, none⟩) := by
  simp [importarProxiesDesdeArchivo, h]

/-- C13 as stated fails: the region code `12`, which holds no letter, is accepted; a file with
one valid line is imported under it and the node is stored with `state_code` `12`. -/
theorem importar_accepts_non_letter_code :
    normalizarEstado (some "12".toList) = some "12".toList ∧
    importarProxiesDesdeArchivo DB.vacia (some "1.2.3.4:8080:user:pass".toList)
        (some "12".toList) =
      (⟨[⟨1, "1.2.3.4".toList, 8080, "user".toList, "pass".toList, "12".toList, "12".toList,
          disponible, 0, [], [], 0⟩], 1⟩, ⟨true, 1, some 0⟩) := by
  decide

/-- C13, amended. `importarProxiesDesdeArchivo` tests the region code before it reads the
file, and the test is on the length only: a region code is accepted exactly when it is a
string whose trimmed form has two characters, letters or not (it is then upper-cased); a
missing or non-string code, an empty one and one of another trimmed length give the failure
object with `nodosCargados = 0` and leave the table as it is, whatever the content of the
file and whether it can be read or not.  The characterisation is stated for ASCII codes. -/
theorem importar_region_code_by_length :
    (∀ (db : DB) (contenido stateCode : Option Str), normalizarEstado stateCode = none →
      importarProxiesDesdeArchivo db contenido stateCode = (db, ⟨false, 0, none⟩)) ∧
    normalizarEstado none = none ∧
    (∀ s : Str, esAscii s → (trim s).length = 2 →
      normalizarEstado (some s) = some (toUpperCase (trim s))) ∧
    (∀ s : Str, esAscii s → (trim s).length ≠ 2 → normalizarEstado (some s) = none) := by
  refine ⟨importar_sin_estado, rfl, ?_, ?_⟩
  · intro s hs hl
    rw [normalizarEstado_ascii s hs]
    simp [hl]
  · intro s hs hl
    rw [normalizarEstado_ascii s hs]
    simp [hl]

/-- C13 amended, on the codes ` fl ` (accepted as `FL`) and `FLA` (rejected, table
unchanged even though the file holds a valid line). -/
theorem importar_region_code_by_length_witness :
    esAscii " fl ".toList ∧ (trim " fl ".toList).length = 2 ∧
    normalizarEstado (some " fl ".toList) = some "FL".toList ∧
    normalizarEstado (some "FLA".toList) = none ∧
    importarProxiesDesdeArchivo dbEjemplo (some "1.2.3.9:8080:user:pass".toList)
      (some "FLA".toList) = (dbEjemplo, ⟨false, 0, none⟩) :=
  ⟨by decide, by decide,
    importar_region_code_by_length.2.2.1 " fl ".toList (by decide) (by decide),
    importar_region_code_by_length.2.2.2 "FLA".toList (by decide) (by decide),
    importar_region_code_by_length.1 dbEjemplo (some "1.2.3.9:8080:user:pass".toList)
      (some "FLA".toList) (by decide)⟩

/-! ## What an import writes -/

theorem insertOrReplace_rows (db : DB) (e : Str) (p : ProxyParsed) :
    (∃ row ∈ (insertOrReplace db e p).rows, row.tupla = p.tupla ∧ row.recienImportada e) ∧
    (∀ row ∈ db.rows, row.tupla ≠ p.tupla → row ∈ (insertOrReplace db e p).rows) ∧
    (∀ row ∈ (insertOrReplace db e p).rows,
      (row ∈ db.rows ∧ row.tupla ≠ p.tupla) ∨ (row.tupla = p.tupla ∧ row.recienImportada e)) := by
  refine ⟨?_, ?_, ?_⟩
  · refine ⟨⟨nextId db, p.ip, p.puerto, p.usuario, p.password, e, e, disponible, 0, [], [], 0⟩,
      ?_, rfl, rfl, rfl, rfl, rfl, rfl, rfl, rfl⟩
    simp [insertOrReplace]
  · intro row hrow hne
    simp only [insertOrReplace, List.mem_append, List.mem_filter, decide_eq_true_eq]
    exact Or.inl ⟨hrow, hne⟩
  · intro row hrow
    simp only [insertOrReplace, List.mem_append, List.mem_filter, decide_eq_true_eq,
      List.mem_singleton] at hrow
    rcases hrow with h | h
    · exact Or.inl h
    · subst h
      exact Or.inr ⟨rfl, rfl, rfl, rfl, rfl, rfl, rfl, rfl⟩

/-- After the loop of `INSERT OR REPLACE` over the records: every record has a freshly
written row, every row whose tuple is not among the records is still there, and every row
is one of these two kinds. -/
theorem foldl_insertOrReplace_rows (e : Str) (regs : List ProxyParsed) (db : DB) :
    (∀ p ∈ regs, ∃ row ∈ (regs.foldl (fun d reg => insertOrReplace d e reg) db).rows,
      row.tupla = p.tupla ∧ row.recienImportada e) ∧
    (∀ row ∈ db.rows, (∀ p ∈ regs, p.tupla ≠ row.tupla) →
      row ∈ (regs.foldl (fun d reg => insertOrReplace d e reg) db).rows) ∧
    (∀ row ∈ (regs.foldl (fun d reg => insertOrReplace d e reg) db).rows,
      (row ∈ db.rows ∧ ∀ p ∈ regs, p.tupla ≠ row.tupla) ∨
      ((∃ p ∈ regs, p.tupla = row.tupla) ∧ row.recienImportada e)) := by
  induction regs using List.reverseRecOn with
  | nil =>
    refine ⟨?_, ?_, ?_⟩
    · intro p hp
      simp at hp
    · intro row hrow _
      exact hrow
    · intro row hrow
      exact Or.inl ⟨hrow, by simp⟩
  | append_singleton regs q ih =>
    obtain ⟨ih1, ih2, ih3⟩ := ih
    rw [List.foldl_append]
    simp only [List.foldl_cons, List.foldl_nil]
    obtain ⟨⟨rq, hrq, htq, hfq⟩, hkeep, hkind⟩ :=
      insertOrReplace_rows (regs.foldl (fun d reg => insertOrReplace d e reg) db) e q
    refine ⟨?_, ?_, ?_⟩
    · intro p hp
      rcases List.mem_append.1 hp with hp | hp
      · obtain ⟨row, hrow, ht, hf⟩ := ih1 p hp
        by_cases hsame : row.tupla = q.tupla
        · exact ⟨rq, hrq, by rw [htq, ← hsame, ht], hfq⟩
        · exact ⟨row, hkeep row hrow hsame, ht, hf⟩
      · simp only [List.mem_singleton] at hp
        subst hp
        exact ⟨rq, hrq, htq, hfq⟩
    · intro row hrow hno
      have h1 := ih2 row hrow (fun p hp => hno p (List.mem_append_left _ hp))
      exact hkeep row h1 (fun h => hno q (by simp) h.symm)
    · intro row hrow
      rcases hkind row hrow with ⟨hold, hne⟩ | ⟨ht, hf⟩
      · rcases ih3 row hold with ⟨hdb, hno⟩ | ⟨⟨p, hp, hpt⟩, hf⟩
        · left
          refine ⟨hdb, ?_⟩
          intro p hp
          rcases List.mem_append.1 hp with hp | hp
          · exact hno p hp
          · simp only [List.mem_singleton] at hp
            subst hp
            exact fun h => hne h.symm
        · exact Or.inr ⟨⟨p, List.mem_append_left _ hp, hpt⟩, hf⟩
      · exact Or.inr ⟨⟨q, by simp, ht.symm⟩, hf⟩

theorem normalizarEstado_some (stateCode : Option Str) (e : Str)
    (h : normalizarEstado stateCode = some e) :
    ∃ s, stateCode = some s ∧ e = toUpperCase (trim s) := by
  cases stateCode with
  | none => simp [normalizarEstado] at h
  | some s =>
    refine ⟨s, rfl, ?_⟩
    simp only [normalizarEstado] at h
    split at h
    · exact absurd h (by simp)
    · split at h
      · simpa using h.symm
      · exact absurd h (by simp)

/-- A successful import had an accepted region code and a readable file, and its table is
the one left by the loop of `INSERT OR REPLACE` over the accepted lines. -/
theorem importar_exito (db : DB) (contenido stateCode : Option Str)
    (h : (importarProxiesDesdeArchivo db contenido stateCode).2.exito = true) :
    ∃ s texto, stateCode = some s ∧ contenido = some texto ∧
      normalizarEstado stateCode = some (toUpperCase (trim s)) ∧
      (importarProxiesDesdeArchivo db contenido stateCode).1 =
        ((split '\n' texto).filterMap parsearLineaProxy).foldl
          (fun d reg => insertOrReplace d (toUpperCase (trim s)) reg) db := by
  unfold importarProxiesDesdeArchivo at h ⊢
  cases hn : normalizarEstado stateCode with
  | none => simp [hn] at h
  | some e =>
    obtain ⟨s, hs, he⟩ := normalizarEstado_some stateCode e hn
    cases contenido with
    | none => simp [hn] at h
    | some texto =>
      refine ⟨s, texto, hs, rfl, by rw [he], ?_⟩
      simp only [hn] at h ⊢
      split
      · rename_i hemp
        simp [hemp] at h
      · rw [(leerLineas_eq _).1, he]

/-- C14. After a successful `importarProxiesDesdeArchivo(file, r)`: the file was read and `r`
is a string; for every line of the file that `parsearLineaProxy` accepts the table holds a
node with the tuple of that line, with `state_code` the trimmed upper-cased `r`,
`estado = 'disponible'`, `sesionesCompletadas = 0` and `disabled = 0`; and every node of
the table before the import whose tuple is not the tuple of an accepted line is still in
the table, unchanged. -/
theorem importar_upserts_valid_lines (db : DB) (contenido stateCode : Option Str)
    (hok : (importarProxiesDesdeArchivo db contenido stateCode).2.exito = true) :
    ∃ s texto, stateCode = some s ∧ contenido = some texto ∧
      (∀ l ∈ split '\n' texto, ∀ p, parsearLineaProxy l = some p →
        ∃ row ∈ (importarProxiesDesdeArchivo db contenido stateCode).1.rows,
          row.tupla = p.tupla ∧ row.state_code = toUpperCase (trim s) ∧
          row.estado = disponible ∧ row.sesionesCompletadas = 0 ∧ row.disabled = 0) ∧
      (∀ row ∈ db.rows,
        (∀ l ∈ split '\n' texto, ∀ p, parsearLineaProxy l = some p → p.tupla ≠ row.tupla) →
        row ∈ (importarProxiesDesdeArchivo db contenido stateCode).1.rows) := by
  obtain ⟨s, texto, hs, hc, _, hdb⟩ := importar_exito db contenido stateCode hok
  obtain ⟨h1, h2, _⟩ := foldl_insertOrReplace_rows (toUpperCase (trim s))
    ((split '\n' texto).filterMap parsearLineaProxy) db
  refine ⟨s, texto, hs, hc, ?_, ?_⟩
  · intro l hl p hp
    rw [hdb]
    obtain ⟨row, hrow, ht, hf⟩ := h1 p (List.mem_filterMap.2 ⟨l, hl, hp⟩)
    exact ⟨row, hrow, ht, hf.1, hf.2.2.1, hf.2.2.2.1, hf.2.2.2.2.1⟩
  · intro row hrow hno
    rw [hdb]
    apply h2 row hrow
    intro p hp
    obtain ⟨l, hl, hlp⟩ := List.mem_filterMap.1 hp
    exact hno l hl p hlp

/-- C14, on the example table and a file that holds the line of the Burned node 2, a new
line and a malformed line, imported for ` ny `: the Florida node 1 is still there. -/
theorem importar_upserts_valid_lines_witness :
    (importarProxiesDesdeArchivo dbEjemplo
        (some "1.2.3.5:8080:user:pass\nmalo\nuser:pass@9.9.9.9:80".toList)
        (some " ny ".toList)).2.exito = true ∧
    (importarProxiesDesdeArchivo dbEjemplo
        (some "1.2.3.5:8080:user:pass\nmalo\nuser:pass@9.9.9.9:80".toList)
        (some " ny ".toList)).1.rows =
      [⟨1, "1.2.3.4".toList, 8080, "user".toList, "pass".toList, "FL".toList, "FL".toList,
          disponible, 0, [], [], 0⟩,
        ⟨3, "1.2.3.6".toList, 8080, "user".toList, "pass".toList, "FL".toList, "FL".toList,
          disponible, 0, [], [], 1⟩,
        ⟨4, "1.2.3.7".toList, 8080, "user".toList, "pass".toList, "NY".toList, "NY".toList,
          disponible, 2, [], [], 0⟩,
        ⟨5, "1.2.3.5".toList, 8080, "user".toList, "pass".toList, "NY".toList, "NY".toList,
          disponible, 0, [], [], 0⟩,
        ⟨6, "9.9.9.9".toList, 80, "user".toList, "pass".toList, "NY".toList, "NY".toList,
          disponible, 0, [], [], 0⟩] ∧
    ∃ s texto, some " ny ".toList = some s ∧
      some "1.2.3.5:8080:user:pass\nmalo\nuser:pass@9.9.9.9:80".toList = some texto ∧
      (∀ l ∈ split '\n' texto, ∀ p, parsearLineaProxy l = some p →
        ∃ row ∈ (importarProxiesDesdeArchivo dbEjemplo
            (some "1.2.3.5:8080:user:pass\nmalo\nuser:pass@9.9.9.9:80".toList)
            (some " ny ".toList)).1.rows,
          row.tupla = p.tupla ∧ row.state_code = toUpperCase (trim s) ∧
          row.estado = disponible ∧ row.sesionesCompletadas = 0 ∧ row.disabled = 0) ∧
      (∀ row ∈ dbEjemplo.rows,
        (∀ l ∈ split '\n' texto, ∀ p, parsearLineaProxy l = some p → p.tupla ≠ row.tupla) →
        row ∈ (importarProxiesDesdeArchivo dbEjemplo
          (some "1.2.3.5:8080:user:pass\nmalo\nuser:pass@9.9.9.9:80".toList)
          (some " ny ".toList)).1.rows) :=
  ⟨by decide, by decide,
    importar_upserts_valid_lines dbEjemplo
      (some "1.2.3.5:8080:user:pass\nmalo\nuser:pass@9.9.9.9:80".toList)
      (some " ny ".toList) (by decide)⟩

/-! ## No two nodes with the same tuple or the same id -/

theorem insertOrReplace_sinRepetidos (db : DB) (e : Str) (p : ProxyParsed)
    (h : SinRepetidos db) : SinRepetidos (insertOrReplace db e p) := by
  refine ⟨insertOrReplace_nodup db e p h.1, ?_⟩
  simp only [insertOrReplace, List.map_append, List.map_cons, List.map_nil]
  rw [List.nodup_append]
  refine ⟨?_, List.nodup_singleton _, ?_⟩
  · exact List.Nodup.sublist (List.Sublist.map _ (List.filter_sublist _)) h.2
  · intro t ht hb
    simp only [List.mem_singleton] at hb
    obtain ⟨r, hr, rfl⟩ := List.mem_map.1 ht
    have := (List.mem_filter.1 hr).2
    simp only [decide_eq_true_eq] at this
    exact this hb

theorem foldl_insertOrReplace_sinRepetidos (e : Str) (regs : List ProxyParsed) (db : DB)
    (h : SinRepetidos db) :
    SinRepetidos (regs.foldl (fun d reg => insertOrReplace d e reg) db) := by
  induction regs generalizing db with
  | nil => exact h
  | cons reg regs ih => exact ih _ (insertOrReplace_sinRepetidos db e reg h)

theorem actualizarDonde_tuplas (db : DB) (id : Nat) (f : Row → Row)
    (hf : ∀ r, (f r).tupla = r.tupla) :
    (actualizarDonde db id f).rows.map Row.tupla = db.rows.map Row.tupla := by
  simp only [actualizarDonde, List.map_map]
  apply List.map_congr_left
  intro r _
  by_cases h : r.id = id <;> simp [h, hf]

theorem actualizarDonde_sinRepetidos (db : DB) (id : Nat) (f : Row → Row)
    (hid : ∀ r, (f r).id = r.id) (hf : ∀ r, (f r).tupla = r.tupla) (h : SinRepetidos db) :
    SinRepetidos (actualizarDonde db id f) :=
  ⟨actualizarDonde_nodup db id f hid h.1, by rw [actualizarDonde_tuplas db id f hf]; exact h.2⟩

theorem aplicar_sinRepetidos (db : DB) (op : Op) (h : SinRepetidos db) :
    SinRepetidos (aplicar db op) := by
  cases op with
  | importar contenido stateCode =>
    simp only [aplicar, importarProxiesDesdeArchivo]
    cases normalizarEstado stateCode with
    | none => exact h
    | some e =>
      cases contenido with
      | none => exact h
      | some texto =>
        simp only
        split
        · exact h
        · exact foldl_insertOrReplace_sinRepetidos e _ db h
  | incrementar proxyId =>
    simp only [aplicar, incrementarSesiones]
    cases buscarPorId db proxyId with
    | none => exact h
    | some row => exact actualizarDonde_sinRepetidos db proxyId _ (fun _ => rfl) (fun _ => rfl) h
  | marcar nodoId =>
    simp only [aplicar, marcarSesionCompletada]
    cases buscarPorId db nodoId with
    | none => exact h
    | some row => exact actualizarDonde_sinRepetidos db nodoId _ (fun _ => rfl) (fun _ => rfl) h
  | sumar proxyId cantidad ahora =>
    simp only [aplicar, sumarPoliza]
    cases buscarPorId db proxyId with
    | none => exact h
    | some row => exact actualizarDonde_sinRepetidos db proxyId _ (fun _ => rfl) (fun _ => rfl) h
  | actualizar proxyId poliza ahora =>
    exact actualizarDonde_sinRepetidos db proxyId _ (fun _ => rfl) (fun _ => rfl) h
  | toggle proxyId =>
    simp only [aplicar, toggleDisabled]
    cases buscarPorId db proxyId with
    | none => exact h
    | some row => exact actualizarDonde_sinRepetidos db proxyId _ (fun _ => rfl) (fun _ => rfl) h

theorem ejecutar_sinRepetidos (ops : List Op) (db : DB) (h : SinRepetidos db) :
    SinRepetidos (ejecutar db ops) := by
  induction ops generalizing db with
  | nil => exact h
  | cons op ops ih => exact ih _ (aplicar_sinRepetidos db op h)

theorem sinRepetidos_vacia : SinRepetidos DB.vacia := by
  simp [SinRepetidos, DB.vacia]

theorem ejecutar_append (db : DB) (ops : List Op) (op : Op) :
    ejecutar db (ops ++ [op]) = aplicar (ejecutar db ops) op := by
  simp [ejecutar, List.foldl_append]

theorem length_filter_tupla_of_mem (rows : List Row) (h : (rows.map Row.tupla).Nodup)
    (x : Row) (hx : x ∈ rows) :
    (rows.filter (fun r => decide (r.tupla = x.tupla))).length = 1 := by
  induction rows with
  | nil => simp at hx
  | cons a as ih =>
    simp only [List.map_cons, List.nodup_cons] at h
    rcases List.mem_cons.1 hx with rfl | hmem
    · have hnone : as.filter (fun r => decide (r.tupla = x.tupla)) = [] := by
        rw [List.filter_eq_nil_iff]
        intro r hr
        simp only [decide_eq_true_eq]
        intro e
        exact h.1 (e ▸ List.mem_map.2 ⟨r, hr, rfl⟩)
      simp [List.filter_cons, hnone]
    · have hne : ¬ a.tupla = x.tupla :=
        fun e => h.1 (e ▸ List.mem_map.2 ⟨x, hmem, rfl⟩)
      simp [List.filter_cons, hne, ih h.2 hmem]

/-- C15. In every table reached from the empty one by imports, session credits, policy
credits, policy updates and toggles, no two nodes share the same `(ip, puerto, usuario,
password)` tuple and no two nodes share the same id; and after a successful import from
such a table, every tuple of an accepted line of the file, repeated in the file or already
stored or not, is the tuple of exactly one node. -/
theorem reachable_no_duplicates (ops : List Op) :
    ((ejecutar DB.vacia ops).rows.map Row.id).Nodup ∧
    ((ejecutar DB.vacia ops).rows.map Row.tupla).Nodup ∧
    (∀ r1 ∈ (ejecutar DB.vacia ops).rows, ∀ r2 ∈ (ejecutar DB.vacia ops).rows,
      r1.tupla = r2.tupla → r1 = r2) ∧
    (∀ r1 ∈ (ejecutar DB.vacia ops).rows, ∀ r2 ∈ (ejecutar DB.vacia ops).rows,
      r1.id = r2.id → r1 = r2) ∧
    (∀ (texto : Str) (stateCode : Option Str),
      (importarProxiesDesdeArchivo (ejecutar DB.vacia ops) (some texto) stateCode).2.exito =
        true →
      ∀ l ∈ split '\n' texto, ∀ p, parsearLineaProxy l = some p →
        ((importarProxiesDesdeArchivo (ejecutar DB.vacia ops) (some texto)
          stateCode).1.rows.filter (fun r => decide (r.tupla = p.tupla))).length = 1) := by
  have hinv := ejecutar_sinRepetidos ops DB.vacia sinRepetidos_vacia
  refine ⟨hinv.1, hinv.2, ?_, ?_, ?_⟩
  · intro r1 h1 r2 h2 ht
    exact List.inj_on_of_nodup_map hinv.2 h1 h2 ht
  · intro r1 h1 r2 h2 hi
    exact List.inj_on_of_nodup_map hinv.1 h1 h2 hi
  · intro texto stateCode hok l hl p hp
    have hinv2 : SinRepetidos
        (importarProxiesDesdeArchivo (ejecutar DB.vacia ops) (some texto) stateCode).1 :=
      aplicar_sinRepetidos _ (Op.importar (some texto) stateCode) hinv
    obtain ⟨s, texto2, _, hc, _, hdb⟩ := importar_exito _ (some texto) stateCode hok
    simp only [Option.some.injEq] at hc
    subst hc
    obtain ⟨h1, _, _⟩ := foldl_insertOrReplace_rows (toUpperCase (trim s))
      ((split '\n' texto).filterMap parsearLineaProxy) (ejecutar DB.vacia ops)
    obtain ⟨row, hrow, ht, _⟩ := h1 p (List.mem_filterMap.2 ⟨l, hl, hp⟩)
    rw [← hdb] at hrow
    rw [← ht]
    exact length_filter_tupla_of_mem _ hinv2.2 row hrow

/-- C15, for a file that holds the same credentials twice (in two formats), imported twice:
one node is left for the tuple. -/
theorem reachable_no_duplicates_witness :
    (importarProxiesDesdeArchivo
        (ejecutar DB.vacia
          [Op.importar (some "1.2.3.4:8080:user:pass\nuser:pass@1.2.3.4:8080".toList)
            (some "FL".toList)])
        (some "1.2.3.4:8080:user:pass\nuser:pass@1.2.3.4:8080".toList)
        (some "FL".toList)).2.exito = true ∧
    "user:pass@1.2.3.4:8080".toList ∈
      split '\n' "1.2.3.4:8080:user:pass\nuser:pass@1.2.3.4:8080".toList ∧
    parsearLineaProxy "user:pass@1.2.3.4:8080".toList =
      some ⟨"1.2.3.4".toList, 8080, "user".toList, "pass".toList⟩ ∧
    ((importarProxiesDesdeArchivo
        (ejecutar DB.vacia
          [Op.importar (some "1.2.3.4:8080:user:pass\nuser:pass@1.2.3.4:8080".toList)
            (some "FL".toList)])
        (some "1.2.3.4:8080:user:pass\nuser:pass@1.2.3.4:8080".toList)
        (some "FL".toList)).1.rows.filter (fun r => decide (r.tupla =
      ("1.2.3.4".toList, 8080, "user".toList, "pass".toList)))).length = 1 :=
  ⟨by decide, by decide, by decide,
    (reachable_no_duplicates
      [Op.importar (some "1.2.3.4:8080:user:pass\nuser:pass@1.2.3.4:8080".toList)
        (some "FL".toList)]).2.2.2.2
      "1.2.3.4:8080:user:pass\nuser:pass@1.2.3.4:8080".toList (some "FL".toList)
      (by decide) "user:pass@1.2.3.4:8080".toList (by decide)
      ⟨"1.2.3.4".toList, 8080, "user".toList, "pass".toList⟩ (by decide)⟩

/-! ## Region extraction from a location tag -/

theorem extraer_iff (tag code : Str) :
    extraerEstadoDesdeUbicacion (some tag) = some code ↔
      ∃ pre c1 c2, tag = pre ++ ['-', c1, c2] ∧ isWord c1 = true ∧ isWord c2 = true ∧
        code = [upperChar c1, upperChar c2] := by
  constructor
  · intro h
    simp only [extraerEstadoDesdeUbicacion] at h
    split at h
    · exact absurd h (by simp)
    · split at h
      · rename_i c2 c1 g rest hrev
        split at h
        · rename_i hc
          obtain ⟨hg, h1, h2⟩ := hc
          subst hg
          refine ⟨rest.reverse, c1, c2, ?_, h1, h2, ?_⟩
          · have := congrArg List.reverse hrev
            simpa using this
          · simpa [toUpperCase] using h.symm
        · exact absurd h (by simp)
      · exact absurd h (by simp)
  · rintro ⟨pre, c1, c2, rfl, h1, h2, rfl⟩
    have hne : (pre ++ ['-', c1, c2]).isEmpty = false := by
      cases pre <;> rfl
    simp [extraerEstadoDesdeUbicacion, hne, h1, h2, toUpperCase]

theorem obtenerSiguienteNodo_sin_estado (db : DB) (ubicacion : Option Str)
    (h : extraerEstadoDesdeUbicacion ubicacion = none) :
    obtenerSiguienteNodo db ubicacion = none := by
  simp [obtenerSiguienteNodo, h]

/-- C16 as stated fails: the tag `Area-51` ends with a hyphen and two digits, not two
letters, and a region code, `51`, is extracted from it; `x-a_` gives `A_`. -/
theorem extraer_accepts_digits :
    extraerEstadoDesdeUbicacion (some "Area-51".toList) = some "51".toList ∧
    extraerEstadoDesdeUbicacion (some "x-a_".toList) = some "A_".toList := by
  decide

/-- C16, amended. `extraerEstadoDesdeUbicacion(tag)` returns a region code exactly when the
tag ends with a hyphen followed by two word characters (ASCII letters, digits or `_`, the
class `\w`), and the code is those two characters upper-cased; for every other tag, the
empty one and a value that is not a string, it returns none, and `obtenerSiguienteNodo`
then returns no node (it only reads the table). -/
theorem extraer_hyphen_two_word_chars :
    (∀ tag code : Str, extraerEstadoDesdeUbicacion (some tag) = some code ↔
      ∃ pre c1 c2, tag = pre ++ ['-', c1, c2] ∧ isWord c1 = true ∧ isWord c2 = true ∧
        code = [upperChar c1, upperChar c2]) ∧
    (∀ tag : Str, extraerEstadoDesdeUbicacion (some tag) = none ↔
      ¬ ∃ pre c1 c2, tag = pre ++ ['-', c1, c2] ∧ isWord c1 = true ∧ isWord c2 = true) ∧
    extraerEstadoDesdeUbicacion none = none ∧
    extraerEstadoDesdeUbicacion (some []) = none ∧
    (∀ (db : DB) (ubicacion : Option Str), extraerEstadoDesdeUbicacion ubicacion = none →
      obtenerSiguienteNodo db ubicacion = none) := by
  refine ⟨extraer_iff, ?_, rfl, rfl, obtenerSiguienteNodo_sin_estado⟩
  intro tag
  constructor
  · rintro h ⟨pre, c1, c2, ht, h1, h2⟩
    have := (extraer_iff tag [upperChar c1, upperChar c2]).2 ⟨pre, c1, c2, ht, h1, h2, rfl⟩
    rw [h] at this
    exact absurd this (by simp)
  · intro h
    cases hx : extraerEstadoDesdeUbicacion (some tag) with
    | none => rfl
    | some code =>
      obtain ⟨pre, c1, c2, ht, h1, h2, _⟩ := (extraer_iff tag code).1 hx
      exact absurd ⟨pre, c1, c2, ht, h1, h2⟩ h

/-- C16 amended, on `Miami-FL`, `New-York-NY` and a tag without suffix. -/
theorem extraer_hyphen_two_word_chars_witness :
    extraerEstadoDesdeUbicacion (some "Miami-FL".toList) = some "FL".toList ∧
    extraerEstadoDesdeUbicacion (some "New-York-NY".toList) = some "NY".toList ∧
    extraerEstadoDesdeUbicacion (some "Miami".toList) = none ∧
    obtenerSiguienteNodo dbEjemplo (some "Miami".toList) = none :=
  ⟨(extraer_hyphen_two_word_chars.1 "Miami-FL".toList "FL".toList).2
      ⟨"Miami".toList, 'F', 'L', by decide, by decide, by decide, by decide⟩,
    (extraer_hyphen_two_word_chars.1 "New-York-NY".toList "NY".toList).2
      ⟨"New-York".toList, 'N', 'Y', by decide, by decide, by decide, by decide⟩,
    by decide,
    extraer_hyphen_two_word_chars.2.2.2.2 dbEjemplo (some "Miami".toList) (by decide)⟩

/-! ## Policy credits: theorems -/

theorem parseInt_neg_digits (ds : Str) (hne : ds ≠ []) (hall : ∀ c ∈ ds, isDigit c = true) :
    parseInt ('-' :: ds) = some (-(digitsValue ds : Int)) := by
  have htake : ds.takeWhile isDigit = ds := by
    rw [List.takeWhile_eq_self_iff]
    exact hall
  have hsp : isJsSpace '-' = false := by decide
  have hemp : ds.isEmpty = false := by cases ds <;> simp_all
  simp [parseInt, trimStart, List.dropWhile, hsp, startsWith, htake, hemp]

/-- Reading back the text of an integer gives the integer. -/
theorem parseInt_intToStr (n : Int) : parseInt (intToStr n) = some n := by
  unfold intToStr
  by_cases h : n < 0
  · obtain ⟨h1, h2, h3⟩ := toDigits_facts n.natAbs
    simp only [h, if_true]
    rw [parseInt_neg_digits _ h1 h2, h3]
    congr 1
    omega
  · simp only [h, if_false]
    rw [parseInt_toDigits]
    congr 1
    omega

/-- On a table with distinct ids, `sumarPoliza` rewrites the two policy columns of the row
of the given id and leaves the other rows. -/
theorem sumarPoliza_rows (db : DB) (hid : (db.rows.map Row.id).Nodup) (row : Row)
    (hrow : row ∈ db.rows) (k : Int) (ahora : Str) :
    sumarPoliza db row.id k ahora =
      (⟨db.rows.map (fun r => if r.id = row.id then
          { r with poliza := intToStr (r.polizas + k), poliza_updated_at := ahora } else r),
        db.seq⟩, some (row.polizas + k, ahora)) := by
  simp only [sumarPoliza, buscarPorId_of_mem db hid row hrow, actualizarDonde, Row.polizas]
  congr 2
  apply List.map_congr_left
  intro r hr
  by_cases h : r.id = row.id
  · have : r = row := eq_of_id_eq hid hr hrow h
    subst this
    simp
  · simp [h]

/-- C17. For every stored node `row` with policy-credit total `c` and every count `k > 0`
(numbers that JavaScript holds exactly: `c` and `c + k` within the safe integers),
`sumarPoliza(id, k)` returns the new total `c + k` and the time stamp, leaves the node with
policy credits `c + k`, a larger total, and `poliza_updated_at` the current time, changes
no other field of the node and no other node. -/
theorem sumarPoliza_adds (db : DB) (row : Row) (k : Int) (ahora : Str)
    (hid : (db.rows.map Row.id).Nodup) (hrow : row ∈ db.rows) (hk : 0 < k)
    (hseg : -maxEnteroSeguro ≤ row.polizas ∧ row.polizas + k ≤ maxEnteroSeguro) :
    (sumarPoliza db row.id k ahora).2 = some (row.polizas + k, ahora) ∧
    (sumarPoliza db row.id k ahora).1 =
      ⟨db.rows.map (fun r => if r.id = row.id then
          { row with poliza := intToStr (row.polizas + k), poliza_updated_at := ahora }
        else r), db.seq⟩ ∧
    ({ row with poliza := intToStr (row.polizas + k), poliza_updated_at := ahora } : Row).polizas
      = row.polizas + k ∧
    row.polizas < row.polizas + k ∧
    -maxEnteroSeguro ≤ row.polizas + k ∧ row.polizas + k ≤ maxEnteroSeguro := by
  have h := sumarPoliza_rows db hid row hrow k ahora
  refine ⟨by rw [h], ?_, ?_, by omega, by omega, hseg.2⟩
  · rw [h]
    simp only [DB.mk.injEq, and_true]
    apply List.map_congr_left
    intro r hr
    by_cases he : r.id = row.id
    · have : r = row := eq_of_id_eq hid hr hrow he
      subst this
      rfl
    · simp [he]
  · simp only [Row.polizas, parseInt_intToStr, Option.getD_some]

/-- C17, on the example table: node 4 receives 3 policies, then 2 more. -/
theorem sumarPoliza_adds_witness :
    (dbEjemplo.rows.map Row.id).Nodup ∧
    (sumarPoliza dbEjemplo 4 3 "2026-01-01T00:00:00.000Z".toList).2 =
      some (3, "2026-01-01T00:00:00.000Z".toList) ∧
    (sumarPoliza dbEjemplo 4 3 "2026-01-01T00:00:00.000Z".toList).1 =
      ⟨[⟨1, "1.2.3.4".toList, 8080, "user".toList, "pass".toList, "FL".toList, "FL".toList,
          disponible, 0, [], [], 0⟩,
        ⟨2, "1.2.3.5".toList, 8080, "user".toList, "pass".toList, "FL".toList, "FL".toList,
          BURNED, 3, [], [], 0⟩,
        ⟨3, "1.2.3.6".toList, 8080, "user".toList, "pass".toList, "FL".toList, "FL".toList,
          disponible, 0, [], [], 1⟩,
        ⟨4, "1.2.3.7".toList, 8080, "user".toList, "pass".toList, "NY".toList, "NY".toList,
          disponible, 2, "3".toList, "2026-01-01T00:00:00.000Z".toList, 0⟩], 4⟩ :=
  ⟨by decide,
    (sumarPoliza_adds dbEjemplo
      ⟨4, "1.2.3.7".toList, 8080, "user".toList, "pass".toList, "NY".toList, "NY".toList,
        disponible, 2, [], [], 0⟩ 3 "2026-01-01T00:00:00.000Z".toList
      (by decide) (by decide) (by decide) (by decide)).1,
    (sumarPoliza_adds dbEjemplo
      ⟨4, "1.2.3.7".toList, 8080, "user".toList, "pass".toList, "NY".toList, "NY".toList,
        disponible, 2, [], [], 0⟩ 3 "2026-01-01T00:00:00.000Z".toList
      (by decide) (by decide) (by decide) (by decide)).2.1⟩

/-- The handler of `'finalizar-sesion'` credits no policies for a count `k <= 0`. -/
theorem finalizarSesionPolizas_non_positive (db : DB) (nodoActual : Option Row) (k : Int)
    (ahora : Str) (hk : k ≤ 0) : finalizarSesionPolizas db nodoActual k ahora = db := by
  unfold finalizarSesionPolizas
  cases nodoActual with
  | none => rfl
  | some nodo =>
    have : ¬ (k ≠ 0 ∧ 0 < k) := by omega
    simp only [this, if_false]

/-- C18, counterexample. On the store with one node holding 3 policies, the store function
called with the count -5, `sumarPoliza(1, -5)`, is not rejected by it: it succeeds, returns
the total -2, writes `poliza = '-2'` and a new `poliza_updated_at`; `sumarPoliza(1, 0)`
succeeds as well and rewrites the time stamp.  The function holds no test of the count. -/
theorem sumarPoliza_accepts_non_positive :
    ejecutar DB.vacia
        [Op.importar (some "1.2.3.4:8080:user:pass".toList) (some "FL".toList),
          Op.sumar 1 3 "2026-01-01T00:00:00.000Z".toList] =
      ⟨[⟨1, "1.2.3.4".toList, 8080, "user".toList, "pass".toList, "FL".toList, "FL".toList,
          disponible, 0, "3".toList, "2026-01-01T00:00:00.000Z".toList, 0⟩], 1⟩ ∧
    sumarPoliza
        (ejecutar DB.vacia
          [Op.importar (some "1.2.3.4:8080:user:pass".toList) (some "FL".toList),
            Op.sumar 1 3 "2026-01-01T00:00:00.000Z".toList])
        1 (-5) "2026-01-02T00:00:00.000Z".toList =
      (⟨[⟨1, "1.2.3.4".toList, 8080, "user".toList, "pass".toList, "FL".toList, "FL".toList,
          disponible, 0, "-2".toList, "2026-01-02T00:00:00.000Z".toList, 0⟩], 1⟩,
        some (-2, "2026-01-02T00:00:00.000Z".toList)) ∧
    (∀ r ∈ (ejecutar DB.vacia
          [Op.importar (some "1.2.3.4:8080:user:pass".toList) (some "FL".toList),
            Op.sumar 1 3 "2026-01-01T00:00:00.000Z".toList,
            Op.sumar 1 (-5) "2026-01-02T00:00:00.000Z".toList]).rows, r.polizas = -2) ∧
    sumarPoliza
        (ejecutar DB.vacia
          [Op.importar (some "1.2.3.4:8080:user:pass".toList) (some "FL".toList),
            Op.sumar 1 3 "2026-01-01T00:00:00.000Z".toList])
        1 0 "2026-01-02T00:00:00.000Z".toList =
      (⟨[⟨1, "1.2.3.4".toList, 8080, "user".toList, "pass".toList, "FL".toList, "FL".toList,
          disponible, 0, "3".toList, "2026-01-02T00:00:00.000Z".toList, 0⟩], 1⟩,
        some (3, "2026-01-02T00:00:00.000Z".toList)) := by
  decide

/-! ## The callers of `sumarPoliza`: theorems -/

theorem actualizarDonde_todos (P : Row → Prop) (db : DB) (id : Nat) (f : Row → Row)
    (h : ∀ r ∈ db.rows, P r) (hf : ∀ r ∈ db.rows, P (f r)) :
    ∀ r ∈ (actualizarDonde db id f).rows, P r := by
  intro r hr
  simp only [actualizarDonde] at hr
  obtain ⟨r0, hr0, rfl⟩ := List.mem_map.1 hr
  by_cases hid : r0.id = id
  · simp only [hid, if_true]
    exact hf r0 hr0
  · simp only [hid, if_false]
    exact h r0 hr0

theorem foldl_insertOrReplace_polizas (e : Str) (regs : List ProxyParsed) (db : DB)
    (h : PolizasNoNegativas db) :
    PolizasNoNegativas (regs.foldl (fun d reg => insertOrReplace d e reg) db) := by
  induction regs generalizing db with
  | nil => exact h
  | cons reg regs ih =>
    apply ih
    intro r hr
    simp only [insertOrReplace, List.mem_append, List.mem_singleton] at hr
    rcases hr with hr | rfl
    · exact h r (List.mem_filter.1 hr).1
    · refine ⟨?_, Or.inl rfl⟩
      show (0 : Int) ≤ (parseInt []).getD 0
      decide

theorem sumarPoliza_polizas (db : DB) (id : Nat) (k : Int) (ahora : Str) (hk : 0 < k)
    (h : PolizasNoNegativas db) : PolizasNoNegativas (sumarPoliza db id k ahora).1 := by
  unfold sumarPoliza
  cases hb : buscarPorId db id with
  | none => exact h
  | some row =>
    have hrow := h row (buscarPorId_some db id row hb).1
    apply actualizarDonde_todos _ db id _ h
    intro r _
    have hv : (parseInt (intToStr ((parseInt row.poliza).getD 0 + k))).getD 0 =
        (parseInt row.poliza).getD 0 + k := by
      rw [parseInt_intToStr, Option.getD_some]
    refine ⟨?_, Or.inr ?_⟩
    · show 0 ≤ (parseInt (intToStr ((parseInt row.poliza).getD 0 + k))).getD 0
      rw [hv]
      have := hrow.1
      unfold Row.polizas at this
      omega
    · show intToStr ((parseInt row.poliza).getD 0 + k) =
        intToStr ((parseInt (intToStr ((parseInt row.poliza).getD 0 + k))).getD 0)
      rw [hv]

theorem aplicar_polizas (db : DB) (op : Op) (hop : op.delPrograma)
    (h : PolizasNoNegativas db) : PolizasNoNegativas (aplicar db op) := by
  cases op with
  | importar contenido stateCode =>
    simp only [aplicar, importarProxiesDesdeArchivo]
    cases normalizarEstado stateCode with
    | none => exact h
    | some e =>
      cases contenido with
      | none => exact h
      | some texto =>
        simp only
        split
        · exact h
        · exact foldl_insertOrReplace_polizas e _ db h
  | incrementar proxyId =>
    simp only [aplicar, incrementarSesiones]
    cases buscarPorId db proxyId with
    | none => exact h
    | some row => exact actualizarDonde_todos _ db proxyId _ h (fun r hr => h r hr)
  | marcar nodoId =>
    simp only [aplicar, marcarSesionCompletada]
    cases buscarPorId db nodoId with
    | none => exact h
    | some row => exact actualizarDonde_todos _ db nodoId _ h (fun r hr => h r hr)
  | sumar proxyId cantidad ahora => exact sumarPoliza_polizas db proxyId cantidad ahora hop h
  | actualizar proxyId poliza ahora => exact absurd hop (fun hf => hf)
  | toggle proxyId =>
    simp only [aplicar, toggleDisabled]
    cases buscarPorId db proxyId with
    | none => exact h
    | some row => exact actualizarDonde_todos _ db proxyId _ h (fun r hr => h r hr)

theorem ejecutar_polizas (ops : List Op) (db : DB) (hops : ∀ op ∈ ops, op.delPrograma)
    (h : PolizasNoNegativas db) : PolizasNoNegativas (ejecutar db ops) := by
  induction ops generalizing db with
  | nil => exact h
  | cons op ops ih =>
    exact ih _ (fun o ho => hops o (List.mem_cons_of_mem _ ho))
      (aplicar_polizas db op (hops op (List.mem_cons_self _ _)) h)

/-- C18, amended. A policy count `k <= 0` is rejected before any mutation by the callers
of `sumarPoliza`: the confirm click of the proxy table shows the error
`'Ingresa una cantidad mayor a 0'` and leaves the store as it is, without invoking
`'proxies:sumar-poliza'`; the handler `'finalizar-sesion'` calls `sumarPoliza` only for a
count `> 0` and leaves the store as it is otherwise.  For a count `> 0` both pass it to
`sumarPoliza`.  So in every store state that the calls of the program reach from the empty
store (imports, session credits, toggles, policy credits with a positive count) the
policy total of every node is a non-negative integer. -/
theorem non_positive_count_rejected_by_callers :
    (∀ (db : DB) (valor : Str) (proxyId : Nat) (ahora : Str),
      (parseInt valor).getD 0 ≤ 0 →
      clicSumarPoliza db valor proxyId ahora = (db, AvisoSuma.cantidadInvalida)) ∧
    (∀ (db : DB) (nodoActual : Option Row) (k : Int) (ahora : Str), k ≤ 0 →
      finalizarSesionPolizas db nodoActual k ahora = db) ∧
    (∀ (db : DB) (valor : Str) (proxyId : Nat) (ahora : Str),
      0 < (parseInt valor).getD 0 →
      (clicSumarPoliza db valor proxyId ahora).1 =
        (sumarPoliza db proxyId ((parseInt valor).getD 0) ahora).1) ∧
    (∀ (db : DB) (nodo : Row) (k : Int) (ahora : Str), 0 < k →
      finalizarSesionPolizas db (some nodo) k ahora = (sumarPoliza db nodo.id k ahora).1) ∧
    (∀ ops : List Op, (∀ op ∈ ops, op.delPrograma) →
      ∀ r ∈ (ejecutar DB.vacia ops).rows,
        0 ≤ r.polizas ∧ (r.poliza = [] ∨ r.poliza = intToStr r.polizas)) := by
  refine ⟨?_, finalizarSesionPolizas_non_positive, ?_, ?_, ?_⟩
  · intro db valor proxyId ahora hk
    simp only [clicSumarPoliza, hk, if_true]
  · intro db valor proxyId ahora hk
    have hk2 : ¬ (parseInt valor).getD 0 ≤ 0 := by omega
    simp only [clicSumarPoliza, hk2, if_false, manejadorSumarPoliza]
    cases hs : sumarPoliza db proxyId ((parseInt valor).getD 0) ahora with
    | mk db2 res =>
      cases res with
      | none => rfl
      | some pr => rfl
  · intro db nodo k ahora hk
    have hk2 : k ≠ 0 ∧ 0 < k := ⟨by omega, hk⟩
    show (if k ≠ 0 ∧ 0 < k then (sumarPoliza db nodo.id k ahora).1 else db) = _
    rw [if_pos hk2]
  · intro ops hops
    exact ejecutar_polizas ops DB.vacia hops (by simp [PolizasNoNegativas, DB.vacia])

/-- C18 amended, on the store with one node holding 3 policies: the confirm click with the
texts `-5`, `0` and `abc` shows the error and changes nothing, `'finalizar-sesion'` with
the counts -5 and 0 changes nothing, and the click with `2` credits 2 policies. -/
theorem non_positive_count_rejected_by_callers_witness :
    clicSumarPoliza
        (ejecutar DB.vacia
          [Op.importar (some "1.2.3.4:8080:user:pass".toList) (some "FL".toList),
            Op.sumar 1 3 "2026-01-01T00:00:00.000Z".toList])
        "-5".toList 1 "2026-01-02T00:00:00.000Z".toList =
      (⟨[⟨1, "1.2.3.4".toList, 8080, "user".toList, "pass".toList, "FL".toList, "FL".toList,
          disponible, 0, "3".toList, "2026-01-01T00:00:00.000Z".toList, 0⟩], 1⟩,
        AvisoSuma.cantidadInvalida) ∧
    clicSumarPoliza dbEjemplo "0".toList 4 "2026-01-02T00:00:00.000Z".toList =
      (dbEjemplo, AvisoSuma.cantidadInvalida) ∧
    clicSumarPoliza dbEjemplo "abc".toList 4 "2026-01-02T00:00:00.000Z".toList =
      (dbEjemplo, AvisoSuma.cantidadInvalida) ∧
    finalizarSesionPolizas dbEjemplo (dbEjemplo.rows.head?) (-5)
      "2026-01-02T00:00:00.000Z".toList = dbEjemplo ∧
    finalizarSesionPolizas dbEjemplo (dbEjemplo.rows.head?) 0
      "2026-01-02T00:00:00.000Z".toList = dbEjemplo ∧
    (clicSumarPoliza dbEjemplo "2".toList 4 "2026-01-02T00:00:00.000Z".toList).2 =
      AvisoSuma.agregadas 2 2 ∧
    (∀ r ∈ (ejecutar DB.vacia
        [Op.importar (some "1.2.3.4:8080:user:pass".toList) (some "FL".toList),
          Op.sumar 1 3 "2026-01-01T00:00:00.000Z".toList]).rows, 0 ≤ r.polizas) :=
  ⟨(non_positive_count_rejected_by_callers.1 _ "-5".toList 1 _ (by decide)).trans
      (by decide),
    non_positive_count_rejected_by_callers.1 dbEjemplo "0".toList 4 _ (by decide),
    non_positive_count_rejected_by_callers.1 dbEjemplo "abc".toList 4 _ (by decide),
    non_positive_count_rejected_by_callers.2.1 dbEjemplo _ (-5) _ (by decide),
    non_positive_count_rejected_by_callers.2.1 dbEjemplo _ 0 _ (by decide),
    by decide,
    fun r hr => (non_positive_count_rejected_by_callers.2.2.2.2 _
      (by
        intro op hop
        simp only [List.mem_cons, List.mem_singleton, List.not_mem_nil, or_false] at hop
        rcases hop with rfl | rfl
        · exact True.intro
        · show (0 : Int) < 3
          decide) r hr).1⟩

/-! ## The policy alert -/

/-- The alert is raised exactly when the row found has a total of at least 3, a non-empty
time stamp that is a date, and the date is less than a week old. -/
theorem verificarAlertaPolizas_alerta (fechaMs : Str → Option Int) (db : DB) (proxyId : Nat)
    (ahora : Int) :
    (verificarAlertaPolizas fechaMs db proxyId ahora).alerta = true ↔
      ∃ row, buscarPorId db proxyId = some row ∧ 3 ≤ row.polizas ∧
        row.poliza_updated_at ≠ [] ∧
        ∃ t, fechaMs row.poliza_updated_at = some t ∧ ahora - t < 604800000 := by
  unfold verificarAlertaPolizas
  cases hb : buscarPorId db proxyId with
  | none => simp
  | some row =>
    simp only [Option.some.injEq, exists_eq_left', Row.polizas]
    by_cases h3 : 3 ≤ (parseInt row.poliza).getD 0
    · by_cases hu : row.poliza_updated_at = []
      · simp [h3, hu]
      · have hu2 : ¬ row.poliza_updated_at.isEmpty = true := by
          simpa [List.isEmpty_iff] using hu
        cases hf : fechaMs row.poliza_updated_at with
        | none => simp [h3, hu2, hf]
        | some t =>
          by_cases hd : ahora - t < unaSemanaMs
          · have hd2 : ahora - t < 604800000 := by
              have : unaSemanaMs = 604800000 := by decide
              omega
            simp [h3, hu2, hf, hd, hu, hd2]
          · have hd2 : ¬ ahora - t < 604800000 := by
              have : unaSemanaMs = 604800000 := by decide
              omega
            simp [h3, hu2, hf, hd, hu, hd2]
    · simp [h3]

/-- The alert is computed from the policy total, the time stamp of the row found and the
current time. -/
theorem verificarAlertaPolizas_congr (fechaMs : Str → Option Int) (db1 db2 : DB)
    (id1 id2 : Nat) (ahora : Int) (r1 r2 : Row) (h1 : buscarPorId db1 id1 = some r1)
    (h2 : buscarPorId db2 id2 = some r2) (hp : r1.polizas = r2.polizas)
    (hu : r1.poliza_updated_at = r2.poliza_updated_at) :
    (verificarAlertaPolizas fechaMs db1 id1 ahora).alerta =
      (verificarAlertaPolizas fechaMs db2 id2 ahora).alerta := by
  unfold Row.polizas at hp
  simp only [verificarAlertaPolizas, h1, h2, hp, hu]
  split <;> [skip; rfl]
  split <;> [rfl; skip]
  split <;> rfl

/-- C19. For every store (distinct ids), node id and current time `ahora`,
`verificarAlertaPolizas(id)` returns `alerta = true` if and only if the node exists, its
policy-credit total is at least 3, its `poliza_updated_at` is set (and is a date), and
`ahora - poliza_updated_at < 604800000` ms (7 days).  The decision depends on nothing else:
two nodes, of any two stores, with the same total and the same time stamp get the same
answer at the same time; a total below 3 gives no alert for every time stamp and time. -/
theorem verificarAlertaPolizas_iff (fechaMs : Str → Option Int) (db : DB) (proxyId : Nat)
    (ahora : Int) (hid : (db.rows.map Row.id).Nodup) :
    ((verificarAlertaPolizas fechaMs db proxyId ahora).alerta = true ↔
      ∃ row ∈ db.rows, row.id = proxyId ∧ 3 ≤ row.polizas ∧ row.poliza_updated_at ≠ [] ∧
        ∃ t, fechaMs row.poliza_updated_at = some t ∧ ahora - t < 7 * 24 * 60 * 60 * 1000) ∧
    (∀ (db2 : DB) (id2 : Nat) (r1 r2 : Row), (db2.rows.map Row.id).Nodup →
      r1 ∈ db.rows → r1.id = proxyId → r2 ∈ db2.rows → r2.id = id2 →
      r1.polizas = r2.polizas → r1.poliza_updated_at = r2.poliza_updated_at →
      (verificarAlertaPolizas fechaMs db proxyId ahora).alerta =
        (verificarAlertaPolizas fechaMs db2 id2 ahora).alerta) ∧
    (∀ row ∈ db.rows, row.id = proxyId → row.polizas < 3 →
      (verificarAlertaPolizas fechaMs db proxyId ahora).alerta = false) := by
  refine ⟨?_, ?_, ?_⟩
  · rw [verificarAlertaPolizas_alerta]
    constructor
    · rintro ⟨row, hb, h⟩
      obtain ⟨hm, hi⟩ := buscarPorId_some db proxyId row hb
      exact ⟨row, hm, hi, h⟩
    · rintro ⟨row, hm, hi, h⟩
      subst hi
      exact ⟨row, buscarPorId_of_mem db hid row hm, h⟩
  · intro db2 id2 r1 r2 hid2 hm1 hi1 hm2 hi2 hp hu
    subst hi1
    subst hi2
    exact verificarAlertaPolizas_congr fechaMs db db2 r1.id r2.id ahora r1 r2
      (buscarPorId_of_mem db hid r1 hm1) (buscarPorId_of_mem db2 hid2 r2 hm2) hp hu
  · intro row hm hi hlt
    subst hi
    cases hv : (verificarAlertaPolizas fechaMs db row.id ahora).alerta with
    | false => rfl
    | true =>
      obtain ⟨r, hb, h3, _⟩ := (verificarAlertaPolizas_alerta fechaMs db row.id ahora).1 hv
      rw [buscarPorId_of_mem db hid row hm] at hb
      cases hb
      omega

/-- C19, the three scenarios, on the example table after node 4 received 3 policies at
`2026-01-01T00:00:00.000Z` (1767225600000 ms): 6 days later (1767744000000) the alert is
raised, 8 days later (1767916800000) it is not, and node 1, which has no policies, raises
none. -/
theorem verificarAlertaPolizas_iff_witness :
    ((sumarPoliza dbEjemplo 4 3 "2026-01-01T00:00:00.000Z".toList).1.rows.map Row.id).Nodup ∧
    verificarAlertaPolizas fechaEjemplo
        (sumarPoliza dbEjemplo 4 3 "2026-01-01T00:00:00.000Z".toList).1 4 1767744000000 =
      ⟨true, some "1.2.3.7".toList, some 3⟩ ∧
    (verificarAlertaPolizas fechaEjemplo
        (sumarPoliza dbEjemplo 4 3 "2026-01-01T00:00:00.000Z".toList).1 4
        1767916800000).alerta = false ∧
    (verificarAlertaPolizas fechaEjemplo
        (sumarPoliza dbEjemplo 4 2 "2026-01-01T00:00:00.000Z".toList).1 4
        1767744000000).alerta = false ∧
    (verificarAlertaPolizas fechaEjemplo
        (sumarPoliza dbEjemplo 4 3 "2026-01-01T00:00:00.000Z".toList).1 1
        1767744000000).alerta = false :=
  ⟨by decide, by decide, by decide, by decide,
    (verificarAlertaPolizas_iff fechaEjemplo
      (sumarPoliza dbEjemplo 4 3 "2026-01-01T00:00:00.000Z".toList).1 1 1767744000000
      (by decide)).2.2
      ⟨1, "1.2.3.4".toList, 8080, "user".toList, "pass".toList, "FL".toList, "FL".toList,
        disponible, 0, [], [], 0⟩ (by decide) rfl (by decide)⟩

/-! ## The fingerprint engine: theorems -/

theorem find?_of_mem_nodup_keys {α : Type} (tabla : List (Str × α))
    (hnd : (tabla.map Prod.fst).Nodup) (k : Str) (a : α) (h : (k, a) ∈ tabla) :
    tabla.find? (fun e => e.1 = k) = some (k, a) := by
  induction tabla with
  | nil => simp at h
  | cons e rest ih =>
    simp only [List.map_cons, List.nodup_cons] at hnd
    rcases List.mem_cons.1 h with he | hr
    · subst he
      simp
    · have hne : e.1 ≠ k := by
        intro hek
        apply hnd.1
        rw [hek]
        exact List.mem_map_of_mem Prod.fst hr
      simp only [List.find?_cons, hne, decide_False]
      exact ih hnd.2 hr

theorem leerClave_of_mem {α : Type} (tabla : List (Str × α))
    (hnd : (tabla.map Prod.fst).Nodup) (k : Str) (a : α) (h : (k, a) ∈ tabla) :
    leerClave tabla k = Hallado.propio a := by
  unfold leerClave
  rw [find?_of_mem_nodup_keys tabla hnd k a h]

theorem leerClave_propio {α : Type} (tabla : List (Str × α)) (k : Str) (a : α)
    (h : leerClave tabla k = Hallado.propio a) : (k, a) ∈ tabla := by
  unfold leerClave at h
  cases hf : tabla.find? (fun e => e.1 = k) with
  | none =>
    rw [hf] at h
    simp only at h
    split at h <;> cases h
  | some e =>
    rw [hf] at h
    simp only [Hallado.propio.injEq] at h
    have hm := List.mem_of_find?_eq_some hf
    have hk := List.find?_some hf
    simp only [decide_eq_true_eq] at hk
    subst h
    subst hk
    exact hm

theorem leerClave_heredado {α : Type} (tabla : List (Str × α)) (k : Str)
    (h : leerClave tabla k = Hallado.heredado) : k ∈ clavesHeredadas := by
  unfold leerClave at h
  cases hf : tabla.find? (fun e => e.1 = k) with
  | none =>
    rw [hf] at h
    simp only at h
    by_cases hk : k ∈ clavesHeredadas
    · exact hk
    · simp [hk] at h
  | some e =>
    rw [hf] at h
    cases h

theorem leerClave_ausente {α : Type} (tabla : List (Str × α)) (k : Str)
    (h : leerClave tabla k = Hallado.ausente) : k ∉ tabla.map Prod.fst := by
  unfold leerClave at h
  cases hf : tabla.find? (fun e => e.1 = k) with
  | none =>
    intro hm
    obtain ⟨e, he, hek⟩ := List.mem_map.1 hm
    have := List.find?_eq_none.1 hf e he
    simp [hek] at this
  | some e =>
    rw [hf] at h
    cases h

theorem CIUDADES_USA_nodup : (CIUDADES_USA.map Prod.fst).Nodup := by decide

/-- The canvas fields of a result are computed from the seed of the name and the entry. -/
theorem generarFingerprintGeoCon_canvas (hexadecimal : ℚ → Str) (ent : Entorno)
    (s : SorteosGeo) (ubicacion : Str) (datosCiudad : Ciudad) (fp : Fingerprint)
    (h : generarFingerprintGeoCon hexadecimal ent s ubicacion datosCiudad = some fp) :
    fp.canvasHash = generarCanvasHash hexadecimal (semillaGeo ubicacion datosCiudad) ∧
    fp.canvasNoise = generarRuidoConsistente (semillaGeo ubicacion datosCiudad) ∧
    fp.ciudad = ubicacion := by
  unfold generarFingerprintGeoCon at h
  repeat' (first | (cases h; done) | split at h | (simp only at h))
  all_goals
    simp only [Option.some.injEq] at h
    subst h
    exact ⟨rfl, rfl, rfl⟩

/-- The canvas fields of a result of `generarFingerprintGeo`: those of the seed of the
entry of the name, or of `'New-York-NY'` when the name has no entry. -/
theorem generarFingerprintGeo_canvas (hexadecimal : ℚ → Str) (ent : Entorno)
    (s : SorteosGeo) (ubicacion : Str) (fp : Fingerprint)
    (h : generarFingerprintGeo hexadecimal ent s ubicacion = some fp) :
    (∀ datos, (ubicacion, datos) ∈ CIUDADES_USA →
      fp.canvasHash = generarCanvasHash hexadecimal (semillaGeo ubicacion datos) ∧
      fp.canvasNoise = generarRuidoConsistente (semillaGeo ubicacion datos)) ∧
    (ubicacion ∉ CIUDADES_USA.map Prod.fst →
      fp.canvasHash = generarCanvasHash hexadecimal "New-York-NY-40.7128--74.006".toList ∧
      fp.canvasNoise = generarRuidoConsistente "New-York-NY-40.7128--74.006".toList) := by
  unfold generarFingerprintGeo at h
  cases hl : leerClave CIUDADES_USA ubicacion with
  | propio d =>
    rw [hl] at h
    simp only at h
    have hc := generarFingerprintGeoCon_canvas hexadecimal ent s ubicacion d fp h
    have hmem := leerClave_propio CIUDADES_USA ubicacion d hl
    constructor
    · intro datos hd
      have := leerClave_of_mem CIUDADES_USA CIUDADES_USA_nodup ubicacion datos hd
      rw [hl] at this
      cases this
      exact ⟨hc.1, hc.2.1⟩
    · intro hno
      exact absurd (List.mem_map_of_mem Prod.fst hmem) hno
  | heredado =>
    rw [hl] at h
    cases h
  | ausente =>
    rw [hl] at h
    simp only at h
    have hno := leerClave_ausente CIUDADES_USA ubicacion hl
    have hny : leerClave CIUDADES_USA "New-York-NY".toList =
        Hallado.propio ⟨"America/New_York".toList, ⟨407128, 4⟩, ⟨-740060, 4⟩,
          ["1920x1080".toList, "2560x1440".toList, "1366x768".toList, "1680x1050".toList,
            "1440x900".toList]⟩ := by decide
    rw [hny] at h
    simp only at h
    have hc := generarFingerprintGeoCon_canvas hexadecimal ent s _ _ fp h
    have hseed : semillaGeo "New-York-NY".toList
        ⟨"America/New_York".toList, ⟨407128, 4⟩, ⟨-740060, 4⟩,
          ["1920x1080".toList, "2560x1440".toList, "1366x768".toList, "1680x1050".toList,
            "1440x900".toList]⟩ = "New-York-NY-40.7128--74.006".toList := by decide
    rw [hseed] at hc
    constructor
    · intro datos hd
      exact absurd (List.mem_map_of_mem Prod.fst hd) hno
    · intro _
      exact ⟨hc.1, hc.2.1⟩

theorem elementoAleatorio_some {α : Type} (array : List α) (r : Sorteo) (hr : r.valido)
    (hne : array ≠ []) : ∃ a ∈ array, elementoAleatorio array r = some a := by
  unfold Sorteo.valido at hr
  have hlen : 0 < array.length := List.length_pos.2 hne
  have hi : r.num * array.length / r.den < array.length := by
    apply Nat.div_lt_of_lt_mul
    exact Nat.mul_lt_mul_of_pos_right hr hlen
  refine ⟨array[r.num * array.length / r.den], List.getElem_mem _, ?_⟩
  unfold elementoAleatorio
  exact List.getElem?_eq_getElem hi

theorem seleccionarPerfilOS_propio (defaultOs : Str) (r : Sorteo) (hr : r.valido)
    (hd : defaultOs ∉ clavesHeredadas) :
    ∃ p, seleccionarPerfilOS defaultOs none r = Hallado.propio p ∧
      (p.id, p) ∈ OS_PROFILES := by
  unfold seleccionarPerfilOS
  simp only
  cases hl : leerClave OS_PROFILES defaultOs with
  | propio p =>
    refine ⟨p, rfl, ?_⟩
    have hm := leerClave_propio OS_PROFILES defaultOs p hl
    have : ∀ e ∈ OS_PROFILES, e.1 = e.2.id := by decide
    have h2 := this _ hm
    simp only at h2
    rw [← h2]
    exact hm
  | heredado => exact absurd (leerClave_heredado OS_PROFILES defaultOs hl) hd
  | ausente =>
    simp only
    obtain ⟨c, hc, hcs⟩ := elementoAleatorio_some (OS_PROFILES.map Prod.fst) r hr (by decide)
    rw [hcs]
    simp only
    have : ∀ c ∈ OS_PROFILES.map Prod.fst, ∃ p, leerClave OS_PROFILES c = Hallado.propio p ∧
        (p.id, p) ∈ OS_PROFILES := by
      intro c hc
      obtain ⟨e, he, rfl⟩ := List.mem_map.1 hc
      have hk : ∀ e ∈ OS_PROFILES, e.1 = e.2.id := by decide
      refine ⟨e.2, leerClave_of_mem OS_PROFILES (by decide) e.1 e.2 he, ?_⟩
      rw [← hk e he]
      exact he
    exact this c hc

/-- With values of `Math.random()` in [0, 1), a default profile name and a city name that
are not members of `Object.prototype`, `generarFingerprintGeo` returns a fingerprint. -/
theorem generarFingerprintGeo_returns (hexadecimal : ℚ → Str) (ent : Entorno)
    (s : SorteosGeo) (ubicacion : Str) (hs : s.validos)
    (he : ent.defaultOs ∉ clavesHeredadas) (hu : ubicacion ∉ clavesHeredadas) :
    ∃ fp, generarFingerprintGeo hexadecimal ent s ubicacion = some fp := by
  obtain ⟨hs1, _, _, _, hs5, _⟩ := hs
  have hcon : ∀ (u : Str) (d : Ciudad), (u, d) ∈ CIUDADES_USA →
      ∃ fp, generarFingerprintGeoCon hexadecimal ent s u d = some fp := by
    intro u d hd
    obtain ⟨p, hp, hpm⟩ := seleccionarPerfilOS_propio ent.defaultOs s.perfilOS hs1 he
    have hres : d.resoluciones ≠ [] := by
      have : ∀ e ∈ CIUDADES_USA, e.2.resoluciones ≠ [] := by decide
      exact this _ hd
    obtain ⟨res, _, hres2⟩ := elementoAleatorio_some d.resoluciones s.resolucion hs5 hres
    have hwv : p.webglVendor.isEmpty = false := by
      have : ∀ e ∈ OS_PROFILES, e.2.webglVendor.isEmpty = false := by decide
      exact this _ hpm
    unfold generarFingerprintGeoCon
    rw [hp]
    simp only [ite_self]
    have hid : construirPerfilIdioma ent.perfilSistema (some d.timezone) false
        (some "en-US".toList) =
        Hallado.propio ⟨["en-US".toList, "en".toList], "en-US,en;q=0.9".toList⟩ := by
      simp [construirPerfilIdioma, split]
    rw [hid]
    simp only [hres2, hwv]
    exact ⟨_, rfl⟩
  unfold generarFingerprintGeo
  cases hl : leerClave CIUDADES_USA ubicacion with
  | propio d => exact hcon ubicacion d (leerClave_propio CIUDADES_USA ubicacion d hl)
  | heredado => exact absurd (leerClave_heredado CIUDADES_USA ubicacion hl) hu
  | ausente =>
    simp only
    have hny : leerClave CIUDADES_USA "New-York-NY".toList =
        Hallado.propio ⟨"America/New_York".toList, ⟨407128, 4⟩, ⟨-740060, 4⟩,
          ["1920x1080".toList, "2560x1440".toList, "1366x768".toList, "1680x1050".toList,
            "1440x900".toList]⟩ := by decide
    rw [hny]
    exact hcon _ _ (leerClave_propio CIUDADES_USA _ _ hny)

/-- C20. For every name `ubicacion` and any two runs of `generarFingerprintGeo` on it,
whatever the values of `Math.random()`, the clock and the default OS profile of each run,
the two results have the same `canvasFingerprintData.hash` and the same
`canvasFingerprintData.noise`.  For an anchor name both are those of the seed built from
the name and the latitude and longitude of its catalogue entry; for a name without entry
they are those of the seed of `'New-York-NY'`. -/
theorem generarFingerprintGeo_canvas_deterministic (hexadecimal : ℚ → Str) (ubicacion : Str)
    (ent1 ent2 : Entorno) (s1 s2 : SorteosGeo) (fp1 fp2 : Fingerprint)
    (h1 : generarFingerprintGeo hexadecimal ent1 s1 ubicacion = some fp1)
    (h2 : generarFingerprintGeo hexadecimal ent2 s2 ubicacion = some fp2) :
    fp1.canvasHash = fp2.canvasHash ∧ fp1.canvasNoise = fp2.canvasNoise ∧
    (∀ datos, (ubicacion, datos) ∈ CIUDADES_USA →
      fp1.canvasHash = generarCanvasHash hexadecimal (semillaGeo ubicacion datos) ∧
      fp1.canvasNoise = generarRuidoConsistente (semillaGeo ubicacion datos)) ∧
    (ubicacion ∉ CIUDADES_USA.map Prod.fst →
      fp1.canvasHash = generarCanvasHash hexadecimal "New-York-NY-40.7128--74.006".toList ∧
      fp1.canvasNoise = generarRuidoConsistente "New-York-NY-40.7128--74.006".toList) := by
  have a1 := generarFingerprintGeo_canvas hexadecimal ent1 s1 ubicacion fp1 h1
  have a2 := generarFingerprintGeo_canvas hexadecimal ent2 s2 ubicacion fp2 h2
  refine ⟨?_, ?_, a1.1, a1.2⟩
  · by_cases hm : ubicacion ∈ CIUDADES_USA.map Prod.fst
    · obtain ⟨e, he, hek⟩ := List.mem_map.1 hm
      have hd : (ubicacion, e.2) ∈ CIUDADES_USA := by
        rw [← hek]
        exact he
      rw [(a1.1 e.2 hd).1, (a2.1 e.2 hd).1]
    · rw [(a1.2 hm).1, (a2.2 hm).1]
  · by_cases hm : ubicacion ∈ CIUDADES_USA.map Prod.fst
    · obtain ⟨e, he, hek⟩ := List.mem_map.1 hm
      have hd : (ubicacion, e.2) ∈ CIUDADES_USA := by
        rw [← hek]
        exact he
      rw [(a1.1 e.2 hd).2, (a2.1 e.2 hd).2]
    · rw [(a1.2 hm).2, (a2.2 hm).2]

/-- C20, two runs on `'Miami-FL'`: one with the profile `'mac'` and all random values 0,
one with `FINGERPRINT_OS=windows`, other random values and a later clock.  Both return, with
different profiles and resolutions, and with the same canvas hash and the same noise, that
of the seed `'Miami-FL-25.7617--80.1918'` (hash value 2085240496, noise 496/10000). -/
theorem generarFingerprintGeo_canvas_deterministic_witness :
    ∃ fp1 fp2 : Fingerprint,
      generarFingerprintGeo hexEjemplo entornoEjemplo1 sorteosEjemplo1 "Miami-FL".toList =
        some fp1 ∧
      generarFingerprintGeo hexEjemplo entornoEjemplo2 sorteosEjemplo2 "Miami-FL".toList =
        some fp2 ∧
      fp1.osProfile = "mac".toList ∧ fp2.osProfile = "windows".toList ∧
      fp1.resolucionAncho = some 1920 ∧ fp2.resolucionAncho = some 3840 ∧
      fp1.canvasHash = fp2.canvasHash ∧ fp1.canvasNoise = fp2.canvasNoise ∧
      hashSemilla "Miami-FL-25.7617--80.1918".toList = 2085240496 ∧
      fp1.canvasNoise = generarRuidoConsistente "Miami-FL-25.7617--80.1918".toList := by
  have e1 : (generarFingerprintGeo hexEjemplo entornoEjemplo1 sorteosEjemplo1
      "Miami-FL".toList).isSome = true := by decide
  have e2 : (generarFingerprintGeo hexEjemplo entornoEjemplo2 sorteosEjemplo2
      "Miami-FL".toList).isSome = true := by decide
  obtain ⟨fp1, h1⟩ := Option.isSome_iff_exists.1 e1
  obtain ⟨fp2, h2⟩ := Option.isSome_iff_exists.1 e2
  have o1 : (generarFingerprintGeo hexEjemplo entornoEjemplo1 sorteosEjemplo1
      "Miami-FL".toList).map Fingerprint.osProfile = some "mac".toList := by decide
  have o2 : (generarFingerprintGeo hexEjemplo entornoEjemplo2 sorteosEjemplo2
      "Miami-FL".toList).map Fingerprint.osProfile = some "windows".toList := by decide
  have r1 : (generarFingerprintGeo hexEjemplo entornoEjemplo1 sorteosEjemplo1
      "Miami-FL".toList).map Fingerprint.resolucionAncho = some (some 1920) := by decide
  have r2 : (generarFingerprintGeo hexEjemplo entornoEjemplo2 sorteosEjemplo2
      "Miami-FL".toList).map Fingerprint.resolucionAncho = some (some 3840) := by decide
  rw [h1] at o1 r1
  rw [h2] at o2 r2
  simp only [Option.map_some', Option.some.injEq] at o1 o2 r1 r2
  have hd : ("Miami-FL".toList, (⟨"America/New_York".toList, ⟨257617, 4⟩, ⟨-801918, 4⟩,
      ["1920x1080".toList, "2560x1440".toList, "1366x768".toList, "1680x1050".toList,
        "3840x2160".toList]⟩ : Ciudad)) ∈ CIUDADES_USA := by decide
  have hseed : semillaGeo "Miami-FL".toList ⟨"America/New_York".toList, ⟨257617, 4⟩,
      ⟨-801918, 4⟩, ["1920x1080".toList, "2560x1440".toList, "1366x768".toList,
        "1680x1050".toList, "3840x2160".toList]⟩ = "Miami-FL-25.7617--80.1918".toList := by
    decide
  have t := generarFingerprintGeo_canvas_deterministic hexEjemplo "Miami-FL".toList
    entornoEjemplo1 entornoEjemplo2 sorteosEjemplo1 sorteosEjemplo2 fp1 fp2 h1 h2
  have t3 := (t.2.2.1 _ hd).2
  rw [hseed] at t3
  have hh : hashSemilla "Miami-FL-25.7617--80.1918".toList = 2085240496 := by
    set_option maxRecDepth 100000 in decide
  exact ⟨fp1, fp2, h1, h2, o1, o2, r1, r2, t.1, t.2.1, hh, t3⟩

/-! ## The noise of a seed: theorems -/

theorem toInt32_range (x : Int) : -2147483648 ≤ toInt32 x ∧ toInt32 x < 2147483648 := by
  unfold toInt32
  omega

theorem hashPaso_eq (h : Int) (c : Nat) : hashPaso h c = toInt32 (31 * h + (c : Int)) := by
  unfold hashPaso toInt32
  omega

theorem hashSemilla_eq_hashPolinomico (s : Str) : hashSemilla s = hashPolinomico s := by
  have hf : hashPaso = fun (h : Int) (c : Nat) => toInt32 (31 * h + (c : Int)) := by
    funext h c
    exact hashPaso_eq h c
  unfold hashSemilla hashPolinomico
  rw [hf]

theorem foldl_toInt32_range (cs : List Nat) (h : Int)
    (hh : -2147483648 ≤ h ∧ h < 2147483648) :
    -2147483648 ≤ cs.foldl hashPaso h ∧ cs.foldl hashPaso h < 2147483648 := by
  induction cs generalizing h with
  | nil => exact hh
  | cons c cs ih =>
    simp only [List.foldl_cons]
    apply ih
    unfold hashPaso
    exact toInt32_range _

theorem hashSemilla_range (s : Str) :
    -2147483648 ≤ hashSemilla s ∧ hashSemilla s < 2147483648 :=
  foldl_toInt32_range (codeUnits s) 0 (by omega)

theorem codeUnits_lt (s : Str) : ∀ c ∈ codeUnits s, c < 65536 := by
  intro c hc
  unfold codeUnits at hc
  rw [List.mem_flatMap] at hc
  obtain ⟨ch, _, hch⟩ := hc
  have hv : ch.toNat < 1114112 := by
    have := ch.valid
    rcases this with h | h
    · have : ch.toNat < 55296 := h
      omega
    · exact h.2
  split at hch
  · simp only [List.mem_singleton] at hch
    omega
  · simp only [List.mem_cons, List.mem_singleton, List.not_mem_nil, or_false] at hch
    rcases hch with h | h <;> omega

theorem natAbs_tmod_10000 (h : Int) : (Int.tmod h 10000).natAbs = h.natAbs % 10000 := by
  cases h with
  | ofNat m => rfl
  | negSucc m =>
    show (-(Int.ofNat ((m + 1) % 10000))).natAbs = (m + 1) % 10000
    rw [Int.natAbs_neg]
    rfl

theorem ruidoNumerador_lt (s : Str) : ruidoNumerador s < 10000 := by
  unfold ruidoNumerador
  rw [natAbs_tmod_10000]
  exact Nat.mod_lt _ (by decide)

/-- C22. For every seed `s`, `generarRuidoConsistente(s)` is `|H(s) rem 10000| / 10000`,
where `H(s)` is the signed 32-bit wrap-around value of the hash `h <- 31 * h + c` over the
UTF-16 code units of `s` from 0; the result is a multiple of 1/10000 in [0, 1).  Up to
the last division the computation stays in the integers: every code unit is below 2^16,
the hash stays in [-2^31, 2^31), and the value before each wrap-around is below 2^53 in
size, so it is exact in a JavaScript number. -/
theorem generarRuidoConsistente_eq_spec (s : Str) :
    generarRuidoConsistente s = ruidoSegunSpec s ∧
    hashSemilla s = hashPolinomico s ∧
    (∃ k : Nat, k < 10000 ∧ generarRuidoConsistente s = (k : ℚ) / 10000) ∧
    0 ≤ generarRuidoConsistente s ∧ generarRuidoConsistente s < 1 ∧
    (∀ c ∈ codeUnits s, c < 65536) ∧
    -2147483648 ≤ hashSemilla s ∧ hashSemilla s < 2147483648 ∧
    (∀ (h : Int) (c : Nat), -2147483648 ≤ h → h < 2147483648 → c < 65536 →
      hashPaso h c = toInt32 (31 * h + (c : Int)) ∧
      -9007199254740992 < h * 32 ∧ h * 32 < 9007199254740992 ∧
      -9007199254740992 < (toInt32 (h * 32) - h) + (c : Int) ∧
      (toInt32 (h * 32) - h) + (c : Int) < 9007199254740992) := by
  have hk := ruidoNumerador_lt s
  have hq : (ruidoNumerador s : ℚ) < 10000 := by exact_mod_cast hk
  have h0 : (0 : ℚ) ≤ (ruidoNumerador s : ℚ) := by exact_mod_cast Nat.zero_le _
  refine ⟨?_, hashSemilla_eq_hashPolinomico s, ⟨ruidoNumerador s, hk, rfl⟩, ?_, ?_,
    codeUnits_lt s, (hashSemilla_range s).1, (hashSemilla_range s).2, ?_⟩
  · unfold generarRuidoConsistente ruidoSegunSpec ruidoNumerador
    rw [hashSemilla_eq_hashPolinomico]
  · unfold generarRuidoConsistente
    positivity
  · unfold generarRuidoConsistente
    rw [div_lt_one (by norm_num)]
    exact hq
  · intro h c h1 h2 hc
    have hr := toInt32_range (h * 32)
    refine ⟨hashPaso_eq h c, ?_, ?_, ?_, ?_⟩ <;> omega

/-! ## Fields of the generated fingerprints -/

theorem seleccionarPerfilOS_mem (defaultOs : Str) (preferencia : Option Str) (r : Sorteo)
    (P : OSProfile) (h : seleccionarPerfilOS defaultOs preferencia r = Hallado.propio P) :
    (P.id, P) ∈ OS_PROFILES := by
  have hk : ∀ (k : Str) (Q : OSProfile), leerClave OS_PROFILES k = Hallado.propio Q →
      (Q.id, Q) ∈ OS_PROFILES := by
    intro k Q hl
    have hm := leerClave_propio OS_PROFILES k Q hl
    have hid : ∀ e ∈ OS_PROFILES, e.1 = e.2.id := by decide
    have := hid _ hm
    simp only at this
    rw [← this]
    exact hm
  unfold seleccionarPerfilOS at h
  simp only at h
  repeat' (split at h)
  all_goals first
    | exact hk _ _ h
    | cases h

theorem seleccionarPerfilOS_windows (defaultOs : Str) (r : Sorteo) :
    ∃ P, seleccionarPerfilOS defaultOs (some "windows".toList) r = Hallado.propio P ∧
      P.id = "windows".toList := by
  have hid : ∀ e ∈ OS_PROFILES, e.1 = e.2.id := by decide
  cases hl : leerClave OS_PROFILES "windows".toList with
  | propio P =>
    refine ⟨P, ?_, ?_⟩
    · have he : ("windows".toList).isEmpty = false := by decide
      unfold seleccionarPerfilOS
      simp only [he, hl, Bool.false_eq_true, if_false]
    · have := hid _ (leerClave_propio OS_PROFILES _ P hl)
      exact this.symm
  | heredado => exact absurd hl (by decide)
  | ausente => exact absurd hl (by decide)

theorem construirPerfilIdioma_forzado (perfilSistema : Option PerfilIdioma)
    (timezone : Option Str) (preferirSistema : Bool) :
    construirPerfilIdioma perfilSistema timezone preferirSistema (some "en-US".toList) =
      Hallado.propio perfilAmerica := by
  simp [construirPerfilIdioma, split, perfilAmerica]

theorem construirPerfilIdioma_new_york (perfilSistema : Option PerfilIdioma) :
    construirPerfilIdioma perfilSistema (some "America/New_York".toList) false none =
      Hallado.propio perfilAmerica := by
  have h1 : leerClave TIMEZONE_LOCALE_MAP "America/New_York".toList = Hallado.ausente := by
    decide
  have h2 : (split '/' "America/New_York".toList).headD [] = "America".toList := by decide
  have h3 : leerClave REGION_LOCALE_FALLBACK "America".toList =
      Hallado.propio perfilAmerica := by decide
  have h4 : ("America/New_York".toList).isEmpty = false := by decide
  unfold construirPerfilIdioma
  simp only [h1, h2, h3, h4]
  rfl

theorem perfiles_no_vacios : ∀ e ∈ OS_PROFILES,
    e.2.userAgents ≠ [] ∧ e.2.hardwareConcurrency ≠ [] ∧ e.2.deviceMemory ≠ [] ∧
    e.2.webglRenderers ≠ [] ∧ e.2.webglVendor.isEmpty = false ∧
    ∀ r ∈ e.2.webglRenderers, r.isEmpty = false := by
  decide

theorem perfiles_id_inyectivo : ∀ e1 ∈ OS_PROFILES, ∀ e2 ∈ OS_PROFILES,
    e1.2.id = e2.2.id → e1.2 = e2.2 := by
  decide

/-- The fields that come from the OS profile, for values of `Math.random()` in [0, 1):
the fingerprint is coherent with the profile, and with no other profile of the catalogue. -/
theorem coherente_de_campos (P : OSProfile) (hP : (P.id, P) ∈ OS_PROFILES)
    (fp : Fingerprint) (r1 r2 r3 r4 : Sorteo) (v1 : r1.valido) (v2 : r2.valido)
    (v3 : r3.valido) (v4 : r4.valido)
    (h1 : fp.platform = P.platform) (h2 : fp.vendor = P.vendor) (h3 : fp.osProfile = P.id)
    (h4 : fp.userAgent = elementoAleatorio P.userAgents r1)
    (h5 : P.webglVendor.isEmpty = false → fp.webglVendor = P.webglVendor)
    (h6 : ∀ r, elementoAleatorio P.webglRenderers r4 = some r → r.isEmpty = false →
      fp.webglRenderer = some r)
    (h7 : fp.hardwareConcurrency = elementoAleatorio P.hardwareConcurrency r2)
    (h8 : fp.deviceMemory = elementoAleatorio P.deviceMemory r3)
    (h9 : fp.deviceScaleFactor = P.deviceScaleFactor.valor)
    (h10 : fp.maxTouchPoints = P.maxTouchPoints) :
    fp.coherenteCon P ∧
      ∀ Q, (Q.id, Q) ∈ OS_PROFILES → fp.coherenteCon Q → Q = P := by
  obtain ⟨n1, n2, n3, n4, n5, n6⟩ := perfiles_no_vacios _ hP
  simp only at n1 n2 n3 n4 n5 n6
  obtain ⟨ua, hua, hua2⟩ := elementoAleatorio_some P.userAgents r1 v1 n1
  obtain ⟨hc, hhc, hhc2⟩ := elementoAleatorio_some P.hardwareConcurrency r2 v2 n2
  obtain ⟨dm, hdm, hdm2⟩ := elementoAleatorio_some P.deviceMemory r3 v3 n3
  obtain ⟨wr, hwr, hwr2⟩ := elementoAleatorio_some P.webglRenderers r4 v4 n4
  constructor
  · exact ⟨h1, h2, h3, ⟨ua, hua, by rw [h4, hua2]⟩, h5 n5,
      ⟨wr, hwr, h6 wr hwr2 (n6 wr hwr)⟩, ⟨hc, hhc, by rw [h7, hhc2]⟩,
      ⟨dm, hdm, by rw [h8, hdm2]⟩, h9, h10⟩
  · intro Q hQ hc
    have hid : Q.id = P.id := by rw [← hc.2.2.1, h3]
    exact perfiles_id_inyectivo _ hQ _ hP hid

theorem generarFingerprintGeoCon_campos (hexadecimal : ℚ → Str) (ent : Entorno)
    (s : SorteosGeo) (ubicacion : Str) (datosCiudad : Ciudad) (fp : Fingerprint)
    (h : generarFingerprintGeoCon hexadecimal ent s ubicacion datosCiudad = some fp) :
    (∃ P, seleccionarPerfilOS ent.defaultOs none s.perfilOS = Hallado.propio P ∧
      fp.platform = P.platform ∧ fp.vendor = P.vendor ∧ fp.osProfile = P.id ∧
      fp.userAgent = elementoAleatorio P.userAgents s.userAgent ∧
      (P.webglVendor.isEmpty = false → fp.webglVendor = P.webglVendor) ∧
      (∀ r, elementoAleatorio P.webglRenderers s.webglRenderer = some r → r.isEmpty = false →
        fp.webglRenderer = some r) ∧
      fp.hardwareConcurrency = elementoAleatorio P.hardwareConcurrency s.hardwareConcurrency ∧
      fp.deviceMemory = elementoAleatorio P.deviceMemory s.deviceMemory ∧
      fp.deviceScaleFactor = P.deviceScaleFactor.valor ∧
      fp.maxTouchPoints = P.maxTouchPoints) ∧
    (∃ perfil, construirPerfilIdioma ent.perfilSistema (some datosCiudad.timezone) false
        (some "en-US".toList) = Hallado.propio perfil ∧
      fp.locale = perfil.locales ∧ fp.acceptLanguage = perfil.acceptLanguage ∧
      fp.navigatorLanguage = perfil.locales.head? ∧
      fp.extraHTTPHeadersAcceptLanguage = perfil.acceptLanguage) ∧
    fp.timezone = datosCiudad.timezone ∧ fp.modo = "geo-localizado".toList ∧
    fp.timestamp = ent.reloj := by
  unfold generarFingerprintGeoCon at h
  simp only [ite_self] at h
  repeat' (first | (cases h; done) | split at h | (simp only at h))
  all_goals
    simp only [Option.some.injEq] at h
    subst h
    refine ⟨⟨_, by assumption, rfl, rfl, rfl, rfl, ?_, ?_, rfl, rfl, rfl, rfl⟩,
      ⟨_, by assumption, rfl, rfl, rfl, rfl⟩, rfl, rfl, rfl⟩
    · intro hne
      simp_all
    · intro r hr hne
      simp_all

theorem generarFingerprintLocalTry_campos (hexadecimal : ℚ → Str) (ent : EntornoLocal)
    (s : SorteosLocal) (fp : Fingerprint)
    (h : generarFingerprintLocalTry hexadecimal ent s = some fp) :
    (∃ P, seleccionarPerfilOS ent.defaultOs none s.perfilOS = Hallado.propio P ∧
      fp.platform = P.platform ∧ fp.vendor = P.vendor ∧ fp.osProfile = P.id ∧
      fp.userAgent = elementoAleatorio P.userAgents s.userAgent ∧
      (P.webglVendor.isEmpty = false → fp.webglVendor = P.webglVendor) ∧
      (∀ r, elementoAleatorio P.webglRenderers s.webglRenderer = some r → r.isEmpty = false →
        fp.webglRenderer = some r) ∧
      fp.hardwareConcurrency = elementoAleatorio P.hardwareConcurrency s.hardwareConcurrency ∧
      fp.deviceMemory = elementoAleatorio P.deviceMemory s.deviceMemory ∧
      fp.deviceScaleFactor = P.deviceScaleFactor.valor ∧
      fp.maxTouchPoints = P.maxTouchPoints) ∧
    fp.timezone = obtenerTimezoneDesdeIP ent.descubrimiento ∧
    fp.modo = "local-ip-based".toList ∧ fp.ciudad = "Local (IP-based)".toList ∧
    fp.canvasHash = generarCanvasHash hexadecimal
      ("local-".toList ++ obtenerTimezoneDesdeIP ent.descubrimiento ++ "-".toList ++
        intToStr ent.relojSemilla) ∧
    fp.canvasNoise = generarRuidoConsistente
      ("local-".toList ++ obtenerTimezoneDesdeIP ent.descubrimiento ++ "-".toList ++
        intToStr ent.relojSemilla) := by
  unfold generarFingerprintLocalTry at h
  repeat' (first | (cases h; done) | split at h | (simp only at h))
  all_goals
    simp only [Option.some.injEq] at h
    subst h
    refine ⟨⟨_, by assumption, rfl, rfl, rfl, rfl, ?_, ?_, rfl, rfl, rfl, rfl⟩,
      rfl, rfl, rfl, rfl, rfl⟩
    · intro hne
      simp_all
    · intro r hr hne
      simp_all

theorem generarFingerprintLocalCatch_campos (hexadecimal : ℚ → Str) (ent : EntornoLocal)
    (s : SorteosLocal) (fp : Fingerprint)
    (h : generarFingerprintLocalCatch hexadecimal ent s = some fp) :
    (∃ P, seleccionarPerfilOS ent.defaultOs (some "windows".toList) s.perfilOS =
        Hallado.propio P ∧
      fp.platform = P.platform ∧ fp.vendor = P.vendor ∧ fp.osProfile = P.id ∧
      fp.userAgent = elementoAleatorio P.userAgents s.userAgentFallback ∧
      (P.webglVendor.isEmpty = false → fp.webglVendor = P.webglVendor) ∧
      (∀ r, elementoAleatorio P.webglRenderers s.webglRendererFallback = some r →
        r.isEmpty = false → fp.webglRenderer = some r) ∧
      fp.hardwareConcurrency =
        elementoAleatorio P.hardwareConcurrency s.hardwareConcurrencyFallback ∧
      fp.deviceMemory = elementoAleatorio P.deviceMemory s.deviceMemoryFallback ∧
      fp.deviceScaleFactor = P.deviceScaleFactor.valor ∧
      fp.maxTouchPoints = P.maxTouchPoints) ∧
    fp.timezone = "America/New_York".toList ∧
    fp.modo = "local-fallback".toList ∧ fp.ciudad = "Local (Fallback)".toList := by
  unfold generarFingerprintLocalCatch at h
  repeat' (first | (cases h; done) | split at h | (simp only at h))
  all_goals
    simp only [Option.some.injEq] at h
    subst h
    refine ⟨⟨_, by assumption, rfl, rfl, rfl, rfl, ?_, ?_, rfl, rfl, rfl, rfl⟩,
      rfl, rfl, rfl⟩
    · intro hne
      simp_all
    · intro r hr hne
      simp_all

/-- The `catch` block returns a fingerprint, whatever the inputs. -/
theorem generarFingerprintLocalCatch_returns (hexadecimal : ℚ → Str) (ent : EntornoLocal)
    (s : SorteosLocal) : ∃ fp, generarFingerprintLocalCatch hexadecimal ent s = some fp := by
  obtain ⟨P, hP, _⟩ := seleccionarPerfilOS_windows ent.defaultOs s.perfilOS
  have hwv : P.webglVendor.isEmpty = false :=
    (perfiles_no_vacios _ (seleccionarPerfilOS_mem _ _ _ P hP)).2.2.2.2.1
  unfold generarFingerprintLocalCatch
  rw [hP]
  simp only [construirPerfilIdioma_new_york, hwv]
  exact ⟨_, rfl⟩

/-- The `try` block returns a fingerprint when the values of `Math.random()` are in
[0, 1), the default profile name is not a member of `Object.prototype`, and the language
profile found is an entry of a table or the profile of the system. -/
theorem generarFingerprintLocalTry_returns (hexadecimal : ℚ → Str) (ent : EntornoLocal)
    (s : SorteosLocal) (hs : s.validos) (he : ent.defaultOs ∉ clavesHeredadas)
    (perfil : PerfilIdioma)
    (hp : construirPerfilIdioma ent.perfilSistema
      (some (obtenerTimezoneDesdeIP ent.descubrimiento)) true none = Hallado.propio perfil) :
    ∃ fp, generarFingerprintLocalTry hexadecimal ent s = some fp := by
  obtain ⟨hs1, _, _, _, hs5, _⟩ := hs
  obtain ⟨P, hP, hPm⟩ := seleccionarPerfilOS_propio ent.defaultOs s.perfilOS hs1 he
  have hwv : P.webglVendor.isEmpty = false := (perfiles_no_vacios _ hPm).2.2.2.2.1
  obtain ⟨res, _, hres⟩ := elementoAleatorio_some
    ["1920x1080".toList, "2560x1440".toList, "1366x768".toList, "1680x1050".toList,
      "1440x900".toList] s.resolucion hs5 (by simp)
  unfold generarFingerprintLocalTry
  rw [hP]
  simp only [hres, hp, hwv]
  exact ⟨_, rfl⟩

/-- The function `generarFingerprintLocal` returns a fingerprint, whatever the inputs. -/
theorem generarFingerprintLocal_returns (hexadecimal : ℚ → Str) (ent : EntornoLocal)
    (s : SorteosLocal) : ∃ fp, generarFingerprintLocal hexadecimal ent s = some fp := by
  unfold generarFingerprintLocal
  cases ht : generarFingerprintLocalTry hexadecimal ent s with
  | some fp => exact ⟨fp, rfl⟩
  | none => exact generarFingerprintLocalCatch_returns hexadecimal ent s

/-! ## The canvas hash -/

/-- The hash is the text of the number four times over, cut at 64 characters. -/
theorem generarCanvasHash_length (hexadecimal : ℚ → Str) (semilla : Str) :
    (generarCanvasHash hexadecimal semilla).length =
      min 64 (4 * (hexadecimal (generarRuidoConsistente semilla * 0xFFFFFFFFFFFFFFFF)).length) := by
  unfold generarCanvasHash
  simp only [List.length_take, List.length_append]
  omega

/-- For a seed of noise 0 the hash is `'0000'`. -/
theorem generarCanvasHash_ruido_cero (resto : ℚ → Str) (semilla : Str)
    (hk : ruidoNumerador semilla = 0) :
    generarCanvasHash (toStringHex resto) semilla = "0000".toList := by
  unfold generarCanvasHash generarRuidoConsistente
  rw [hk]
  simp [toStringHex]

/-- C21, failing input. The noise of the empty seed is 0, the number formatted is 0, its
text is `'0'`, and `generarCanvasHash('')` is `'0000'`: 4 characters, not 64.  The same
holds for the seed `'local-America/New_York-1767225606219'` (hash value 463510000), which
`generarFingerprintLocal` builds when the first source answers `America/New_York` and the
clock reads 1767225606219: the fingerprint returned has the canvas hash `'0000'`. -/
theorem generarCanvasHash_zero_noise (resto : ℚ → Str) :
    generarRuidoConsistente [] = 0 ∧
    generarCanvasHash (toStringHex resto) [] = "0000".toList ∧
    (generarCanvasHash (toStringHex resto) []).length = 4 ∧
    hashSemilla "local-America/New_York-1767225606219".toList = 463510000 ∧
    generarCanvasHash (toStringHex resto) "local-America/New_York-1767225606219".toList =
      "0000".toList ∧
    (generarFingerprintLocal (toStringHex resto) entornoLocalCero sorteosLocalEjemplo).map
      Fingerprint.canvasHash = some "0000".toList := by
  have hh : hashSemilla "local-America/New_York-1767225606219".toList = 463510000 := by
    set_option maxRecDepth 100000 in decide
  have hk : ruidoNumerador "local-America/New_York-1767225606219".toList = 0 := by
    unfold ruidoNumerador
    rw [hh]
    decide
  have h0 : ruidoNumerador [] = 0 := by decide
  have hc := generarCanvasHash_ruido_cero resto _ hk
  refine ⟨?_, generarCanvasHash_ruido_cero resto [] h0, ?_, hh, hc, ?_⟩
  · unfold generarRuidoConsistente
    rw [h0]
    simp
  · rw [generarCanvasHash_ruido_cero resto [] h0]
    rfl
  · obtain ⟨fp, hfp⟩ := generarFingerprintLocalTry_returns (toStringHex resto)
      entornoLocalCero sorteosLocalEjemplo (by decide) (by decide) perfilAmerica (by decide)
    have hcam := generarFingerprintLocalTry_campos _ _ _ fp hfp
    have hseed : "local-".toList ++ obtenerTimezoneDesdeIP entornoLocalCero.descubrimiento ++
        "-".toList ++ intToStr entornoLocalCero.relojSemilla =
        "local-America/New_York-1767225606219".toList := by decide
    rw [hseed, hc] at hcam
    unfold generarFingerprintLocal
    rw [hfp]
    simp only [Option.map_some', Option.some.injEq]
    exact hcam.2.2.2.2.1

/-- C22, on the seed of `'Miami-FL'`: the hash of the specification is 2085240496 and the
noise 496/10000. -/
theorem generarRuidoConsistente_eq_spec_witness :
    generarRuidoConsistente "Miami-FL-25.7617--80.1918".toList =
      ruidoSegunSpec "Miami-FL-25.7617--80.1918".toList ∧
    hashPolinomico "Miami-FL-25.7617--80.1918".toList = 2085240496 ∧
    hashPaso 2147483647 65535 = toInt32 (31 * 2147483647 + 65535) :=
  ⟨(generarRuidoConsistente_eq_spec "Miami-FL-25.7617--80.1918".toList).1,
    by set_option maxRecDepth 100000 in decide,
    ((generarRuidoConsistente_eq_spec []).2.2.2.2.2.2.2.2 2147483647 65535
      (by decide) (by decide) (by decide)).1⟩

/-! ## Coherence with one OS profile -/

theorem generarFingerprintGeo_coherente (hexadecimal : ℚ → Str) (ent : Entorno)
    (s : SorteosGeo) (ubicacion : Str) (fp : Fingerprint) (hs : s.validos)
    (h : generarFingerprintGeo hexadecimal ent s ubicacion = some fp) :
    ∃ P, (P.id, P) ∈ OS_PROFILES ∧ fp.coherenteCon P ∧
      ∀ Q, (Q.id, Q) ∈ OS_PROFILES → fp.coherenteCon Q → Q = P := by
  obtain ⟨_, v2, v3, v4, _, _, _, _, _, v10⟩ := hs
  have hcon : ∀ u d, generarFingerprintGeoCon hexadecimal ent s u d = some fp →
      ∃ P, (P.id, P) ∈ OS_PROFILES ∧ fp.coherenteCon P ∧
        ∀ Q, (Q.id, Q) ∈ OS_PROFILES → fp.coherenteCon Q → Q = P := by
    intro u d hc
    obtain ⟨⟨P, hP, h1, h2, h3, h4, h5, h6, h7, h8, h9, h10⟩, _⟩ :=
      generarFingerprintGeoCon_campos hexadecimal ent s u d fp hc
    have hPm := seleccionarPerfilOS_mem _ _ _ P hP
    exact ⟨P, hPm, coherente_de_campos P hPm fp _ _ _ _ v2 v3 v4 v10
      h1 h2 h3 h4 h5 h6 h7 h8 h9 h10⟩
  unfold generarFingerprintGeo at h
  repeat' (first | contradiction | split at h)
  all_goals exact hcon _ _ h

theorem generarFingerprintLocal_coherente (hexadecimal : ℚ → Str) (ent : EntornoLocal)
    (s : SorteosLocal) (fp : Fingerprint) (hs : s.validos)
    (h : generarFingerprintLocal hexadecimal ent s = some fp) :
    ∃ P, (P.id, P) ∈ OS_PROFILES ∧ fp.coherenteCon P ∧
      ∀ Q, (Q.id, Q) ∈ OS_PROFILES → fp.coherenteCon Q → Q = P := by
  obtain ⟨_, v2, v3, v4, _, _, _, _, _, v10, v11, v12, v13, v14⟩ := hs
  unfold generarFingerprintLocal at h
  cases ht : generarFingerprintLocalTry hexadecimal ent s with
  | some fp2 =>
    rw [ht] at h
    simp only [Option.some.injEq] at h
    subst h
    obtain ⟨⟨P, hP, h1, h2, h3, h4, h5, h6, h7, h8, h9, h10⟩, _⟩ :=
      generarFingerprintLocalTry_campos hexadecimal ent s fp2 ht
    have hPm := seleccionarPerfilOS_mem _ _ _ P hP
    exact ⟨P, hPm, coherente_de_campos P hPm fp2 _ _ _ _ v2 v3 v4 v10
      h1 h2 h3 h4 h5 h6 h7 h8 h9 h10⟩
  | none =>
    rw [ht] at h
    simp only at h
    obtain ⟨⟨P, hP, h1, h2, h3, h4, h5, h6, h7, h8, h9, h10⟩, _⟩ :=
      generarFingerprintLocalCatch_campos hexadecimal ent s fp h
    have hPm := seleccionarPerfilOS_mem _ _ _ P hP
    exact ⟨P, hPm, coherente_de_campos P hPm fp _ _ _ _ v11 v12 v13 v14
      h1 h2 h3 h4 h5 h6 h7 h8 h9 h10⟩

theorem coherente_windows_no_apple (fp : Fingerprint) (P : OSProfile)
    (hP : (P.id, P) ∈ OS_PROFILES) (hc : fp.coherenteCon P)
    (hua : fp.userAgent = some userAgentWindows) : fp.webglVendor ≠ "Apple Inc.".toList := by
  obtain ⟨_, _, _, ⟨ua, hmem, hua2⟩, hwv, _⟩ := hc
  rw [hua] at hua2
  simp only [Option.some.injEq] at hua2
  subst hua2
  rw [hwv]
  have : ∀ e ∈ OS_PROFILES, userAgentWindows ∈ e.2.userAgents →
      e.2.webglVendor ≠ "Apple Inc.".toList := by decide
  exact this _ hP hmem

/-- C23. Every fingerprint returned by `generarFingerprintGeo` or by
`generarFingerprintLocal` (its `catch` branch included), the values of `Math.random()`
being in [0, 1), is coherent with exactly one profile `P` of `OS_PROFILES`: platform,
vendor, profile id, WebGL vendor, scale factor and touch points are those of `P`, and the
user agent, the WebGL renderer, the hardware concurrency and the device memory are entries
of the lists of `P`; so the Windows user agent never comes with the WebGL vendor of
macOS. -/
theorem fingerprint_coherent_with_one_profile (hexadecimal : ℚ → Str) :
    (∀ (ent : Entorno) (s : SorteosGeo) (ubicacion : Str) (fp : Fingerprint),
      s.validos → generarFingerprintGeo hexadecimal ent s ubicacion = some fp →
      (∃ P, (P.id, P) ∈ OS_PROFILES ∧ fp.coherenteCon P ∧
        ∀ Q, (Q.id, Q) ∈ OS_PROFILES → fp.coherenteCon Q → Q = P) ∧
      (fp.userAgent = some userAgentWindows → fp.webglVendor ≠ "Apple Inc.".toList)) ∧
    (∀ (ent : EntornoLocal) (s : SorteosLocal) (fp : Fingerprint),
      s.validos → generarFingerprintLocal hexadecimal ent s = some fp →
      (∃ P, (P.id, P) ∈ OS_PROFILES ∧ fp.coherenteCon P ∧
        ∀ Q, (Q.id, Q) ∈ OS_PROFILES → fp.coherenteCon Q → Q = P) ∧
      (fp.userAgent = some userAgentWindows → fp.webglVendor ≠ "Apple Inc.".toList)) ∧
    (∀ (ent : EntornoLocal) (s : SorteosLocal),
      ∃ fp, generarFingerprintLocal hexadecimal ent s = some fp) := by
  refine ⟨?_, ?_, generarFingerprintLocal_returns hexadecimal⟩
  · intro ent s ubicacion fp hs h
    have hc := generarFingerprintGeo_coherente hexadecimal ent s ubicacion fp hs h
    refine ⟨hc, ?_⟩
    obtain ⟨P, hP, hcon, _⟩ := hc
    exact coherente_windows_no_apple fp P hP hcon
  · intro ent s fp hs h
    have hc := generarFingerprintLocal_coherente hexadecimal ent s fp hs h
    refine ⟨hc, ?_⟩
    obtain ⟨P, hP, hcon, _⟩ := hc
    exact coherente_windows_no_apple fp P hP hcon

/-- C23, on a run of `generarFingerprintGeo` for `'Miami-FL'` with `FINGERPRINT_OS=windows`
and on a run of `generarFingerprintLocal`: each returns a fingerprint that is coherent with
a profile of the catalogue, the first with the profile `windows`. -/
theorem fingerprint_coherent_with_one_profile_witness :
    (∃ fp P, generarFingerprintGeo hexEjemplo entornoEjemplo2 sorteosEjemplo2
        "Miami-FL".toList = some fp ∧ (P.id, P) ∈ OS_PROFILES ∧ fp.coherenteCon P ∧
        fp.osProfile = "windows".toList) ∧
    (∃ fp P, generarFingerprintLocal hexEjemplo entornoLocalCero sorteosLocalEjemplo =
        some fp ∧ (P.id, P) ∈ OS_PROFILES ∧ fp.coherenteCon P) := by
  have e1 : (generarFingerprintGeo hexEjemplo entornoEjemplo2 sorteosEjemplo2
      "Miami-FL".toList).isSome = true := by decide
  obtain ⟨fp1, h1⟩ := Option.isSome_iff_exists.1 e1
  have o1 : (generarFingerprintGeo hexEjemplo entornoEjemplo2 sorteosEjemplo2
      "Miami-FL".toList).map Fingerprint.osProfile = some "windows".toList := by decide
  rw [h1] at o1
  simp only [Option.map_some', Option.some.injEq] at o1
  obtain ⟨fp2, h2⟩ := (fingerprint_coherent_with_one_profile hexEjemplo).2.2
    entornoLocalCero sorteosLocalEjemplo
  obtain ⟨⟨P1, hP1, hc1, _⟩, _⟩ := (fingerprint_coherent_with_one_profile hexEjemplo).1
    entornoEjemplo2 sorteosEjemplo2 "Miami-FL".toList fp1 (by decide) h1
  obtain ⟨⟨P2, hP2, hc2, _⟩, _⟩ := (fingerprint_coherent_with_one_profile hexEjemplo).2.1
    entornoLocalCero sorteosLocalEjemplo fp2 (by decide) h2
  exact ⟨⟨fp1, P1, h1, hP1, hc1, o1⟩, ⟨fp2, P2, h2, hP2, hc2⟩⟩

/-! ## Timezone and language of a geo fingerprint -/

theorem CIUDADES_USA_timezone : ∀ e ∈ CIUDADES_USA,
    e.2.timezone = "America/New_York".toList := by
  decide

/-- C24. For every anchor of `CIUDADES_USA`, the fingerprint returned by
`generarFingerprintGeo` has the timezone of the anchor, and its locale list and
Accept-Language value are those that `construirPerfilIdioma` resolves from that timezone
alone: the timezone has no entry in `TIMEZONE_LOCALE_MAP` and the profile is the entry of
`REGION_LOCALE_FALLBACK` for the text before its `/`.  The Accept-Language header is
`acceptLanguage` and `navigatorLanguage` is the first locale. -/
theorem generarFingerprintGeo_timezone_locale (hexadecimal : ℚ → Str) (ent : Entorno)
    (s : SorteosGeo) (ubicacion : Str) (datos : Ciudad) (fp : Fingerprint)
    (ha : (ubicacion, datos) ∈ CIUDADES_USA)
    (h : generarFingerprintGeo hexadecimal ent s ubicacion = some fp) :
    fp.timezone = datos.timezone ∧
    construirPerfilIdioma ent.perfilSistema (some datos.timezone) false none =
      Hallado.propio ⟨fp.locale, fp.acceptLanguage⟩ ∧
    leerClave TIMEZONE_LOCALE_MAP datos.timezone = Hallado.ausente ∧
    leerClave REGION_LOCALE_FALLBACK ((split '/' datos.timezone).headD []) =
      Hallado.propio ⟨fp.locale, fp.acceptLanguage⟩ ∧
    fp.extraHTTPHeadersAcceptLanguage = fp.acceptLanguage ∧
    fp.navigatorLanguage = fp.locale.head? ∧
    fp.locale = ["en-US".toList, "en".toList] ∧
    fp.acceptLanguage = "en-US,en;q=0.9".toList := by
  have hl := leerClave_of_mem CIUDADES_USA CIUDADES_USA_nodup ubicacion datos ha
  have htz : datos.timezone = "America/New_York".toList := CIUDADES_USA_timezone _ ha
  unfold generarFingerprintGeo at h
  rw [hl] at h
  simp only at h
  obtain ⟨_, ⟨perfil, hp, h1, h2, h3, h4⟩, h5, _⟩ :=
    generarFingerprintGeoCon_campos hexadecimal ent s ubicacion datos fp h
  rw [construirPerfilIdioma_forzado] at hp
  simp only [Hallado.propio.injEq] at hp
  subst hp
  have e1 : (⟨fp.locale, fp.acceptLanguage⟩ : PerfilIdioma) = perfilAmerica := by
    rw [h1, h2]
  refine ⟨h5, ?_, ?_, ?_, by rw [h4, h2], by rw [h3, h1], h1, h2⟩
  · rw [htz, construirPerfilIdioma_new_york, e1]
  · rw [htz]
    decide
  · rw [htz, e1]
    decide

/-- C24, on a run for `'Miami-FL'`. -/
theorem generarFingerprintGeo_timezone_locale_witness :
    ∃ fp, generarFingerprintGeo hexEjemplo entornoEjemplo1 sorteosEjemplo1 "Miami-FL".toList =
        some fp ∧
      fp.timezone = "America/New_York".toList ∧
      fp.locale = ["en-US".toList, "en".toList] ∧
      fp.acceptLanguage = "en-US,en;q=0.9".toList ∧
      fp.navigatorLanguage = some "en-US".toList := by
  have e1 : (generarFingerprintGeo hexEjemplo entornoEjemplo1 sorteosEjemplo1
      "Miami-FL".toList).isSome = true := by decide
  obtain ⟨fp, h⟩ := Option.isSome_iff_exists.1 e1
  have t := generarFingerprintGeo_timezone_locale hexEjemplo entornoEjemplo1 sorteosEjemplo1
    "Miami-FL".toList
    ⟨"America/New_York".toList, ⟨257617, 4⟩, ⟨-801918, 4⟩,
      ["1920x1080".toList, "2560x1440".toList, "1366x768".toList, "1680x1050".toList,
        "3840x2160".toList]⟩ fp (by decide) h
  refine ⟨fp, h, t.1, t.2.2.2.2.2.2.1, t.2.2.2.2.2.2.2, ?_⟩
  rw [t.2.2.2.2.2.1, t.2.2.2.2.2.2.1]
  rfl

/-! ## The language profile -/

theorem split_headD (c : Char) (s : Str) :
    (split c s).headD [] = s.takeWhile (fun x => x ≠ c) := by
  induction s with
  | nil => rfl
  | cons d ds ih =>
    unfold split
    by_cases h : d = c
    · simp [h]
    · simp only [h, if_false]
      cases hs : split c ds with
      | nil => exact absurd hs (split_ne_nil c ds)
      | cons p ps =>
        simp only [hs, List.headD_cons] at ih ⊢
        simp [h, ih]

theorem tablas_idioma_no_vacias :
    (∀ e ∈ TIMEZONE_LOCALE_MAP, e.2.locales ≠ [] ∧ e.2.acceptLanguage ≠ []) ∧
    (∀ e ∈ REGION_LOCALE_FALLBACK, e.2.locales ≠ [] ∧ e.2.acceptLanguage ≠ []) := by
  decide

/-- The branch of `construirPerfilIdioma` that looks at the timezone only. -/
theorem construirPerfilIdioma_timezone (ps : Option PerfilIdioma) (tz : Option Str)
    (pref : Bool) (f : Option Str) (hf : f = none ∨ f = some [])
    (hs : pref = false ∨ ps = none) :
    ((tz = none ∨ tz = some []) →
      construirPerfilIdioma ps tz pref f = Hallado.propio perfilAmerica) ∧
    (∀ t, tz = some t → t ≠ [] →
      (∀ p, leerClave TIMEZONE_LOCALE_MAP t = Hallado.propio p →
        construirPerfilIdioma ps tz pref f = Hallado.propio p) ∧
      (leerClave TIMEZONE_LOCALE_MAP t = Hallado.heredado →
        construirPerfilIdioma ps tz pref f = Hallado.heredado) ∧
      (leerClave TIMEZONE_LOCALE_MAP t = Hallado.ausente →
        (∀ p, leerClave REGION_LOCALE_FALLBACK ((split '/' t).headD []) = Hallado.propio p →
          construirPerfilIdioma ps tz pref f = Hallado.propio p) ∧
        (leerClave REGION_LOCALE_FALLBACK ((split '/' t).headD []) = Hallado.heredado →
          construirPerfilIdioma ps tz pref f = Hallado.heredado) ∧
        (leerClave REGION_LOCALE_FALLBACK ((split '/' t).headD []) = Hallado.ausente →
          construirPerfilIdioma ps tz pref f = Hallado.propio perfilAmerica))) := by
  have ham : leerClave REGION_LOCALE_FALLBACK "America".toList =
      Hallado.propio perfilAmerica := by decide
  refine ⟨?_, ?_⟩
  · intro htz
    unfold construirPerfilIdioma
    rcases hf with hf | hf <;> rcases hs with hs | hs <;> rcases htz with htz | htz <;>
      subst hf <;> subst hs <;> subst htz <;> simp only [ham] <;> simp
  · intro t htz hne
    have hemp : t.isEmpty = false := by
      cases t with
      | nil => exact absurd rfl hne
      | cons _ _ => rfl
    subst htz
    refine ⟨?_, ?_, ?_⟩
    · intro p hp
      unfold construirPerfilIdioma
      rcases hf with hf | hf <;> rcases hs with hs | hs <;>
        subst hf <;> subst hs <;> simp only [ham, hemp, hp] <;> simp
    · intro hp
      unfold construirPerfilIdioma
      rcases hf with hf | hf <;> rcases hs with hs | hs <;>
        subst hf <;> subst hs <;> simp only [ham, hemp, hp] <;> simp
    · intro hp
      refine ⟨?_, ?_, ?_⟩
      · intro p hr
        unfold construirPerfilIdioma
        rcases hf with hf | hf <;> rcases hs with hs | hs <;>
          subst hf <;> subst hs <;> simp only [ham, hemp, hp, hr] <;> simp
      · intro hr
        unfold construirPerfilIdioma
        rcases hf with hf | hf <;> rcases hs with hs | hs <;>
          subst hf <;> subst hs <;> simp only [ham, hemp, hp, hr] <;> simp
      · intro hr
        unfold construirPerfilIdioma
        rcases hf with hf | hf <;> rcases hs with hs | hs <;>
          subst hf <;> subst hs <;> simp only [ham, hemp, hp, hr] <;> simp

/-- The first two steps of `construirPerfilIdioma`: a forced locale, then the locale of the
system when it is preferred and known. -/
theorem construirPerfilIdioma_forzar_sistema (ps : Option PerfilIdioma) (tz : Option Str)
    (pref : Bool) :
    (∀ idioma, idioma ≠ [] →
      construirPerfilIdioma ps tz pref (some idioma) =
        Hallado.propio ⟨[idioma, idioma.takeWhile (fun x => x ≠ '-')],
          idioma ++ ",".toList ++ idioma.takeWhile (fun x => x ≠ '-') ++ ";q=0.9".toList⟩) ∧
    (∀ f p, f = none ∨ f = some [] → ps = some p →
      construirPerfilIdioma (some p) tz true f = Hallado.propio p) := by
  refine ⟨?_, ?_⟩
  · intro idioma hne
    have hemp : idioma.isEmpty = false := by
      cases idioma with
      | nil => exact absurd rfl hne
      | cons _ _ => rfl
    unfold construirPerfilIdioma
    simp only [hemp, split_headD]
    rfl
  · intro f p hf _
    unfold construirPerfilIdioma
    rcases hf with hf | hf <;> subst hf <;> simp

/-- C25, failing input. For the timezone `'constructor'` (no forced locale, system locale
not preferred or not known) the lookup `TIMEZONE_LOCALE_MAP[timezone]` finds the member
`constructor` inherited from `Object.prototype`, which is truthy, and
`construirPerfilIdioma` returns it: a function, not a profile, without `locales` and
without `acceptLanguage`.  The same happens in the regional table for the timezone
`'toString/Lima'`, whose text before the `/` is `'toString'`. -/
theorem construirPerfilIdioma_inherited_key (ps : Option PerfilIdioma) :
    construirPerfilIdioma ps (some "constructor".toList) false none = Hallado.heredado ∧
    construirPerfilIdioma none (some "constructor".toList) true none = Hallado.heredado ∧
    construirPerfilIdioma ps (some "toString/Lima".toList) false none = Hallado.heredado ∧
    construirPerfilIdioma none (some (obtenerTimezoneDesdeIP entornoLocalHeredado.descubrimiento))
      true none = Hallado.heredado := by
  have h1 := (construirPerfilIdioma_timezone ps (some "constructor".toList) false none
    (Or.inl rfl) (Or.inl rfl)).2 "constructor".toList rfl (by decide)
  have h2 := (construirPerfilIdioma_timezone ps (some "toString/Lima".toList) false none
    (Or.inl rfl) (Or.inl rfl)).2 "toString/Lima".toList rfl (by decide)
  exact ⟨h1.2.1 (by decide), by decide, (h2.2.2 (by decide)).2.1 (by decide), by decide⟩

/-- Every input other than a timezone that names a member of `Object.prototype` (itself or
its text before the `/`) gives a profile with a non-empty locale list and a non-empty
`acceptLanguage`, the profile of the system being such a profile. -/
theorem construirPerfilIdioma_perfil (ps : Option PerfilIdioma) (tz : Option Str)
    (pref : Bool) (f : Option Str)
    (hsis : ∀ q, ps = some q → q.locales ≠ [] ∧ q.acceptLanguage ≠ [])
    (htz : ∀ t, tz = some t → t ∉ clavesHeredadas ∧
      (split '/' t).headD [] ∉ clavesHeredadas) :
    ∃ p, construirPerfilIdioma ps tz pref f = Hallado.propio p ∧ p.locales ≠ [] ∧
      p.acceptLanguage ≠ [] := by
  have ham : perfilAmerica.locales ≠ [] ∧ perfilAmerica.acceptLanguage ≠ [] := by decide
  have hforz : ∀ idioma, idioma ≠ [] → ∃ p,
      construirPerfilIdioma ps tz pref (some idioma) = Hallado.propio p ∧ p.locales ≠ [] ∧
        p.acceptLanguage ≠ [] := by
    intro idioma hne
    refine ⟨_, (construirPerfilIdioma_forzar_sistema ps tz pref).1 idioma hne, by simp, ?_⟩
    cases idioma with
    | nil => exact absurd rfl hne
    | cons c cs => simp
  have hresto : (f = none ∨ f = some []) → ∃ p,
      construirPerfilIdioma ps tz pref f = Hallado.propio p ∧ p.locales ≠ [] ∧
        p.acceptLanguage ≠ [] := by
    intro hf
    by_cases hs : pref = false ∨ ps = none
    · cases tz with
      | none =>
        exact ⟨_, (construirPerfilIdioma_timezone ps none pref f hf hs).1 (Or.inl rfl), ham⟩
      | some t =>
        have ht := construirPerfilIdioma_timezone ps (some t) pref f hf hs
        by_cases hne : t = []
        · exact ⟨_, ht.1 (Or.inr (by rw [hne])), ham⟩
        · obtain ⟨h1, h2, h3⟩ := ht.2 t rfl hne
          obtain ⟨hk1, hk2⟩ := htz t rfl
          cases hl : leerClave TIMEZONE_LOCALE_MAP t with
          | propio p =>
            exact ⟨p, h1 p hl, tablas_idioma_no_vacias.1 _ (leerClave_propio _ _ _ hl)⟩
          | heredado => exact absurd (leerClave_heredado _ _ hl) hk1
          | ausente =>
            obtain ⟨r1, r2, r3⟩ := h3 hl
            cases hr : leerClave REGION_LOCALE_FALLBACK ((split '/' t).headD []) with
            | propio p =>
              exact ⟨p, r1 p hr, tablas_idioma_no_vacias.2 _ (leerClave_propio _ _ _ hr)⟩
            | heredado => exact absurd (leerClave_heredado _ _ hr) hk2
            | ausente => exact ⟨_, r3 hr, ham⟩
    · have hp : pref = true := by
        cases pref with
        | true => rfl
        | false => exact absurd (Or.inl rfl) hs
      cases hps : ps with
      | none => exact absurd (Or.inr hps) hs
      | some q =>
        subst hp
        exact ⟨q, (construirPerfilIdioma_forzar_sistema (some q) tz true).2 f q hf rfl,
          hsis q hps⟩
  cases f with
  | none => exact hresto (Or.inl rfl)
  | some idioma =>
    by_cases hne : idioma = []
    · exact hresto (Or.inr (by rw [hne]))
    · exact hforz idioma hne

/-! ## The local fingerprint when the discovery of the time zone fails -/

theorem generarFingerprintLocalTry_idioma (hexadecimal : ℚ → Str) (ent : EntornoLocal)
    (s : SorteosLocal) (fp : Fingerprint)
    (h : generarFingerprintLocalTry hexadecimal ent s = some fp) :
    ∃ perfil, construirPerfilIdioma ent.perfilSistema
        (some (obtenerTimezoneDesdeIP ent.descubrimiento)) true none =
        Hallado.propio perfil ∧
      fp.locale = perfil.locales ∧ fp.acceptLanguage = perfil.acceptLanguage := by
  unfold generarFingerprintLocalTry at h
  repeat' (first | (cases h; done) | split at h | (simp only at h))
  all_goals
    simp only [Option.some.injEq] at h
    subst h
    exact ⟨_, by assumption, rfl, rfl⟩

theorem obtenerTimezoneDesdeIP_agotado (d : Descubrimiento) (h1 : timezoneIpapi d = none)
    (h2 : timezoneWorldtimeapi d = none) (h3 : timezoneIntl d = none) :
    obtenerTimezoneDesdeIP d = "America/New_York".toList := by
  unfold obtenerTimezoneDesdeIP
  rw [h1, h2, h3]

/-- When the three sources fail (and the values of `Math.random()` are in [0, 1), the
default profile name not a member of `Object.prototype`), `generarFingerprintLocal` returns
a fingerprint with the timezone `'America/New_York'` and the marker `'local-ip-based'` of
the `try` block. -/
theorem generarFingerprintLocal_agotado (hexadecimal : ℚ → Str) (ent : EntornoLocal)
    (s : SorteosLocal) (hs : s.validos) (he : ent.defaultOs ∉ clavesHeredadas)
    (h1 : timezoneIpapi ent.descubrimiento = none)
    (h2 : timezoneWorldtimeapi ent.descubrimiento = none)
    (h3 : timezoneIntl ent.descubrimiento = none) :
    ∃ fp, generarFingerprintLocal hexadecimal ent s = some fp ∧
      fp.timezone = "America/New_York".toList ∧ fp.modo = "local-ip-based".toList ∧
      fp.ciudad = "Local (IP-based)".toList := by
  have htz := obtenerTimezoneDesdeIP_agotado ent.descubrimiento h1 h2 h3
  have hp : ∃ perfil, construirPerfilIdioma ent.perfilSistema
      (some (obtenerTimezoneDesdeIP ent.descubrimiento)) true none =
      Hallado.propio perfil := by
    rw [htz]
    cases hps : ent.perfilSistema with
    | some q => exact ⟨q, (construirPerfilIdioma_forzar_sistema (some q) _ true).2 none q
        (Or.inl rfl) rfl⟩
    | none =>
      have ht := (construirPerfilIdioma_timezone none (some "America/New_York".toList) true
        none (Or.inl rfl) (Or.inr rfl)).2 "America/New_York".toList rfl (by decide)
      exact ⟨_, (ht.2.2 (by decide)).1 perfilAmerica (by decide)⟩
  obtain ⟨perfil, hperfil⟩ := hp
  obtain ⟨fp, hfp⟩ := generarFingerprintLocalTry_returns hexadecimal ent s hs he perfil hperfil
  obtain ⟨_, t1, t2, t3, _⟩ := generarFingerprintLocalTry_campos hexadecimal ent s fp hfp
  refine ⟨fp, ?_, ?_, t2, t3⟩
  · unfold generarFingerprintLocal
    rw [hfp]
  · rw [t1, htz]

/-- C26, failing input. The three sources of the time zone fail: `generarFingerprintLocal`
returns a fingerprint with the timezone `'America/New_York'`, and its marker `modo` is
`'local-ip-based'`, the marker of a run whose first source answered.  The other marker,
`'local-fallback'`, is that of the `catch` block, which runs when the `try` block throws,
as it does when the first source answers `constructor`. -/
theorem generarFingerprintLocal_exhausted_marker (hexadecimal : ℚ → Str) :
    timezoneIpapi entornoLocalAgotado.descubrimiento = none ∧
    timezoneWorldtimeapi entornoLocalAgotado.descubrimiento = none ∧
    timezoneIntl entornoLocalAgotado.descubrimiento = none ∧
    (generarFingerprintLocal hexadecimal entornoLocalAgotado sorteosLocalEjemplo).map
      Fingerprint.timezone = some "America/New_York".toList ∧
    (generarFingerprintLocal hexadecimal entornoLocalAgotado sorteosLocalEjemplo).map
      Fingerprint.modo = some "local-ip-based".toList ∧
    timezoneIpapi entornoLocalCero.descubrimiento = some "America/New_York".toList ∧
    (generarFingerprintLocal hexadecimal entornoLocalCero sorteosLocalEjemplo).map
      Fingerprint.modo = some "local-ip-based".toList ∧
    (generarFingerprintLocal hexadecimal entornoLocalHeredado sorteosLocalEjemplo).map
      Fingerprint.modo = some "local-fallback".toList := by
  refine ⟨by decide, by decide, by decide, ?_, ?_, by decide, ?_, ?_⟩
  · obtain ⟨fp, hfp, ht, _⟩ := generarFingerprintLocal_agotado hexadecimal
      entornoLocalAgotado sorteosLocalEjemplo (by decide) (by decide) (by decide)
      (by decide) (by decide)
    rw [hfp]
    simp only [Option.map_some', ht]
  · obtain ⟨fp, hfp, _, hm, _⟩ := generarFingerprintLocal_agotado hexadecimal
      entornoLocalAgotado sorteosLocalEjemplo (by decide) (by decide) (by decide)
      (by decide) (by decide)
    rw [hfp]
    simp only [Option.map_some', hm]
  · obtain ⟨fp, hfp⟩ := generarFingerprintLocalTry_returns hexadecimal
      entornoLocalCero sorteosLocalEjemplo (by decide) (by decide) perfilAmerica (by decide)
    obtain ⟨_, _, hm, _⟩ := generarFingerprintLocalTry_campos _ _ _ fp hfp
    unfold generarFingerprintLocal
    rw [hfp]
    simp only [Option.map_some', hm]
  · have hnone : generarFingerprintLocalTry hexadecimal entornoLocalHeredado
        sorteosLocalEjemplo = none := by
      cases ht : generarFingerprintLocalTry hexadecimal entornoLocalHeredado
          sorteosLocalEjemplo with
      | none => rfl
      | some fp =>
        obtain ⟨perfil, hp, _⟩ := generarFingerprintLocalTry_idioma _ _ _ fp ht
        have hh : construirPerfilIdioma entornoLocalHeredado.perfilSistema
            (some (obtenerTimezoneDesdeIP entornoLocalHeredado.descubrimiento)) true none =
            Hallado.heredado := by decide
        rw [hh] at hp
        cases hp
    obtain ⟨fp, hfp⟩ := generarFingerprintLocalCatch_returns hexadecimal
      entornoLocalHeredado sorteosLocalEjemplo
    obtain ⟨_, _, hm, _⟩ := generarFingerprintLocalCatch_campos _ _ _ fp hfp
    unfold generarFingerprintLocal
    rw [hnone]
    simp only
    rw [hfp]
    simp only [Option.map_some', hm]

/-! ## The disabled flag: theorems -/

theorem toggleDisabled_rows (db : DB) (hid : (db.rows.map Row.id).Nodup) (row : Row)
    (hrow : row ∈ db.rows) :
    toggleDisabled db row.id =
      (⟨db.rows.map (fun r => if r.id = row.id then
          { r with disabled := if r.disabled ≠ 0 then 0 else 1 } else r), db.seq⟩,
        some (if row.disabled ≠ 0 then 0 else 1)) := by
  simp only [toggleDisabled, buscarPorId_of_mem db hid row hrow, actualizarDonde]
  congr 2
  apply List.map_congr_left
  intro r hr
  by_cases h : r.id = row.id
  · have : r = row := eq_of_id_eq hid hr hrow h
    subst this
    simp
  · simp [h]

theorem actualizarDonde_banderas (db : DB) (id : Nat) (f : Row → Row)
    (hf : ∀ r, (f r).id = r.id ∧ (f r).disabled = r.disabled) :
    banderas (actualizarDonde db id f) = banderas db := by
  simp only [banderas, actualizarDonde, List.map_map]
  apply List.map_congr_left
  intro r _
  by_cases h : r.id = id <;> simp [h, hf]

theorem incrementarSesiones_banderas (db : DB) (id : Nat) :
    banderas (incrementarSesiones db id).1 = banderas db := by
  unfold incrementarSesiones
  cases buscarPorId db id with
  | none => rfl
  | some row => exact actualizarDonde_banderas db id _ (fun r => ⟨rfl, rfl⟩)

theorem sumarPoliza_banderas (db : DB) (id : Nat) (k : Int) (ahora : Str) :
    banderas (sumarPoliza db id k ahora).1 = banderas db := by
  unfold sumarPoliza
  cases buscarPorId db id with
  | none => rfl
  | some row => exact actualizarDonde_banderas db id _ (fun r => ⟨rfl, rfl⟩)

theorem insertOrReplace_binario (db : DB) (e : Str) (p : ProxyParsed)
    (h : DisabledBinario db) : DisabledBinario (insertOrReplace db e p) := by
  intro r hr
  simp only [insertOrReplace, List.mem_append, List.mem_singleton] at hr
  rcases hr with hr | rfl
  · exact h r (List.mem_filter.1 hr).1
  · exact Or.inl rfl

theorem foldl_insertOrReplace_binario (e : Str) (regs : List ProxyParsed) (db : DB)
    (h : DisabledBinario db) :
    DisabledBinario (regs.foldl (fun d reg => insertOrReplace d e reg) db) := by
  induction regs generalizing db with
  | nil => exact h
  | cons reg regs ih => exact ih _ (insertOrReplace_binario db e reg h)

theorem actualizarDonde_binario (db : DB) (id : Nat) (f : Row → Row)
    (hf : ∀ r, (f r).disabled = r.disabled ∨ (f r).disabled = 0 ∨ (f r).disabled = 1)
    (h : DisabledBinario db) : DisabledBinario (actualizarDonde db id f) := by
  intro r hr
  simp only [actualizarDonde] at hr
  obtain ⟨r0, hr0, rfl⟩ := List.mem_map.1 hr
  by_cases hid : r0.id = id
  · simp only [hid, if_true]
    rcases hf r0 with h1 | h1 | h1
    · rw [h1]
      exact h r0 hr0
    · exact Or.inl h1
    · exact Or.inr h1
  · simp only [hid, if_false]
    exact h r0 hr0

theorem aplicar_binario (db : DB) (op : Op) (h : DisabledBinario db) :
    DisabledBinario (aplicar db op) := by
  cases op with
  | importar contenido stateCode =>
    simp only [aplicar, importarProxiesDesdeArchivo]
    cases normalizarEstado stateCode with
    | none => exact h
    | some e =>
      cases contenido with
      | none => exact h
      | some texto =>
        simp only
        split
        · exact h
        · exact foldl_insertOrReplace_binario e _ db h
  | incrementar proxyId =>
    simp only [aplicar, incrementarSesiones]
    cases buscarPorId db proxyId with
    | none => exact h
    | some row => exact actualizarDonde_binario db proxyId _ (fun r => Or.inl rfl) h
  | marcar nodoId =>
    simp only [aplicar, marcarSesionCompletada]
    cases buscarPorId db nodoId with
    | none => exact h
    | some row => exact actualizarDonde_binario db nodoId _ (fun r => Or.inl rfl) h
  | sumar proxyId cantidad ahora =>
    simp only [aplicar, sumarPoliza]
    cases buscarPorId db proxyId with
    | none => exact h
    | some row => exact actualizarDonde_binario db proxyId _ (fun r => Or.inl rfl) h
  | actualizar proxyId poliza ahora =>
    exact actualizarDonde_binario db proxyId _ (fun r => Or.inl rfl) h
  | toggle proxyId =>
    simp only [aplicar, toggleDisabled]
    cases buscarPorId db proxyId with
    | none => exact h
    | some row =>
      apply actualizarDonde_binario db proxyId _ _ h
      intro r
      by_cases hd : row.disabled ≠ 0
      · exact Or.inr (Or.inl (by simp [hd]))
      · exact Or.inr (Or.inr (by simp [hd]))

theorem ejecutar_binario (ops : List Op) (db : DB) (h : DisabledBinario db) :
    DisabledBinario (ejecutar db ops) := by
  induction ops generalizing db with
  | nil => exact h
  | cons op ops ih => exact ih _ (aplicar_binario db op h)

theorem ejecutar_nodup (ops : List Op) (db : DB) (h : (db.rows.map Row.id).Nodup) :
    ((ejecutar db ops).rows.map Row.id).Nodup := by
  induction ops generalizing db with
  | nil => exact h
  | cons op ops ih => exact ih _ (aplicar_nodup db op h)

theorem toggleDisabled_dos_veces (db : DB) (hid : (db.rows.map Row.id).Nodup)
    (hbin : DisabledBinario db) (row : Row) (hrow : row ∈ db.rows) :
    (toggleDisabled (toggleDisabled db row.id).1 row.id).1 = db := by
  have h1 := toggleDisabled_rows db hid row hrow
  have hid1 : ((toggleDisabled db row.id).1.rows.map Row.id).Nodup := by
    rw [h1]
    simp only [List.map_map]
    have : (Row.id ∘ fun r => if r.id = row.id then
        { r with disabled := if r.disabled ≠ 0 then 0 else 1 } else r) = Row.id := by
      funext r
      by_cases h : r.id = row.id <;> simp [h]
    rw [this]
    exact hid
  have hrow1 : ({ row with disabled := if row.disabled ≠ 0 then 0 else 1 } : Row) ∈
      (toggleDisabled db row.id).1.rows := by
    rw [h1]
    simp only [List.mem_map]
    exact ⟨row, hrow, by simp⟩
  have h2 := toggleDisabled_rows (toggleDisabled db row.id).1 hid1 _ hrow1
  simp only at h2
  rw [h2, h1]
  simp only [List.map_map]
  have hmap : db.rows.map ((fun r => if r.id = row.id then
        { r with disabled := if r.disabled ≠ 0 then 0 else 1 } else r) ∘
      (fun r => if r.id = row.id then
        { r with disabled := if r.disabled ≠ 0 then 0 else 1 } else r)) = db.rows := by
    conv_rhs => rw [← List.map_id db.rows]
    apply List.map_congr_left
    intro r hr
    by_cases h : r.id = row.id
    · rcases hbin r hr with hd | hd
      · simp [h, hd]
        cases r
        simp_all
      · simp [h, hd]
        cases r
        simp_all
    · simp [h]
  rw [hmap]

/-- C27. For every stored node `row` (of a table with distinct ids and flags 0 or 1, as
every table reachable from the empty one is), `toggleDisabled(id)` returns the flipped flag
(0 becomes 1, non-zero becomes 0) and writes it in that node, leaving its other fields and
every other node; applying it twice restores the table.  The session credits and the
policy operations leave the flag of every node. -/
theorem toggleDisabled_flips_only_flag (db : DB) (row : Row)
    (hid : (db.rows.map Row.id).Nodup) (hbin : DisabledBinario db) (hrow : row ∈ db.rows) :
    (toggleDisabled db row.id).2 = some (if row.disabled ≠ 0 then 0 else 1) ∧
    (toggleDisabled db row.id).1 =
      ⟨db.rows.map (fun r => if r.id = row.id then
          { row with disabled := if row.disabled ≠ 0 then 0 else 1 } else r), db.seq⟩ ∧
    (toggleDisabled (toggleDisabled db row.id).1 row.id).1 = db ∧
    (∀ id, banderas (incrementarSesiones db id).1 = banderas db) ∧
    (∀ id, banderas (marcarSesionCompletada db id).1 = banderas db) ∧
    (∀ id k ahora, banderas (sumarPoliza db id k ahora).1 = banderas db) ∧
    (∀ id poliza ahora, banderas (actualizarPoliza db id poliza ahora) = banderas db) ∧
    (∀ ops, ((ejecutar DB.vacia ops).rows.map Row.id).Nodup ∧
      DisabledBinario (ejecutar DB.vacia ops)) := by
  have h1 := toggleDisabled_rows db hid row hrow
  refine ⟨by rw [h1], ?_, toggleDisabled_dos_veces db hid hbin row hrow,
    incrementarSesiones_banderas db, ?_, sumarPoliza_banderas db, ?_, ?_⟩
  · rw [h1]
    simp only [DB.mk.injEq, and_true]
    apply List.map_congr_left
    intro r hr
    by_cases he : r.id = row.id
    · have : r = row := eq_of_id_eq hid hr hrow he
      subst this
      rfl
    · simp [he]
  · intro id
    rw [marcar_eq_incrementar]
    exact incrementarSesiones_banderas db id
  · intro id poliza ahora
    exact actualizarDonde_banderas db id _ (fun r => ⟨rfl, rfl⟩)
  · intro ops
    exact ⟨ejecutar_nodup ops DB.vacia (by simp [DB.vacia]),
      ejecutar_binario ops DB.vacia (by simp [DisabledBinario, DB.vacia])⟩

/-- C27, on the example table: node 3 is disabled; one call enables it and returns 0, a
second call restores the table. -/
theorem toggleDisabled_flips_only_flag_witness :
    (dbEjemplo.rows.map Row.id).Nodup ∧ DisabledBinario dbEjemplo ∧
    (toggleDisabled dbEjemplo 3).2 = some 0 ∧
    (toggleDisabled (toggleDisabled dbEjemplo 3).1 3).1 = dbEjemplo :=
  ⟨by decide, by unfold DisabledBinario; decide,
    (toggleDisabled_flips_only_flag dbEjemplo
      ⟨3, "1.2.3.6".toList, 8080, "user".toList, "pass".toList, "FL".toList, "FL".toList,
        disponible, 0, [], [], 1⟩ (by decide) (by unfold DisabledBinario; decide)
      (by decide)).1,
    (toggleDisabled_flips_only_flag dbEjemplo
      ⟨3, "1.2.3.6".toList, 8080, "user".toList, "pass".toList, "FL".toList, "FL".toList,
        disponible, 0, [], [], 1⟩ (by decide) (by unfold DisabledBinario; decide)
      (by decide)).2.2.1⟩

/-! ## The exhaustion diagnostic: theorems -/

/-- The name `:state_code` matches no parameter of the statement, so nothing is bound. -/
theorem bindFromObject_state_code (estado : Str) :
    bindFromObject [none] [(":state_code".toList, estado)] = [none] := by
  simp [bindFromObject, indiceParametro]

/-- The counts of `contarDisponiblesPorEstado` are 0 for every table and argument. -/
theorem contarDisponiblesPorEstado_cero (db : DB) (stateCode : Option Str) :
    contarDisponiblesPorEstado db stateCode = ⟨0, 0⟩ := by
  unfold contarDisponiblesPorEstado
  cases normalizarEstado stateCode with
  | none => rfl
  | some estado =>
    simp only [bindFromObject_state_code]
    simp

/-- C28, failing input. On the example table, which holds three nodes of the region `FL`,
one of them Available and enabled, `contarDisponiblesPorEstado('FL')` returns total 0 and
disponibles 0, where the counting query of `obtenerSiguienteNodo` finds 3 and 1.  After
one more session on node 4 the region `NY` is exhausted: the allocation for
`'New-York-NY'` fails, one node is registered for `NY`, and the diagnostic still has
total 0, so the handler answers that no proxies are registered.  The counts are 0 for
every table and every region code. -/
theorem contarDisponiblesPorEstado_reports_zero :
    contarDisponiblesPorEstado dbEjemplo (some "FL".toList) = ⟨0, 0⟩ ∧
    contarPorEstado dbEjemplo "FL".toList = ⟨3, 1⟩ ∧
    obtenerSiguienteNodo (ejecutar dbEjemplo [Op.incrementar 4])
      (some "New-York-NY".toList) = none ∧
    contarPorEstado (ejecutar dbEjemplo [Op.incrementar 4]) "NY".toList = ⟨1, 0⟩ ∧
    contarDisponiblesPorEstado (ejecutar dbEjemplo [Op.incrementar 4])
      (some "NY".toList) = ⟨0, 0⟩ ∧
    mensajeSinRegistrados (ejecutar dbEjemplo [Op.incrementar 4])
      (some "New-York-NY".toList) = true ∧
    (∀ (db : DB) (stateCode : Option Str),
      contarDisponiblesPorEstado db stateCode = ⟨0, 0⟩) :=
  ⟨by decide, by decide, by decide, by decide, by decide, by decide,
    contarDisponiblesPorEstado_cero⟩

/-! ## Lines without `@` -/

theorem formato1_sin_arroba (trimmed : Str) (h : includes '@' trimmed = false) :
    formato1 trimmed = Vars.vacio := by
  unfold formato1
  simp [h]

/-- A line without `@` that is not blank and not a comment is read by the second block
alone. -/
theorem parsear_sin_arroba (l : Str) (hat : includes '@' (trim l) = false)
    (hne : trim l ≠ []) (hhash : startsWith '#' (trim l) = false) :
    parsearLineaProxy l = validar (formato2 (trim l) Vars.vacio) := by
  have hl : l.isEmpty = false := by
    cases l with
    | nil => exact absurd rfl hne
    | cons _ _ => rfl
  have ht : (trim l).isEmpty = false := by
    cases h : trim l with
    | nil => exact absurd h hne
    | cons _ _ => rfl
  unfold parsearLineaProxy
  simp only [hl, ht, hhash, formato1_sin_arroba _ hat]
  simp

/-- C29, counterexample. The line `user:pass:example.com:8080` has no `@` and four tokens;
neither its second token `pass` nor its second-to-last token `example.com` is a port
number, and `parsearLineaProxy` returns a result, decided by the last token `8080`.  The
line `user:pass:8080:host` has a port number as second-to-last token and
`parsearLineaProxy` returns no result. -/
theorem parsear_orientation_by_last_token :
    includes '@' "user:pass:example.com:8080".toList = false ∧
    split ':' "user:pass:example.com:8080".toList =
      ["user".toList, "pass".toList, "example.com".toList, "8080".toList] ∧
    esPuerto (parseInt "pass".toList) = false ∧
    esPuerto (parseInt "example.com".toList) = false ∧
    parsearLineaProxy "user:pass:example.com:8080".toList =
      some ⟨"example.com".toList, 8080, "user".toList, "pass".toList⟩ ∧
    split ':' "user:pass:8080:host".toList =
      ["user".toList, "pass".toList, "8080".toList, "host".toList] ∧
    esPuerto (parseInt "8080".toList) = true ∧
    parsearLineaProxy "user:pass:8080:host".toList = none := by
  decide

/-- The reading of a line without `@` that is not blank and does not start with `#`, with
the port test of the source (`parseInt` of the token in [1,65535]): by the second token,
then by the last token. -/
theorem parsear_sin_arroba_lectura (l : Str) (hat : includes '@' (trim l) = false)
    (hne : trim l ≠ []) (hhash : startsWith '#' (trim l) = false) :
    ((split ':' (trim l)).length < 4 → parsearLineaProxy l = none) ∧
    (4 ≤ (split ':' (trim l)).length →
      esPuerto (parseInt ((split ':' (trim l)).getD 1 [])) = true →
      parsearLineaProxy l =
        validar ⟨(split ':' (trim l)).head?, parseInt ((split ':' (trim l)).getD 1 []),
          (split ':' (trim l)).get? 2, some (join ':' ((split ':' (trim l)).drop 3))⟩) ∧
    (4 ≤ (split ':' (trim l)).length →
      esPuerto (parseInt ((split ':' (trim l)).getD 1 [])) = false →
      esPuerto (parseInt ((split ':' (trim l)).getD ((split ':' (trim l)).length - 1) []))
        = true →
      parsearLineaProxy l =
        validar ⟨(split ':' (trim l)).get? ((split ':' (trim l)).length - 2),
          parseInt ((split ':' (trim l)).getD ((split ':' (trim l)).length - 1) []),
          (split ':' (trim l)).head?,
          some (join ':' (slice 1 ((split ':' (trim l)).length - 2) (split ':' (trim l))))⟩) ∧
    (4 ≤ (split ':' (trim l)).length →
      esPuerto (parseInt ((split ':' (trim l)).getD 1 [])) = false →
      esPuerto (parseInt ((split ':' (trim l)).getD ((split ':' (trim l)).length - 1) []))
        = false →
      parsearLineaProxy l = none) ∧
    (∀ r, parsearLineaProxy l = some r →
      r.ip ≠ [] ∧ ' ' ∉ r.ip ∧ 1 ≤ r.puerto ∧ r.puerto ≤ 65535 ∧ r.usuario ≠ [] ∧
        r.password ≠ []) := by
  have hp := parsear_sin_arroba l hat hne hhash
  refine ⟨?_, ?_, ?_, ?_, ?_⟩
  · intro hlen
    rw [hp]
    have : ¬ 4 ≤ (split ':' (trim l)).length := by omega
    simp only [formato2, noStr, Vars.vacio, Bool.true_or, if_true, this, if_false]
    rfl
  · intro hlen h2
    rw [hp]
    simp only [formato2, noStr, Vars.vacio, Bool.true_or, if_true, hlen, h2]
  · intro hlen h2 h3
    rw [hp]
    simp only [formato2, noStr, Vars.vacio, Bool.true_or, if_true, hlen, h2, h3,
      Bool.false_eq_true, if_false]
  · intro hlen h2 h3
    rw [hp]
    simp only [formato2, noStr, Vars.vacio, Bool.true_or, if_true, hlen, h2, h3,
      Bool.false_eq_true, if_false]
    rfl
  · intro r hr
    obtain ⟨_, hq, _, _, h1, _, h3, h4, h5⟩ := validar_some _ r (parsear_some l r hr)
    have hport : esPuerto (some r.puerto) = true :=
      formato2_puerto (trim l) (formato1 (trim l)) r.puerto
        (fun q hq => formato1_puerto (trim l) q hq) hq
    simp only [esPuerto, Bool.and_eq_true, decide_eq_true_eq] at hport
    exact ⟨h1, h5, hport.1, hport.2, h3, h4⟩

theorem esPuerto_de_numero (t : Str) (h : esNumeroDePuerto t) :
    parseInt t = some (digitsValue t : Int) ∧ esPuerto (parseInt t) = true := by
  obtain ⟨⟨h1, h2⟩, h3, h4⟩ := h
  have hp := parseInt_digits t h1 h2
  refine ⟨hp, ?_⟩
  rw [hp]
  simp only [esPuerto, Bool.and_eq_true, decide_eq_true_eq]
  omega

theorem esPuerto_de_no_numero (t : Str) (h : noEsNumeroDePuerto t) :
    esPuerto (parseInt t) = false := by
  rcases h with h | ⟨⟨h1, h2⟩, h3⟩
  · rw [h]
    rfl
  · rw [parseInt_digits t h1 h2]
    simp only [esPuerto, Bool.and_eq_false_imp, decide_eq_true_eq, decide_eq_false_iff_not]
    omega

/-- C29, amended. For every line without `@` that is not blank and does not start with
`#`, with `parts` the tokens of the trimmed line between colons: fewer than 4 tokens give
no result; with at least 4 tokens the orientation is decided by the second token, giving
HOST:PORT:USER:SECRET (the secret is the rest of the line) when that token is a valid port
number, a decimal integer in [1,65535]; when the second token is no number or an integer
outside the range, it is decided by the last token, giving USER:SECRET:HOST:PORT (the host
is the second-to-last token, the secret what lies between) when that token is a valid port
number; when the last token is no number or an integer outside the range either, there
is no result.  The reading is returned when host, user and secret are not empty and the
host holds no space (`validar`), and no result otherwise. -/
theorem parsear_no_at_orientation (l : Str) (hat : includes '@' (trim l) = false)
    (hne : trim l ≠ []) (hhash : startsWith '#' (trim l) = false) :
    ((split ':' (trim l)).length < 4 → parsearLineaProxy l = none) ∧
    (4 ≤ (split ':' (trim l)).length →
      esNumeroDePuerto ((split ':' (trim l)).getD 1 []) →
      parsearLineaProxy l =
        validar ⟨(split ':' (trim l)).head?,
          some (digitsValue ((split ':' (trim l)).getD 1 []) : Int),
          (split ':' (trim l)).get? 2, some (join ':' ((split ':' (trim l)).drop 3))⟩) ∧
    (4 ≤ (split ':' (trim l)).length →
      noEsNumeroDePuerto ((split ':' (trim l)).getD 1 []) →
      esNumeroDePuerto ((split ':' (trim l)).getD ((split ':' (trim l)).length - 1) []) →
      parsearLineaProxy l =
        validar ⟨(split ':' (trim l)).get? ((split ':' (trim l)).length - 2),
          some (digitsValue
            ((split ':' (trim l)).getD ((split ':' (trim l)).length - 1) []) : Int),
          (split ':' (trim l)).head?,
          some (join ':' (slice 1 ((split ':' (trim l)).length - 2) (split ':' (trim l))))⟩) ∧
    (4 ≤ (split ':' (trim l)).length →
      noEsNumeroDePuerto ((split ':' (trim l)).getD 1 []) →
      noEsNumeroDePuerto ((split ':' (trim l)).getD ((split ':' (trim l)).length - 1) []) →
      parsearLineaProxy l = none) ∧
    (∀ r, parsearLineaProxy l = some r →
      r.ip ≠ [] ∧ ' ' ∉ r.ip ∧ 1 ≤ r.puerto ∧ r.puerto ≤ 65535 ∧ r.usuario ≠ [] ∧
        r.password ≠ []) := by
  obtain ⟨a, b, c, d, e⟩ := parsear_sin_arroba_lectura l hat hne hhash
  refine ⟨a, ?_, ?_, ?_, e⟩
  · intro hlen h2
    obtain ⟨hp, hq⟩ := esPuerto_de_numero _ h2
    rw [b hlen hq, hp]
  · intro hlen h2 h3
    obtain ⟨hp, hq⟩ := esPuerto_de_numero _ h3
    rw [c hlen (esPuerto_de_no_numero _ h2) hq, hp]
  · intro hlen h2 h3
    exact d hlen (esPuerto_de_no_numero _ h2) (esPuerto_de_no_numero _ h3)

/-- C29 amended, on the lines `proxy.example.com:8080:user:pa:ss` (second token a port),
`user:pa:ss:example.com:8080` (last token a port), `a:b:c` (three tokens) and
`a:b:c:70000` (no port). -/
theorem parsear_no_at_orientation_witness :
    parsearLineaProxy "proxy.example.com:8080:user:pa:ss".toList =
      some ⟨"proxy.example.com".toList, 8080, "user".toList, "pa:ss".toList⟩ ∧
    parsearLineaProxy "user:pa:ss:example.com:8080".toList =
      some ⟨"example.com".toList, 8080, "user".toList, "pa:ss".toList⟩ ∧
    parsearLineaProxy "a:b:c".toList = none ∧
    parsearLineaProxy "a:b:c:70000".toList = none :=
  ⟨((parsear_no_at_orientation "proxy.example.com:8080:user:pa:ss".toList
      (by decide) (by decide) (by decide)).2.1 (by decide) (by decide)).trans (by decide),
    ((parsear_no_at_orientation "user:pa:ss:example.com:8080".toList
      (by decide) (by decide) (by decide)).2.2.1 (by decide) (by decide) (by decide)).trans
      (by decide),
    (parsear_no_at_orientation "a:b:c".toList (by decide) (by decide) (by decide)).1
      (by decide),
    (parsear_no_at_orientation "a:b:c:70000".toList (by decide) (by decide)
      (by decide)).2.2.2.1 (by decide) (by decide) (by decide)⟩

/-- C30, failing input. The line `1.2.3.4:8080:user:pass:Miami-FL` of the five-field
format IP:PORT:USER:PASS:UBICACION is accepted with the password `pass:Miami-FL`: the
location field is part of the returned password. -/
theorem parsear_legacy_location_in_password :
    parsearLineaProxy "1.2.3.4:8080:user:pass:Miami-FL".toList =
      some ⟨"1.2.3.4".toList, 8080, "user".toList, "pass:Miami-FL".toList⟩ ∧
    parsearLineaProxy "1.2.3.4:8080:user:pass:Miami-FL".toList ≠
      some ⟨"1.2.3.4".toList, 8080, "user".toList, "pass".toList⟩ := by
  decide

end ShieldBrowser
